import Mathlib

/-!
Trotter-Suzuki solver (1-D): embedding of `src/solver1D.cpp`, of the choice
of the output directory in `examples/harmonic_osc_real.cpp` and
`test/unittest.cpp`, and of `init_state` of `test/unittest.cpp`.

The C++ type `double` is read as an element of an arbitrary field `K` (exact
arithmetic), so every definition below is executable over `ℚ`; statements that
involve `cos`, `sin`, `cosh`, `sinh` or `exp` are proved over `ℝ` for a math
library that returns the exact values.  C `int` is read as `Int`; none of the
index computations below can overflow for tile sizes that fit in memory.
The literals `2.5` and `0.5` of the source are written `5 / 2` and `1 / 2`.
-/

namespace TrotterSuzuki

set_option linter.unusedSectionVars false

/-! ## `std::complex<double>` -/

/-- The type `std::complex<double>`, with the scalar type abstracted. -/
structure Cplx (K : Type) where
  re : K
  im : K
deriving DecidableEq

namespace Cplx

variable {K : Type} [Field K]

/-- The conversion `complex<double>(x, 0.)`, also applied implicitly to a `double`. -/
def ofReal (x : K) : Cplx K := ⟨x, 0⟩

/-- The imaginary unit `complex<double>(0., 1.)`. -/
def I : Cplx K := ⟨0, 1⟩

instance : Zero (Cplx K) := ⟨⟨0, 0⟩⟩

instance : Add (Cplx K) := ⟨fun z w => ⟨z.re + w.re, z.im + w.im⟩⟩

instance : Mul (Cplx K) := ⟨fun z w => ⟨z.re * w.re - z.im * w.im, z.re * w.im + z.im * w.re⟩⟩

/-- The function `conj` of `<complex>`. -/
def conj (z : Cplx K) : Cplx K := ⟨z.re, -z.im⟩

/-- The function `real` of `<complex>`. -/
def real (z : Cplx K) : K := z.re

/-- The function `imag` of `<complex>`. -/
def imag (z : Cplx K) : K := z.im

/-- The squared modulus `|z|²`. -/
def normSq (z : Cplx K) : K := z.re * z.re + z.im * z.im

instance : AddCommMonoid (Cplx K) where
  add_assoc a b c := by
    cases a; cases b; cases c
    show Cplx.mk _ _ = Cplx.mk _ _
    congr 1 <;> apply add_assoc
  zero_add a := by
    cases a
    show Cplx.mk _ _ = Cplx.mk _ _
    congr 1 <;> apply zero_add
  add_zero a := by
    cases a
    show Cplx.mk _ _ = Cplx.mk _ _
    congr 1 <;> apply add_zero
  add_comm a b := by
    cases a; cases b
    show Cplx.mk _ _ = Cplx.mk _ _
    congr 1 <;> apply add_comm
  nsmul := nsmulRec

end Cplx

/-! ## The math library -/

/-- The functions of `<cmath>` that the solver calls. They are not part of the
repository and are taken as a parameter. -/
structure Libm (K : Type) where
  cos : K → K
  sin : K → K
  cosh : K → K
  sinh : K → K
  exp : K → K

/-- The function `std::exp` on `complex<double>`:
`exp(a + i b) = exp(a) (cos b + i sin b)`. -/
def Libm.cexp {K : Type} [Field K] (L : Libm K) (z : Cplx K) : Cplx K :=
  ⟨L.exp z.re * L.cos z.im, L.exp z.re * L.sin z.im⟩

/-- A math library over the reals whose functions return the exact values. -/
def Libm.Exact (L : Libm ℝ) : Prop :=
  L.cos = Real.cos ∧ L.sin = Real.sin ∧ L.cosh = Real.cosh ∧ L.sinh = Real.sinh ∧
    L.exp = Real.exp

/-! ## Counted loops -/

/-- The loop `for (int j = lo; j < hi; ++j) body`, as a state transformer. -/
def forLoop {σ : Type} (lo hi : Int) (body : Int → σ → σ) (init : σ) : σ :=
  (List.range (hi - lo).toNat).foldl (fun (acc : σ) (k : Nat) => body (lo + (k : Int)) acc) init

/-! ## Data model (declared in `trottersuzuki1D.h`, read off from the member accesses) -/

/-- The members of `Lattice1D` that the solver reads. -/
structure Lattice1D (K : Type) where
  dim_x : Int
  delta_x : K
  start_x : Int
  end_x : Int
  inner_start_x : Int
  inner_end_x : Int

/-- The members of `State1D` that the solver reads: the two arrays are indexed
by the tile index, `p_real j` being the cell `p_real[j]`. -/
structure State1D (K : Type) where
  p_real : Int → K
  p_imag : Int → K
  expected_values_updated : Bool

/-- The class `Potential1D`: `get_value x` is the call `get_value(x)`. -/
structure Potential1D (K : Type) where
  get_value : Int → K

/-- The members of `Hamiltonian1D` that the solver reads. -/
structure Hamiltonian1D (K : Type) where
  mass : K
  coupling_a : K
  potential : Potential1D K

/-- The derived class `Hamiltonian2Component1D`. -/
structure Hamiltonian2Component1D (K : Type) extends Hamiltonian1D K where
  mass_b : K
  coupling_b : K
  coupling_ab : K
  omega_r : K
  omega_i : K
  potential_b : Potential1D K

/-- The arguments with which `init_kernel` constructs a kernel (the kernel
classes themselves live in `kernel1D.h`). -/
structure Kernel1D (K : Type) where
  two_component : Bool
  h_a : Nat → K
  h_b : Nat → K
  delta_t : K
  imag_time : Bool

/-- The members of `Solver1D`. The solver keeps a `Hamiltonian1D*` that it casts
to `Hamiltonian2Component1D*` when `single_component` is false; the model stores
the object at the derived type, and the members of the derived class, like
`state_b`, are read only when `single_component` is false. Arrays of two
elements are functions of the index `0` or `1`; `kernel = none` is `kernel == NULL`. -/
structure Solver1D (K : Type) where
  grid : Lattice1D K
  state : State1D K
  state_b : State1D K
  hamiltonian : Hamiltonian2Component1D K
  delta_t : K
  kernel_type : String
  kernel : Option (Kernel1D K)
  single_component : Bool
  imag_time : Bool
  h_a : Nat → K
  h_b : Nat → K
  external_pot_real : Nat → Int → K
  external_pot_imag : Nat → Int → K
  norm2 : Nat → K
  kinetic_energy : Nat → K
  potential_energy : Nat → K
  intra_species_energy : Nat → K
  inter_species_energy : K
  rabi_energy : K
  total_energy : K
  tot_kinetic_energy : K
  tot_potential_energy : K
  tot_intra_species_energy : K
  current_evolution_time : K
  energy_expected_values_updated : Bool
  has_parameters_changed : Bool

variable {K : Type} [Field K]

/-- Assignment `a[i] = v` to a cell of an array. -/
def setAt {ι : Type} [DecidableEq ι] (a : ι → K) (i : ι) (v : K) : ι → K :=
  fun k => if k = i then v else a k

/-! ## `Solver1D::initialize_exp_potential` -/

/-- The value `ptmp` of lines 78-83: the potential of the component `which` at
the cell `x`. -/
def exp_potential_ptmp (s : Solver1D K) (which : Nat) (x : Int) : K :=
  if which = 0 then s.hamiltonian.potential.get_value x
  else s.hamiltonian.potential_b.get_value x

/-- The value `tmp` of lines 84-89: the exponential of the potential value
`ptmp` over the time `delta_t`. -/
def exp_potential_tmp (L : Libm K) (imag_time : Bool) (delta_t ptmp : K) : Cplx K :=
  if imag_time then L.cexp ⟨-delta_t * ptmp, 0⟩
  else L.cexp ⟨0, -delta_t * ptmp⟩

/-- The body of the loop of `initialize_exp_potential` for the cell `x`
(lines 78-92). The running coordinate `idx` is never read and is left out. -/
def initialize_exp_potential_body (L : Libm K) (s : Solver1D K) (delta_t : K) (which : Nat)
    (x : Int) (pot : (Nat → Int → K) × (Nat → Int → K)) :
    (Nat → Int → K) × (Nat → Int → K) :=
  let ptmp : K := exp_potential_ptmp s which x
  let tmp : Cplx K := exp_potential_tmp L s.imag_time delta_t ptmp
  (setAt pot.1 which (setAt (pot.1 which) x (Cplx.real tmp)),
   setAt pot.2 which (setAt (pot.2 which) x (Cplx.imag tmp)))

/-- The method `Solver1D::initialize_exp_potential(delta_t, which)`. -/
def initialize_exp_potential (L : Libm K) (s : Solver1D K) (delta_t : K) (which : Nat) :
    Solver1D K :=
  let pot := forLoop 0 s.grid.dim_x (initialize_exp_potential_body L s delta_t which)
    (s.external_pot_real, s.external_pot_imag)
  { s with external_pot_real := pot.1, external_pot_imag := pot.2 }

/-- Modelled from the spec: `State1D::get_squared_norm` is not under `src/`; by
the data model `norm2 = ∑ |ψ|² · dV` over the inner sub-box, with `dV = dx`. -/
def State1D.get_squared_norm (grid : Lattice1D K) (st : State1D K) : K :=
  forLoop (grid.inner_start_x - grid.start_x) (grid.inner_end_x - grid.start_x)
    (fun j acc => acc + (st.p_real j * st.p_real j + st.p_imag j * st.p_imag j)) 0
    * grid.delta_x

/-! ## `Solver1D::evolve`: recomputation of the constants -/

/-- The statements of `Solver1D::evolve` between the test of line 141 and the
call of `init_kernel` (lines 142-167): the regime flag, the kinetic constants
`h_a`, `h_b` and the exponentiated potential of every component. -/
def evolve_recompute (L : Libm K) (s : Solver1D K) (_imag_time : Bool) : Solver1D K :=
  let s := { s with imag_time := _imag_time }
  if s.imag_time then
    let s := { s with
      h_a := setAt s.h_a 0
        (L.cosh (s.delta_t / (4 * s.hamiltonian.mass * s.grid.delta_x * s.grid.delta_x))) }
    let s := { s with
      h_b := setAt s.h_b 0
        (L.sinh (s.delta_t / (4 * s.hamiltonian.mass * s.grid.delta_x * s.grid.delta_x))) }
    let s := initialize_exp_potential L s s.delta_t 0
    let s := { s with norm2 := setAt s.norm2 0 (State1D.get_squared_norm s.grid s.state) }
    if !s.single_component then
      let s := { s with
        h_a := setAt s.h_a 1
          (L.cosh (s.delta_t / (4 * s.hamiltonian.mass_b * s.grid.delta_x * s.grid.delta_x))) }
      let s := { s with
        h_b := setAt s.h_b 1
          (L.sinh (s.delta_t / (4 * s.hamiltonian.mass_b * s.grid.delta_x * s.grid.delta_x))) }
      let s := initialize_exp_potential L s s.delta_t 1
      { s with norm2 := setAt s.norm2 1 (State1D.get_squared_norm s.grid s.state_b) }
    else s
  else
    let s := { s with
      h_a := setAt s.h_a 0
        (L.cos (s.delta_t / (4 * s.hamiltonian.mass * s.grid.delta_x * s.grid.delta_x))) }
    let s := { s with
      h_b := setAt s.h_b 0
        (L.sin (s.delta_t / (4 * s.hamiltonian.mass * s.grid.delta_x * s.grid.delta_x))) }
    let s := initialize_exp_potential L s s.delta_t 0
    if !s.single_component then
      let s := { s with
        h_a := setAt s.h_a 1
          (L.cos (s.delta_t / (4 * s.hamiltonian.mass_b * s.grid.delta_x * s.grid.delta_x))) }
      let s := { s with
        h_b := setAt s.h_b 1
          (L.sin (s.delta_t / (4 * s.hamiltonian.mass_b * s.grid.delta_x * s.grid.delta_x))) }
      initialize_exp_potential L s s.delta_t 1
    else s

/-! ## The sub-steps of the CPU kernel -/

/-- Modelled from the spec: the kernel `CPUBlock1D` is not under `src/`; by the
kinetic sub-step contract the real-time update of an adjacent pair is
`(ψ_l', ψ_r') = (h_a ψ_l + i h_b ψ_r, i h_b ψ_l + h_a ψ_r)`. -/
def kinetic_pair_real (h_a h_b : K) (psi_l psi_r : Cplx K) : Cplx K × Cplx K :=
  (Cplx.ofReal h_a * psi_l + Cplx.I * Cplx.ofReal h_b * psi_r,
   Cplx.I * Cplx.ofReal h_b * psi_l + Cplx.ofReal h_a * psi_r)

/-- Modelled from the spec: the kernel `CPUBlock1D` is not under `src/`; under
imaginary time the pair update drops the `i`:
`(ψ_l', ψ_r') = (h_a ψ_l + h_b ψ_r, h_b ψ_l + h_a ψ_r)`. -/
def kinetic_pair_imag (h_a h_b : K) (psi_l psi_r : Cplx K) : Cplx K × Cplx K :=
  (Cplx.ofReal h_a * psi_l + Cplx.ofReal h_b * psi_r,
   Cplx.ofReal h_b * psi_l + Cplx.ofReal h_a * psi_r)

/-- Modelled from the spec: the kernel `CPUBlock1D` is not under `src/`; the
potential sub-step is `ψ ← (ER + i EI) ψ` at every cell. -/
def potential_step (er ei : K) (psi : Cplx K) : Cplx K :=
  (⟨er, ei⟩ : Cplx K) * psi


/-! ## `Solver1D::calculate_energy_expected_values` -/

/-- The ten accumulators declared at the head of
`calculate_energy_expected_values` (lines 227-236). -/
structure EnergySums (K : Type) where
  sum_norm2_0 : K
  sum_norm2_1 : K
  sum_kinetic_energy_0 : K
  sum_kinetic_energy_1 : K
  sum_potential_energy_0 : K
  sum_potential_energy_1 : K
  sum_intra_species_energy_0 : K
  sum_intra_species_energy_1 : K
  sum_inter_species_energy : K
  sum_rabi_energy : K

/-- The value `ini_halo_x` of line 238. -/
def ini_halo_x (grid : Lattice1D K) : Int := grid.inner_start_x - grid.start_x

/-- The value `end_halo_x` of line 239. -/
def end_halo_x (grid : Lattice1D K) : Int := grid.end_x - grid.inner_end_x

/-- The value `tile_width` of line 240. -/
def tile_width (grid : Lattice1D K) : Int := grid.end_x - grid.start_x

/-- The conversion of a C++ `bool` to `int`. -/
def boolToInt (b : Bool) : Int := if b then 1 else 0

/-- The test of lines 306-307 that guards the kinetic-energy term of the cell `j`. -/
def kinetic_guard (grid : Lattice1D K) (j : Int) : Bool :=
  decide (j - (grid.inner_start_x - grid.start_x) ≥ boolToInt (ini_halo_x grid == 0) * 2) &&
  decide (j < grid.inner_end_x - grid.start_x - boolToInt (end_halo_x grid == 0) * 2)

/-- The cell `j` of a state as a `complex<double>`. -/
def State1D.psi (st : State1D K) (j : Int) : Cplx K := ⟨st.p_real j, st.p_imag j⟩

/-- The argument of `real` in lines 317 and 329: the kinetic term of the cell
`j` of the state `st`, with `cost` the constant `cost_E` or `cost_E_b`. -/
def kinetic_term (grid : Lattice1D K) (st : State1D K) (cost : Cplx K) (j : Int) : Cplx K :=
  let const_1 : Cplx K := Cplx.ofReal (-1 / 12)
  let const_2 : Cplx K := Cplx.ofReal (4 / 3)
  let const_3 : Cplx K := Cplx.ofReal (-(5 / 2))
  let psi_center := st.psi j
  let psi_right := st.psi (j + 1)
  let psi_left := st.psi (j - 1)
  let psi_right_right := st.psi (j + 2)
  let psi_left_left := st.psi (j - 2)
  Cplx.conj psi_center * cost *
    (Cplx.ofReal (1 / (grid.delta_x * grid.delta_x)) *
      (const_1 * psi_right_right + const_2 * psi_right + const_2 * psi_left +
        const_1 * psi_left_left + const_3 * psi_center))

/-- The body of the loop of lines 285-334 for the tile index `j`. -/
def energy_loop_body (s : Solver1D K) (j : Int) (acc : EnergySums K) : EnergySums K :=
  let potential := s.hamiltonian.potential
  let coupling := s.hamiltonian.coupling_a
  let mass := s.hamiltonian.mass
  let potential_b := s.hamiltonian.potential_b
  let coupling_b := s.hamiltonian.coupling_b
  let coupling_ab := s.hamiltonian.coupling_ab
  let mass_b := s.hamiltonian.mass_b
  let omega : Cplx K := ⟨s.hamiltonian.omega_r, s.hamiltonian.omega_i⟩
  let cost_E : Cplx K := Cplx.ofReal (-1 / (2 * mass))
  let cost_E_b : Cplx K := Cplx.ofReal (-1 / (2 * mass_b))
  let psi_center := s.state.psi j
  let acc := { acc with
    sum_norm2_0 := acc.sum_norm2_0 + Cplx.real (Cplx.conj psi_center * psi_center) }
  let acc := { acc with
    sum_potential_energy_0 := acc.sum_potential_energy_0 +
      Cplx.real (Cplx.conj psi_center * psi_center * Cplx.ofReal (potential.get_value j)) }
  let acc := { acc with
    sum_intra_species_energy_0 := acc.sum_intra_species_energy_0 +
      Cplx.real (Cplx.conj psi_center * psi_center * psi_center * Cplx.conj psi_center *
        Cplx.ofReal (1 / 2 * coupling)) }
  let psi_center_b := s.state_b.psi j
  let acc :=
    if !s.single_component then
      let acc := { acc with
        sum_norm2_1 := acc.sum_norm2_1 + Cplx.real (Cplx.conj psi_center_b * psi_center_b) }
      let acc := { acc with
        sum_potential_energy_1 := acc.sum_potential_energy_1 +
          Cplx.real (Cplx.conj psi_center_b * psi_center_b *
            Cplx.ofReal (potential_b.get_value j)) }
      let acc := { acc with
        sum_intra_species_energy_1 := acc.sum_intra_species_energy_1 +
          Cplx.real (Cplx.conj psi_center_b * psi_center_b * psi_center_b *
            Cplx.conj psi_center_b * Cplx.ofReal (1 / 2 * coupling_b)) }
      let acc := { acc with
        sum_inter_species_energy := acc.sum_inter_species_energy +
          Cplx.real (Cplx.conj psi_center * psi_center * Cplx.conj psi_center * psi_center *
            Cplx.conj psi_center_b * psi_center_b * Cplx.conj psi_center_b * psi_center_b *
            Cplx.ofReal coupling_ab) }
      { acc with
        sum_rabi_energy := acc.sum_rabi_energy +
          Cplx.real (Cplx.conj psi_center * psi_center * Cplx.conj psi_center_b * psi_center_b *
            (Cplx.conj psi_center * psi_center_b * omega +
              Cplx.conj (psi_center_b * omega) * psi_center)) }
    else acc
  if kinetic_guard s.grid j then
    let acc := { acc with
      sum_kinetic_energy_0 := acc.sum_kinetic_energy_0 +
        Cplx.real (kinetic_term s.grid s.state cost_E j) }
    if !s.single_component then
      { acc with
        sum_kinetic_energy_1 := acc.sum_kinetic_energy_1 +
          Cplx.real (kinetic_term s.grid s.state_b cost_E_b j) }
    else acc
  else acc

/-- The sums that the loop of lines 285-334 leaves in the accumulators. -/
def energy_sums (s : Solver1D K) : EnergySums K :=
  forLoop (s.grid.inner_start_x - s.grid.start_x) (s.grid.inner_end_x - s.grid.start_x)
    (energy_loop_body s) ⟨0, 0, 0, 0, 0, 0, 0, 0, 0, 0⟩

/-- The method `Solver1D::calculate_energy_expected_values` in the build
without `HAVE_MPI` (with MPI and one process the all-gather returns the local
value and the reduction loop adds it to zero). -/
def calculate_energy_expected_values (s : Solver1D K) : Solver1D K :=
  let sums := energy_sums s
  let s := { s with norm2 := setAt s.norm2 0 sums.sum_norm2_0 }
  let s := { s with kinetic_energy := setAt s.kinetic_energy 0 sums.sum_kinetic_energy_0 }
  let s := { s with potential_energy := setAt s.potential_energy 0 sums.sum_potential_energy_0 }
  let s := { s with
    intra_species_energy := setAt s.intra_species_energy 0 sums.sum_intra_species_energy_0 }
  let s :=
    if !s.single_component then
      let s := { s with norm2 := setAt s.norm2 1 sums.sum_norm2_1 }
      let s := { s with kinetic_energy := setAt s.kinetic_energy 1 sums.sum_kinetic_energy_1 }
      let s := { s with
        potential_energy := setAt s.potential_energy 1 sums.sum_potential_energy_1 }
      let s := { s with
        intra_species_energy := setAt s.intra_species_energy 1 sums.sum_intra_species_energy_1 }
      let s := { s with inter_species_energy := sums.sum_inter_species_energy }
      { s with rabi_energy := 1 / 2 * sums.sum_rabi_energy }
    else s
  let s := { s with kinetic_energy := setAt s.kinetic_energy 0 (s.kinetic_energy 0 / s.norm2 0) }
  let s := { s with
    potential_energy := setAt s.potential_energy 0 (s.potential_energy 0 / s.norm2 0) }
  let s := { s with
    intra_species_energy := setAt s.intra_species_energy 0 (s.intra_species_energy 0 / s.norm2 0) }
  let s :=
    if s.single_component then
      let s := { s with
        total_energy := s.kinetic_energy 0 + s.potential_energy 0 + s.intra_species_energy 0 }
      let s := { s with tot_kinetic_energy := s.kinetic_energy 0 }
      let s := { s with tot_potential_energy := s.potential_energy 0 }
      { s with tot_intra_species_energy := s.intra_species_energy 0 }
    else
      let s := { s with
        kinetic_energy := setAt s.kinetic_energy 1 (s.kinetic_energy 1 / s.norm2 1) }
      let s := { s with
        potential_energy := setAt s.potential_energy 1 (s.potential_energy 1 / s.norm2 1) }
      let s := { s with
        intra_species_energy :=
          setAt s.intra_species_energy 1 (s.intra_species_energy 1 / s.norm2 1) }
      let s := { s with
        inter_species_energy := s.inter_species_energy / (s.norm2 0 * s.norm2 1) }
      let s := { s with rabi_energy := s.rabi_energy / (s.norm2 0 * s.norm2 1) }
      let s := { s with
        total_energy := s.kinetic_energy 0 + s.potential_energy 0 + s.intra_species_energy 0 +
          s.kinetic_energy 1 + s.potential_energy 1 + s.intra_species_energy 1 +
          s.inter_species_energy + s.rabi_energy }
      let s := { s with tot_kinetic_energy := s.kinetic_energy 0 + s.kinetic_energy 1 }
      let s := { s with tot_potential_energy := s.potential_energy 0 + s.potential_energy 1 }
      let s := { s with
        tot_intra_species_energy := s.intra_species_energy 0 + s.intra_species_energy 1 }
      { s with norm2 := setAt s.norm2 1 (s.norm2 1 * s.grid.delta_x) }
  let s := { s with norm2 := setAt s.norm2 0 (s.norm2 0 * s.grid.delta_x) }
  { s with energy_expected_values_updated := true }

/-! ## The getters

Each getter returns its value together with the solver after the call; the
messages written to `cout` are not modelled. -/

/-- The first two lines of every getter: recompute the expectation values when
the cache is stale. -/
def refresh (s : Solver1D K) : Solver1D K :=
  if !s.energy_expected_values_updated then calculate_energy_expected_values s else s

/-- The method `Solver1D::get_squared_norm(which)`. -/
def get_squared_norm (s : Solver1D K) (which : Nat) : K × Solver1D K :=
  let s := refresh s
  if which = 3 then
    if s.single_component then (s.norm2 0, s)
    else (s.norm2 0 + s.norm2 1, s)
  else if which = 1 then (s.norm2 0, s)
  else if which = 2 then
    if s.single_component then (0, s)
    else (s.norm2 1, s)
  else (0, s)

/-- The method `Solver1D::get_kinetic_energy(which)`. -/
def get_kinetic_energy (s : Solver1D K) (which : Nat) : K × Solver1D K :=
  let s := refresh s
  if which = 3 then (s.tot_kinetic_energy, s)
  else if which = 1 then (s.kinetic_energy 0, s)
  else if which = 2 then
    if s.single_component then (0, s)
    else (s.kinetic_energy 1, s)
  else (0, s)

/-- The method `Solver1D::get_potential_energy(which)`. -/
def get_potential_energy (s : Solver1D K) (which : Nat) : K × Solver1D K :=
  let s := refresh s
  if which = 3 then (s.tot_potential_energy, s)
  else if which = 1 then (s.potential_energy 0, s)
  else if which = 2 then
    if s.single_component then (0, s)
    else (s.potential_energy 1, s)
  else (0, s)

/-- The method `Solver1D::get_intra_species_energy(which)`. -/
def get_intra_species_energy (s : Solver1D K) (which : Nat) : K × Solver1D K :=
  let s := refresh s
  if which = 3 then (s.tot_intra_species_energy, s)
  else if which = 1 then (s.intra_species_energy 0, s)
  else if which = 2 then
    if s.single_component then (0, s)
    else (s.intra_species_energy 1, s)
  else (0, s)

/-- The method `Solver1D::get_inter_species_energy()`. -/
def get_inter_species_energy (s : Solver1D K) : K × Solver1D K :=
  let s := refresh s
  if !s.single_component then (s.inter_species_energy, s)
  else (0, s)


/-! ## The index sets of the observables -/

/-- The tile indices of the inner sub-box: the range of the loop of line 285. -/
def inner_box (grid : Lattice1D K) : Finset Int :=
  Finset.Ico (grid.inner_start_x - grid.start_x) (grid.inner_end_x - grid.start_x)

/-- The contributing points: the indices of the inner sub-box that pass the
test of lines 306-307. -/
def kinetic_points (grid : Lattice1D K) : Finset Int :=
  (inner_box grid).filter (fun j => kinetic_guard grid j = true)

/-- The solver objects a program can hold: the cache is either flagged stale,
or it was filled by `calculate_energy_expected_values`, the only statement that
sets the flag. -/
def CacheValid (s : Solver1D K) : Prop :=
  s.energy_expected_values_updated = false ∨
    ∃ s0 : Solver1D K, s = calculate_energy_expected_values s0

/-! ## The observables in the words of the specification -/

/-- The summand of `E_kin` as the specification writes it:
`conj(ψ_j) · (−1/(2m)) · (1/dx²) ·
(−1/12 ψ_{j+2} + 4/3 ψ_{j+1} − 5/2 ψ_j + 4/3 ψ_{j−1} − 1/12 ψ_{j−2}) · dx`. -/
def kinetic_summand_spec (m dx : K) (psi : Int → Cplx K) (j : Int) : Cplx K :=
  Cplx.conj (psi j) * Cplx.ofReal (-1 / (2 * m)) * Cplx.ofReal (1 / dx ^ 2) *
    (Cplx.ofReal (-1 / 12) * psi (j + 2) + Cplx.ofReal (4 / 3) * psi (j + 1) +
      Cplx.ofReal (-(5 / 2)) * psi j + Cplx.ofReal (4 / 3) * psi (j - 1) +
      Cplx.ofReal (-1 / 12) * psi (j - 2)) * Cplx.ofReal dx

/-! ## `Solver1D::get_total_energy`, `get_rabi_energy`, `update_parameters` and the constructors -/

/-- The method `Solver1D::get_total_energy()`. -/
def get_total_energy (s : Solver1D K) : K × Solver1D K :=
  let s := refresh s
  (s.total_energy, s)

/-- The method `Solver1D::get_rabi_energy()`. -/
def get_rabi_energy (s : Solver1D K) : K × Solver1D K :=
  let s := refresh s
  if !s.single_component then (s.rabi_energy, s)
  else (0, s)

/-- The method `Solver1D::update_parameters()`. -/
def update_parameters (s : Solver1D K) : Solver1D K :=
  { s with has_parameters_changed := true }

/-- The one-component constructor (lines 24-40). The argument `mem` holds the
indeterminate contents of the members that the constructor does not
initialise; `state_b = NULL` is never dereferenced while `single_component` is
true and is left as in `mem`. -/
def Solver1D.construct (mem : Solver1D K) (_grid : Lattice1D K) (_state : State1D K)
    (_hamiltonian : Hamiltonian1D K) (_delta_t : K) (_kernel_type : String) : Solver1D K :=
  { mem with
    grid := _grid, state := _state,
    hamiltonian := { mem.hamiltonian with toHamiltonian1D := _hamiltonian },
    delta_t := _delta_t, kernel_type := _kernel_type,
    kernel := none, current_evolution_time := 0, single_component := true,
    energy_expected_values_updated := false, has_parameters_changed := false }

/-- The two-component constructor (lines 42-58), with `mem` as in
`Solver1D.construct`. -/
def Solver1D.construct2 (mem : Solver1D K) (_grid : Lattice1D K) (state1 state2 : State1D K)
    (_hamiltonian : Hamiltonian2Component1D K) (_delta_t : K) (_kernel_type : String) :
    Solver1D K :=
  { mem with
    grid := _grid, state := state1, state_b := state2, hamiltonian := _hamiltonian,
    delta_t := _delta_t, kernel_type := _kernel_type,
    kernel := none, current_evolution_time := 0, single_component := false,
    energy_expected_values_updated := false, has_parameters_changed := false }

/-! ## `Solver1D::init_kernel` and `Solver1D::evolve`

The kernel classes, `my_abort` and the virtual method `Potential1D::update` are
not under `src/`. A call of `evolve` is modelled by the solver it leaves and by
the sequence of calls it issues to the kernel and to the potentials;
`my_abort` ends the run with its message. -/

/-- The calls that `evolve` issues, in the order of the source. The sub-steps
carry the component they work on (`0` for the first wave function, `1` for the
second one, as the comments of lines 189 and 198 name them);
`potential_update which t changed` is the call `update(t)` of the potential of
the component `which`, with the value it returned; `update_potential which er ei`
hands the arrays `er`, `ei` to the kernel. -/
inductive Event (K : Type) where
  | init_kernel : Event K
  | potential_update (which : Nat) (t : K) (changed : Bool) : Event K
  | update_potential (which : Nat) (er ei : Int → K) : Event K
  | rabi_coupling (var delta_t : K) : Event K
  | run_kernel_on_halo (which : Nat) : Event K
  | start_halo_exchange (which : Nat) : Event K
  | run_kernel (which : Nat) : Event K
  | wait_for_completion (which : Nat) : Event K
  | normalization : Event K
  | get_sample : Event K

/-- What `evolve` receives from code that is not under `src/`: the behaviour of
`update(t)` of the two potentials (the value returned and the potential after
the call) and the wave functions that `get_sample` copies out of the kernel. -/
structure Environment (K : Type) where
  update : K → Potential1D K → Bool × Potential1D K
  update_b : K → Potential1D K → Bool × Potential1D K
  sample : State1D K
  sample_b : State1D K

/-- The method `Solver1D::init_kernel` in the build without `CUDA`: only the
name `"cpu"` creates a kernel (a `CPUBlock1D`, of one or two components),
every other path ends in `my_abort`. -/
def init_kernel (s : Solver1D K) : Except String (Solver1D K) :=
  if s.kernel_type = "cpu" then
    if s.single_component then
      .ok { s with kernel := some ⟨false, s.h_a, s.h_b, s.delta_t, s.imag_time⟩ }
    else
      .ok { s with kernel := some ⟨true, s.h_a, s.h_b, s.delta_t, s.imag_time⟩ }
  else if s.kernel_type = "gpu" then
    .error "Compiled without CUDA"
  else if !s.single_component then
    .error "Two-component Hamiltonians only work with the CPU and GPU kernels!"
  else if s.kernel_type = "hybrid" then
    .error "Compiled without CUDA"
  else
    .error "Unknown kernel"

/-- The test of line 141. -/
def evolve_needs_init (s : Solver1D K) (_imag_time : Bool) : Bool :=
  (_imag_time != s.imag_time) || s.kernel.isNone || s.has_parameters_changed

/-- Lines 141-170 of `evolve`: the (re)initialisation, with the calls it
issues. -/
def evolve_initialise (L : Libm K) (s : Solver1D K) (_imag_time : Bool) :
    Except String (Solver1D K × List (Event K)) :=
  if evolve_needs_init s _imag_time then
    match init_kernel (evolve_recompute L s _imag_time) with
    | .ok s => .ok ({ s with has_parameters_changed := false }, [Event.init_kernel])
    | .error msg => .error msg
  else .ok (s, [])

/-- The variables of the main loop of `evolve`: the solver, the local `var`,
and the calls issued so far. -/
structure EvolveLoop (K : Type) where
  solver : Solver1D K
  var : K
  calls : List (Event K)

/-- One call is issued. -/
def EvolveLoop.call (st : EvolveLoop K) (e : Event K) : EvolveLoop K :=
  { st with calls := st.calls ++ [e] }

/-- Lines 179-182: the potential of the first component is asked whether it
changed, and the exponentiated potential is recomputed if it did. -/
def evolve_update_potential (env : Environment K) (L : Libm K) (i : Int)
    (st : EvolveLoop K) : EvolveLoop K :=
  if i > 0 then
    let r := env.update st.solver.current_evolution_time st.solver.hamiltonian.potential
    let st := EvolveLoop.call
      { st with solver := { st.solver with
          hamiltonian := { st.solver.hamiltonian with potential := r.2 } } }
      (Event.potential_update 0 st.solver.current_evolution_time r.1)
    if r.1 then
      let st := { st with solver := initialize_exp_potential L st.solver st.solver.delta_t 0 }
      st.call (Event.update_potential 0 (st.solver.external_pot_real 0)
        (st.solver.external_pot_imag 0))
    else st
  else st

/-- Lines 183-188: the same for the second component of a two-component
system. -/
def evolve_update_potential_b (env : Environment K) (L : Libm K) (i : Int)
    (st : EvolveLoop K) : EvolveLoop K :=
  if !st.solver.single_component && decide (i > 0) then
    let r := env.update_b st.solver.current_evolution_time st.solver.hamiltonian.potential_b
    let st := EvolveLoop.call
      { st with solver := { st.solver with
          hamiltonian := { st.solver.hamiltonian with potential_b := r.2 } } }
      (Event.potential_update 1 st.solver.current_evolution_time r.1)
    if r.1 then
      let st := { st with solver := initialize_exp_potential L st.solver st.solver.delta_t 1 }
      st.call (Event.update_potential 1 (st.solver.external_pot_real 1)
        (st.solver.external_pot_imag 1))
    else st
  else st

/-- Lines 190-196 and 199-205: the sub-step of one wave function. -/
def evolve_substep (iterations i : Int) (which : Nat) (st : EvolveLoop K) : EvolveLoop K :=
  let st := st.call (Event.run_kernel_on_halo which)
  let st := if i ≠ iterations - 1 then st.call (Event.start_halo_exchange which) else st
  let st := st.call (Event.run_kernel which)
  st.call (Event.wait_for_completion which)

/-- Lines 206-210: the Rabi coupling and the normalisation that close an
iteration of a two-component system. -/
def evolve_rabi (iterations i : Int) (st : EvolveLoop K) : EvolveLoop K :=
  let st := if i = iterations - 1 then { st with var := 1 / 2 } else st
  let st := st.call (Event.rabi_coupling st.var st.solver.delta_t)
  st.call Event.normalization

/-- The body of the main loop of `evolve` (lines 179-212) for the iteration `i`. -/
def evolve_iteration (env : Environment K) (L : Libm K) (iterations i : Int)
    (st : EvolveLoop K) : EvolveLoop K :=
  let st := evolve_update_potential env L i st
  let st := evolve_update_potential_b env L i st
  let st := evolve_substep iterations i 0 st
  let st :=
    if !st.solver.single_component then
      evolve_rabi iterations i (evolve_substep iterations i 1 st)
    else st
  { st with solver := { st.solver with
      current_evolution_time := st.solver.current_evolution_time + st.solver.delta_t } }

/-- Lines 214-222: `get_sample` copies the wave functions out of the kernel
and the caches are flagged stale. -/
def evolve_get_sample (env : Environment K) (s : Solver1D K) : Solver1D K :=
  let s :=
    if s.single_component then
      { s with state := { s.state with
          p_real := env.sample.p_real, p_imag := env.sample.p_imag } }
    else
      let s := { s with
        state := { s.state with p_real := env.sample.p_real, p_imag := env.sample.p_imag },
        state_b := { s.state_b with
          p_real := env.sample_b.p_real, p_imag := env.sample_b.p_imag } }
      { s with state_b := { s.state_b with expected_values_updated := false } }
  let s := { s with state := { s.state with expected_values_updated := false } }
  { s with energy_expected_values_updated := false }

/-- The state of the main loop of `evolve` when the iteration `k` begins
(after the iterations `0 … k − 1`), from the solver `s` and the calls `calls`
that the (re)initialisation left. -/
def evolve_loop (env : Environment K) (L : Libm K) (s : Solver1D K) (iterations : Int)
    (calls : List (Event K)) (k : Int) : EvolveLoop K :=
  let st : EvolveLoop K := ⟨s, 1 / 2, calls⟩
  let st := if !s.single_component then st.call (Event.rabi_coupling st.var s.delta_t) else st
  let st := { st with var := 1 }
  forLoop 0 k (evolve_iteration env L iterations) st

/-- Lines 171-223 of `evolve`: the opening Rabi coupling, the main loop and
`get_sample`. -/
def evolve_main (env : Environment K) (L : Libm K) (s : Solver1D K) (iterations : Int)
    (calls : List (Event K)) : Solver1D K × List (Event K) :=
  let st := evolve_loop env L s iterations calls iterations
  let st := st.call Event.get_sample
  (evolve_get_sample env st.solver, st.calls)

/-- The method `Solver1D::evolve(iterations, _imag_time)`: the solver it leaves
and the calls it issues, or the message of `my_abort`. -/
def evolve (env : Environment K) (L : Libm K) (s : Solver1D K) (iterations : Int)
    (_imag_time : Bool) : Except String (Solver1D K × List (Event K)) :=
  match evolve_initialise L s _imag_time with
  | .ok r => .ok (evolve_main env L r.1 iterations r.2)
  | .error msg => .error msg

/-- The members of the solver that the main loop of `evolve` never writes. -/
def LoopFrame (s t : Solver1D K) : Prop :=
  t.grid = s.grid ∧ t.state = s.state ∧ t.state_b = s.state_b ∧ t.delta_t = s.delta_t ∧
  t.kernel_type = s.kernel_type ∧ t.kernel = s.kernel ∧
  t.single_component = s.single_component ∧ t.imag_time = s.imag_time ∧
  t.h_a = s.h_a ∧ t.h_b = s.h_b ∧
  t.energy_expected_values_updated = s.energy_expected_values_updated ∧
  t.has_parameters_changed = s.has_parameters_changed

/-- The calls that concern the potential of the component `which` in one
iteration: `update(t)` with the value `changed` it returned and, when that is
true, `update_potential` with the arrays of the solver `s` that the
recomputation left. -/
def potential_calls (which : Nat) (t : K) (changed : Bool) (s : Solver1D K) : List (Event K) :=
  Event.potential_update which t changed ::
    (if changed then
      [Event.update_potential which (s.external_pot_real which) (s.external_pot_imag which)]
    else [])

/-- The calls of lines 179-188 in the iteration `i`, issued from the solver `s`. -/
def potential_events (env : Environment K) (L : Libm K) (i : Int) (s : Solver1D K) :
    List (Event K) :=
  (evolve_update_potential_b env L i (evolve_update_potential env L i ⟨s, 1, []⟩)).calls

/-- The calls of the iteration `i`, issued from the solver `s` while `var = 1`. -/
def iteration_events (env : Environment K) (L : Libm K) (iterations i : Int)
    (s : Solver1D K) : List (Event K) :=
  (evolve_iteration env L iterations i ⟨s, 1, []⟩).calls

/-- The solver that the iteration `i` leaves when it starts from the solver `s`. -/
def iteration_solver (env : Environment K) (L : Libm K) (iterations i : Int)
    (s : Solver1D K) : Solver1D K :=
  (evolve_iteration env L iterations i ⟨s, 1, []⟩).solver

/-- In the words of the specification: between any two consecutive
`run_kernel_on_halo` calls of the component `w` there is a
`start_halo_exchange` followed by a `wait_for_completion` of that component. -/
def HaloExchanged (w : Nat) (calls : List (Event K)) : Prop :=
  ∀ A B C : List (Event K),
    calls = A ++ Event.run_kernel_on_halo w :: B ++ Event.run_kernel_on_halo w :: C →
    Event.run_kernel_on_halo w ∉ B →
    ∃ B1 B2 B3 : List (Event K),
      B = B1 ++ Event.start_halo_exchange w :: B2 ++ Event.wait_for_completion w :: B3

/-- In the words of the specification: every `start_halo_exchange` is
followed, before any other call, by the `run_kernel` and the
`wait_for_completion` of the same component. -/
def ExchangeCompleted (calls : List (Event K)) : Prop :=
  ∀ (A B : List (Event K)) (w : Nat),
    calls = A ++ Event.start_halo_exchange w :: B →
    ∃ B' : List (Event K), B = Event.run_kernel w :: Event.wait_for_completion w :: B'

/-- The values of `var` passed to `rabi_coupling`, in order. -/
def rabi_vars : List (Event K) → List K
  | [] => []
  | Event.rabi_coupling var _ :: rest => var :: rabi_vars rest
  | _ :: rest => rabi_vars rest

/-- The calls to the kernel sub-steps: every call but those that concern the
potentials. -/
def Event.isSubstep : Event K → Bool
  | Event.potential_update _ _ _ => false
  | Event.update_potential _ _ _ => false
  | _ => true

/-- The sub-step calls of one wave function in the iteration `i` of
`iterations`: `run_kernel_on_halo`, `start_halo_exchange` unless the iteration
is the last one, `run_kernel`, `wait_for_completion`. -/
def substep_calls (iterations i : Int) (which : Nat) : List (Event K) :=
  [Event.run_kernel_on_halo which] ++
    (if i ≠ iterations - 1 then [Event.start_halo_exchange which] else []) ++
    [Event.run_kernel which, Event.wait_for_completion which]

/-- The kernel calls of the iteration `i` of `iterations` after the potentials
have been looked at: the sub-step of the first wave function and, on a
two-component system, the sub-step of the second one, `rabi_coupling` with
`var = 1` (`1/2` in the last iteration) and `normalization`. -/
def iteration_substeps (single_component : Bool) (delta_t : K) (iterations i : Int) :
    List (Event K) :=
  substep_calls iterations i 0 ++
    (if single_component then []
     else substep_calls iterations i 1 ++
      [Event.rabi_coupling (if i = iterations - 1 then 1 / 2 else 1) delta_t,
        Event.normalization])

/-- The states of the observer of the halo exchange of one component. -/
inductive HaloPhase where
  | fresh : HaloPhase
  | halo : HaloPhase
  | started : HaloPhase
  | completed : HaloPhase
deriving DecidableEq

/-- The observer of the halo exchange of the component `w`: it reads one call
and fails (`none`) when `run_kernel_on_halo` arrives while the previous
`run_kernel_on_halo` has not been followed by `start_halo_exchange` and then
`wait_for_completion`. -/
def halo_step (w : Nat) (ph : HaloPhase) : Event K → Option HaloPhase
  | Event.run_kernel_on_halo v =>
    if v = w then
      match ph with
      | HaloPhase.halo => none
      | HaloPhase.started => none
      | _ => some HaloPhase.halo
    else some ph
  | Event.start_halo_exchange v =>
    if v = w then
      match ph with
      | HaloPhase.halo => some HaloPhase.started
      | _ => some ph
    else some ph
  | Event.wait_for_completion v =>
    if v = w then
      match ph with
      | HaloPhase.started => some HaloPhase.completed
      | _ => some ph
    else some ph
  | _ => some ph

/-- The observer run over a sequence of calls. -/
def halo_run (w : Nat) : HaloPhase → List (Event K) → Option HaloPhase
  | ph, [] => some ph
  | ph, e :: rest =>
    match halo_step w ph e with
    | some ph' => halo_run w ph' rest
    | none => none

/-! ## The drivers `examples/harmonic_osc_real.cpp` and `test/unittest.cpp`

The call `mkdir` is a parameter: the function from the name of the directory to
the value that the call returns. Streaming an `int` into a `stringstream`
writes its decimal digits, as `toString` does. -/

/-- Lines 161-177 of `main` in `examples/harmonic_osc_real.cpp`: the value of
`dirnames` once the output directory has been chosen. -/
def harmonic_osc_real_dirnames (mkdir : String → Int) (snapshots : Int) : String :=
  if snapshots ≠ 0 then
    let dirnames := "Harmonic_osc_RE"
    let status := mkdir dirnames
    if status ≠ 0 ∧ status ≠ -1 then "." else dirnames
  else "."

/-- Lines 287-303 of `main` in `test/unittest.cpp`: the value of `filenames`
once the output directory has been chosen. -/
def unittest_filenames (mkdir : String → Int) (dim iterations snapshots : Int) : String :=
  if snapshots ≠ 0 then
    let filenames :=
      "D" ++ toString dim ++ "_I" ++ toString iterations ++ "_S" ++ toString snapshots ++ ""
    let status := mkdir filenames
    if status ≠ 0 ∧ status ≠ -1 then "./" else filenames
  else "./"

/-- The two arrays of `float` that `init_state` writes. A cell holds `none`
until a statement stores a value in it, as the cells of `new float[n]` do; the
index ranges over all integers, so a store outside the allocated block shows as
a value at that index. -/
structure StateArrays (K : Type) where
  p_real : Int → Option K
  p_imag : Int → Option K

/-- The arrays right after `new float[matrix_width * matrix_height]` (lines
280-281 of `test/unittest.cpp`): no cell has been written. -/
def StateArrays.fresh : StateArrays K := ⟨fun _ => none, fun _ => none⟩

/-- The body of the inner loop of `init_state` (lines 65-70 of
`test/unittest.cpp`) for the loop variables `y` and `x`. -/
def init_state_body (L : Libm K) (dimx dimy halo_x halo_y : Int) (periods : Nat → Int)
    (y x : Int) (a : StateArrays K) : StateArrays K :=
  let L_x : K := ((dimx - periods 1 * 2 * halo_x : Int) : K)
  let L_y : K := ((dimy - periods 0 * 2 * halo_y : Int) : K)
  let tmp : Cplx K :=
    ⟨L.sin (2 * (314159 / 100000) / L_x * ((x - periods 1 * halo_x : Int) : K)) *
      L.sin (2 * (314159 / 100000) / L_y * ((y - periods 0 * halo_y : Int) : K)), 0⟩
  { p_real := Function.update a.p_real (y * dimx + x) (some (Cplx.real tmp)),
    p_imag := Function.update a.p_imag (y * dimx + x) (some (Cplx.imag tmp)) }

/-- The function `init_state` of `test/unittest.cpp` (lines 54-73): both loops
run from `1` to the dimension inclusive. -/
def init_state (L : Libm K) (a : StateArrays K) (dimx dimy halo_x halo_y : Int)
    (periods : Nat → Int) : StateArrays K :=
  forLoop 1 (dimy + 1)
    (fun (y : Int) (a : StateArrays K) =>
      forLoop 1 (dimx + 1)
        (fun (x : Int) (a : StateArrays K) =>
          init_state_body L dimx dimy halo_x halo_y periods y x a) a) a

/-- Lines 241, 261-264 and 279-283 of `main` in `test/unittest.cpp`, for a run
without an input file: the arrays are allocated with
`matrix_width * matrix_height` cells and handed to `init_state`. -/
def unittest_initial_state (L : Libm K) (dim kernel_type : Int) : StateArrays K :=
  let periods : Nat → Int := fun _ => 1
  let halo_x : Int := if kernel_type = 2 then 3 else 4
  let halo_y : Int := 4
  let matrix_width := dim + periods 1 * 2 * halo_x
  let matrix_height := dim + periods 0 * 2 * halo_y
  init_state L StateArrays.fresh matrix_width matrix_height halo_x halo_y periods

/-! ## Concrete inputs -/

namespace Examples

/-- A two-element array holding zeros. -/
def zeros : Nat → K := fun _ => 0

/-- A solver on which neither `evolve` nor a getter has run yet: no kernel, a
stale cache, and zeros in the members that the constructors leave
uninitialised. -/
def solver (grid : Lattice1D K) (state state_b : State1D K)
    (hamiltonian : Hamiltonian2Component1D K) (delta_t : K) (single_component : Bool) :
    Solver1D K :=
  { grid := grid, state := state, state_b := state_b, hamiltonian := hamiltonian,
    delta_t := delta_t, kernel_type := "cpu", kernel := none,
    single_component := single_component, imag_time := false,
    h_a := zeros, h_b := zeros,
    external_pot_real := fun _ _ => 0, external_pot_imag := fun _ _ => 0,
    norm2 := zeros, kinetic_energy := zeros, potential_energy := zeros,
    intra_species_energy := zeros, inter_species_energy := 0, rabi_energy := 0,
    total_energy := 0, tot_kinetic_energy := 0, tot_potential_energy := 0,
    tot_intra_species_energy := 0, current_evolution_time := 0,
    energy_expected_values_updated := false, has_parameters_changed := false }

/-- A tile of six cells without halo and with spacing `dx`. -/
def grid6 (dx : K) : Lattice1D K :=
  { dim_x := 6, delta_x := dx, start_x := 0, end_x := 6, inner_start_x := 0, inner_end_x := 6 }

/-- The state whose cells all hold the real number `c`. -/
def constState (c : K) : State1D K :=
  { p_real := fun _ => c, p_imag := fun _ => 0, expected_values_updated := false }

/-- The two-component Hamiltonian with both masses `m`, both potentials the
constant `v`, and all couplings `g`. -/
def hamiltonian (m v g : K) : Hamiltonian2Component1D K :=
  { mass := m, coupling_a := g, potential := ⟨fun _ => v⟩, mass_b := m, coupling_b := g,
    coupling_ab := g, omega_r := 0, omega_i := 0, potential_b := ⟨fun _ => v⟩ }

/-- A two-component solver on `grid6 dx` with time step `dt`, masses `m` and
constant potentials `v`. -/
def flatSolver (dt dx m v : K) : Solver1D K :=
  solver (grid6 dx) (constState 1) (constState 1) (hamiltonian m v 0) dt false

/-- A two-component solver on `grid6 dx` whose two states hold the constant
`c`, with unit masses, zero potentials and all couplings `g`. -/
def coupledSolver (c dx g : K) : Solver1D K :=
  solver (grid6 dx) (constState c) (constState c) (hamiltonian 1 0 g) 1 false

/-- A tile of five cells whose left halo is one cell wide and that has no
right halo. -/
def haloOneGrid : Lattice1D K :=
  { dim_x := 5, delta_x := 1, start_x := 0, end_x := 5, inner_start_x := 1, inner_end_x := 5 }

/-- A tile of ten cells with a halo of width two on the left and four on the
right. -/
def haloGrid : Lattice1D K :=
  { dim_x := 10, delta_x := 1, start_x := 0, end_x := 10, inner_start_x := 2,
    inner_end_x := 6 }

/-- A two-component Hamiltonian with unit masses, zero potentials and
couplings, and the Rabi amplitude `w + 0 i`. -/
def rabiHamiltonian (w : K) : Hamiltonian2Component1D K :=
  { mass := 1, coupling_a := 0, potential := ⟨fun _ => 0⟩, mass_b := 1, coupling_b := 0,
    coupling_ab := 0, omega_r := w, omega_i := 0, potential_b := ⟨fun _ => 0⟩ }

/-- A two-component solver on `grid6 dx` whose two states hold the constant
`c`, with the Rabi amplitude `w`. -/
def rabiSolver (c dx w : K) : Solver1D K :=
  solver (grid6 dx) (constState c) (constState c) (rabiHamiltonian w) 1 false

/-- A one-component solver on `grid6 1` with time step `dt`, unit mass and zero
potential, on which `evolve` has not run yet. -/
def singleSolver (dt : K) : Solver1D K :=
  solver (grid6 1) (constState 1) (constState 1) (hamiltonian 1 0 0) dt true

/-- Potentials that never change, and a kernel that hands back the constant
wave function `1`. -/
def stillEnvironment : Environment K :=
  { update := fun _ p => (false, p), update_b := fun _ p => (false, p),
    sample := constState 1, sample_b := constState 1 }

/-- Potentials that report a change at every call and become the constant
`v`, and a kernel that hands back the constant wave function `1`. -/
def movingEnvironment (v : K) : Environment K :=
  { update := fun _ _ => (true, ⟨fun _ => v⟩), update_b := fun _ _ => (true, ⟨fun _ => v⟩),
    sample := constState 1, sample_b := constState 1 }

/-- A math library over the rationals, for running `evolve` on concrete
inputs: every function returns `1`. -/
def unitLibm : Libm K :=
  { cos := fun _ => 1, sin := fun _ => 1, cosh := fun _ => 1, sinh := fun _ => 1,
    exp := fun _ => 1 }

/-- A state on the tile `haloOneGrid`: the constant `c` in the five cells of
the tile, and `g` in the memory around them. -/
def haloOneState (c g : K) : State1D K :=
  { p_real := fun j => if 0 ≤ j ∧ j < 5 then c else g, p_imag := fun _ => 0,
    expected_values_updated := false }

/-- A one-component solver on `haloOneGrid` with unit mass and spacing, zero
potential, and the state `haloOneState c g`. -/
def haloOneSolver (c g : K) : Solver1D K :=
  solver haloOneGrid (haloOneState c g) (haloOneState c g) (hamiltonian 1 0 0) 1 true

/-- A one-component solver on `haloGrid` with unit mass, zero potential, and
the constant `c` in every cell. -/
def haloSolver (c : K) : Solver1D K :=
  solver haloGrid (constState c) (constState c) (hamiltonian 1 0 0) 1 true

/-- A call of `mkdir` that fails: it returns `-1` for every name. -/
def failingMkdir : String → Int := fun _ => -1

/-- A call of `mkdir` that succeeds: it returns `0` for every name. -/
def succeedingMkdir : String → Int := fun _ => 0

/-- A tile of twelve cells without halo and with spacing `dx`: with half the
spacing it covers the same interval as `grid6`. -/
def grid12 (dx : K) : Lattice1D K :=
  { dim_x := 12, delta_x := dx, start_x := 0, end_x := 12, inner_start_x := 0,
    inner_end_x := 12 }

/-- The solver `coupledSolver` on the tile of twelve cells. -/
def coupledSolver12 (c dx g : K) : Solver1D K :=
  solver (grid12 dx) (constState c) (constState c) (hamiltonian 1 0 g) 1 false

/-- The solver `rabiSolver` on the tile of twelve cells. -/
def rabiSolver12 (c dx w : K) : Solver1D K :=
  solver (grid12 dx) (constState c) (constState c) (rabiHamiltonian w) 1 false

end Examples

/-! ## Lemmas on complex numbers and loops -/

namespace Cplx

@[simp]
theorem zero_re : (0 : Cplx K).re = 0 := rfl

@[simp]
theorem zero_im : (0 : Cplx K).im = 0 := rfl

@[simp]
theorem add_re (z w : Cplx K) : (z + w).re = z.re + w.re := rfl

@[simp]
theorem add_im (z w : Cplx K) : (z + w).im = z.im + w.im := rfl

@[simp]
theorem mul_re (z w : Cplx K) : (z * w).re = z.re * w.re - z.im * w.im := rfl

@[simp]
theorem mul_im (z w : Cplx K) : (z * w).im = z.re * w.im + z.im * w.re := rfl

@[simp]
theorem conj_re (z : Cplx K) : (conj z).re = z.re := rfl

@[simp]
theorem conj_im (z : Cplx K) : (conj z).im = -z.im := rfl

@[simp]
theorem ofReal_re (x : K) : (ofReal x).re = x := rfl

@[simp]
theorem ofReal_im (x : K) : (ofReal x).im = 0 := rfl

@[simp]
theorem I_re : (I : Cplx K).re = 0 := rfl

@[simp]
theorem I_im : (I : Cplx K).im = 1 := rfl

theorem re_sum {ι : Type} (S : Finset ι) (f : ι → Cplx K) :
    (∑ j ∈ S, f j).re = ∑ j ∈ S, (f j).re := by
  classical
  induction S using Finset.induction_on with
  | empty => simp
  | insert hj ih => rw [Finset.sum_insert hj, Finset.sum_insert hj, add_re, ih]

end Cplx

theorem forLoop_range_succ {σ : Type} (lo : Int) (n : Nat) (body : Int → σ → σ) (init : σ) :
    (List.range (n + 1)).foldl (fun (acc : σ) (k : Nat) => body (lo + (k : Int)) acc) init =
      body (lo + n) ((List.range n).foldl (fun (acc : σ) (k : Nat) => body (lo + (k : Int)) acc) init) := by
  rw [List.range_succ, List.foldl_append]
  rfl

theorem Ico_int_succ (lo : Int) (n : Nat) :
    Finset.Ico lo (lo + ((n + 1 : Nat) : Int)) = insert (lo + (n : Int)) (Finset.Ico lo (lo + n)) := by
  ext x
  simp only [Finset.mem_Ico, Finset.mem_insert]
  push_cast
  omega

/-- A loop whose body adds `g j` to one component of its state computes the sum
of `g` over the range of the loop in that component. -/
theorem forLoop_sum {σ : Type} (proj : σ → K) (g : Int → K) (body : Int → σ → σ)
    (h : ∀ j a, proj (body j a) = proj a + g j) (lo hi : Int) (init : σ) :
    proj (forLoop lo hi body init) = proj init + ∑ j ∈ Finset.Ico lo hi, g j := by
  have aux : ∀ n : Nat,
      proj ((List.range n).foldl (fun (acc : σ) (k : Nat) => body (lo + (k : Int)) acc) init) =
        proj init + ∑ j ∈ Finset.Ico lo (lo + (n : Int)), g j := by
    intro n
    induction n with
    | zero => simp
    | succ n ih =>
      rw [forLoop_range_succ, h, ih, Ico_int_succ, Finset.sum_insert (by simp), add_assoc,
        add_comm (g _)]
  unfold forLoop
  rw [aux]
  by_cases hle : lo ≤ hi
  · have : lo + (((hi - lo).toNat : Nat) : Int) = hi := by
      rw [Int.toNat_of_nonneg (by omega)]
      omega
    rw [this]
  · have h0 : (hi - lo).toNat = 0 := by
      apply Int.toNat_eq_zero.2
      omega
    rw [h0]
    have : Finset.Ico lo hi = ∅ := Finset.Ico_eq_empty (by omega)
    simp [this]


omit [Field K] in
theorem setAt_apply {ι : Type} [DecidableEq ι] (a : ι → K) (i : ι) (v : K) (k : ι) :
    setAt a i v k = if k = i then v else a k := rfl

/-! ## Lemmas on the recomputation of the constants -/

theorem initialize_exp_potential_loop (L : Libm K) (s : Solver1D K) (delta_t : K) (which : Nat)
    (init : (Nat → Int → K) × (Nat → Int → K)) (n : Nat) :
    (List.range n).foldl
        (fun (acc : (Nat → Int → K) × (Nat → Int → K)) (k : Nat) =>
          initialize_exp_potential_body L s delta_t which (0 + (k : Int)) acc) init =
      ((fun w x => if w = which ∧ 0 ≤ x ∧ x < (n : Int) then
          (exp_potential_tmp L s.imag_time delta_t (exp_potential_ptmp s which x)).re
          else init.1 w x),
       (fun w x => if w = which ∧ 0 ≤ x ∧ x < (n : Int) then
          (exp_potential_tmp L s.imag_time delta_t (exp_potential_ptmp s which x)).im
          else init.2 w x)) := by
  induction n with
  | zero =>
    refine Prod.ext ?_ ?_ <;> funext w x <;>
      simp only [List.range_zero, List.foldl_nil, Nat.cast_zero] <;>
      rw [if_neg (fun h => absurd h.2.2 (not_lt.2 h.2.1))]
  | succ n ih =>
    rw [forLoop_range_succ, ih]
    unfold initialize_exp_potential_body
    have key : ∀ x : Int, x ≠ (n : Int) →
        ((0 ≤ x ∧ x < ((n + 1 : Nat) : Int)) ↔ (0 ≤ x ∧ x < (n : Int))) := by
      intro x hx
      push_cast
      omega
    have keyn : (0 : Int) ≤ (n : Int) ∧ (n : Int) < ((n + 1 : Nat) : Int) := by
      push_cast
      omega
    refine Prod.ext ?_ ?_
    · funext w x
      simp only [setAt_apply, Cplx.real, zero_add]
      by_cases hw : w = which
      · by_cases hx : x = (n : Int)
        · simp only [hw, hx, keyn, if_true, and_self, setAt_apply]
        · simp only [hw, hx, key x hx, if_true, if_false, true_and, setAt_apply]
      · simp only [hw, if_false, false_and]
    · funext w x
      simp only [setAt_apply, Cplx.imag, zero_add]
      by_cases hw : w = which
      · by_cases hx : x = (n : Int)
        · simp only [hw, hx, keyn, if_true, and_self, setAt_apply]
        · simp only [hw, hx, key x hx, if_true, if_false, true_and, setAt_apply]
      · simp only [hw, if_false, false_and]

/-- The arrays `initialize_exp_potential` leaves: the cells `0 ≤ x < dim_x` of
the component `which` hold the real and imaginary parts of `tmp`, every other
cell is unchanged. -/
theorem initialize_exp_potential_pot (L : Libm K) (s : Solver1D K) (delta_t : K) (which : Nat) :
    (initialize_exp_potential L s delta_t which).external_pot_real =
        (fun w x => if w = which ∧ 0 ≤ x ∧ x < s.grid.dim_x then
          (exp_potential_tmp L s.imag_time delta_t (exp_potential_ptmp s which x)).re
          else s.external_pot_real w x) ∧
      (initialize_exp_potential L s delta_t which).external_pot_imag =
        (fun w x => if w = which ∧ 0 ≤ x ∧ x < s.grid.dim_x then
          (exp_potential_tmp L s.imag_time delta_t (exp_potential_ptmp s which x)).im
          else s.external_pot_imag w x) := by
  unfold initialize_exp_potential forLoop
  simp only [initialize_exp_potential_loop]
  have key : ∀ x : Int,
      (0 ≤ x ∧ x < (((s.grid.dim_x - 0).toNat : Nat) : Int)) ↔ (0 ≤ x ∧ x < s.grid.dim_x) := by
    intro x
    omega
  constructor <;> funext w x <;> simp only [key]


theorem initialize_exp_potential_real_apply (L : Libm K) (s : Solver1D K) (delta_t : K)
    (which w : Nat) (x : Int) :
    (initialize_exp_potential L s delta_t which).external_pot_real w x =
      if w = which ∧ 0 ≤ x ∧ x < s.grid.dim_x then
        (exp_potential_tmp L s.imag_time delta_t (exp_potential_ptmp s which x)).re
      else s.external_pot_real w x := by
  rw [(initialize_exp_potential_pot L s delta_t which).1]

theorem initialize_exp_potential_imag_apply (L : Libm K) (s : Solver1D K) (delta_t : K)
    (which w : Nat) (x : Int) :
    (initialize_exp_potential L s delta_t which).external_pot_imag w x =
      if w = which ∧ 0 ≤ x ∧ x < s.grid.dim_x then
        (exp_potential_tmp L s.imag_time delta_t (exp_potential_ptmp s which x)).im
      else s.external_pot_imag w x := by
  rw [(initialize_exp_potential_pot L s delta_t which).2]

/-- The method `initialize_exp_potential` writes nothing but the two arrays. -/
theorem initialize_exp_potential_frame (L : Libm K) (s : Solver1D K) (delta_t : K) (which : Nat) :
    (initialize_exp_potential L s delta_t which).grid = s.grid ∧
    (initialize_exp_potential L s delta_t which).hamiltonian = s.hamiltonian ∧
    (initialize_exp_potential L s delta_t which).delta_t = s.delta_t ∧
    (initialize_exp_potential L s delta_t which).imag_time = s.imag_time ∧
    (initialize_exp_potential L s delta_t which).single_component = s.single_component ∧
    (initialize_exp_potential L s delta_t which).h_a = s.h_a ∧
    (initialize_exp_potential L s delta_t which).h_b = s.h_b ∧
    (initialize_exp_potential L s delta_t which).norm2 = s.norm2 ∧
    (initialize_exp_potential L s delta_t which).state = s.state ∧
    (initialize_exp_potential L s delta_t which).state_b = s.state_b :=
  ⟨rfl, rfl, rfl, rfl, rfl, rfl, rfl, rfl, rfl, rfl⟩

/-- The kinetic constants that `evolve` computes in real time. -/
theorem evolve_recompute_real_h (L : Libm K) (s : Solver1D K) :
    (evolve_recompute L s false).h_a 0 =
        L.cos (s.delta_t / (4 * s.hamiltonian.mass * s.grid.delta_x * s.grid.delta_x)) ∧
      (evolve_recompute L s false).h_b 0 =
        L.sin (s.delta_t / (4 * s.hamiltonian.mass * s.grid.delta_x * s.grid.delta_x)) ∧
      (s.single_component = false →
        (evolve_recompute L s false).h_a 1 =
          L.cos (s.delta_t / (4 * s.hamiltonian.mass_b * s.grid.delta_x * s.grid.delta_x)) ∧
        (evolve_recompute L s false).h_b 1 =
          L.sin (s.delta_t / (4 * s.hamiltonian.mass_b * s.grid.delta_x * s.grid.delta_x))) := by
  cases hs : s.single_component <;>
    simp [evolve_recompute, initialize_exp_potential, setAt_apply, hs]

/-- The kinetic constants that `evolve` computes in imaginary time. -/
theorem evolve_recompute_imag_h (L : Libm K) (s : Solver1D K) :
    (evolve_recompute L s true).h_a 0 =
        L.cosh (s.delta_t / (4 * s.hamiltonian.mass * s.grid.delta_x * s.grid.delta_x)) ∧
      (evolve_recompute L s true).h_b 0 =
        L.sinh (s.delta_t / (4 * s.hamiltonian.mass * s.grid.delta_x * s.grid.delta_x)) ∧
      (s.single_component = false →
        (evolve_recompute L s true).h_a 1 =
          L.cosh (s.delta_t / (4 * s.hamiltonian.mass_b * s.grid.delta_x * s.grid.delta_x)) ∧
        (evolve_recompute L s true).h_b 1 =
          L.sinh (s.delta_t / (4 * s.hamiltonian.mass_b * s.grid.delta_x * s.grid.delta_x))) := by
  cases hs : s.single_component <;>
    simp [evolve_recompute, initialize_exp_potential, setAt_apply, hs]

/-- The exponentiated potential that `evolve` leaves in the cache of the first
component, and of the second one on a two-component system. -/
theorem evolve_recompute_pot (L : Libm K) (s : Solver1D K) (b : Bool) (x : Int)
    (h0 : 0 ≤ x) (h1 : x < s.grid.dim_x) :
    ((evolve_recompute L s b).external_pot_real 0 x =
        (exp_potential_tmp L b s.delta_t (s.hamiltonian.potential.get_value x)).re ∧
      (evolve_recompute L s b).external_pot_imag 0 x =
        (exp_potential_tmp L b s.delta_t (s.hamiltonian.potential.get_value x)).im) ∧
    (s.single_component = false →
      (evolve_recompute L s b).external_pot_real 1 x =
        (exp_potential_tmp L b s.delta_t (s.hamiltonian.potential_b.get_value x)).re ∧
      (evolve_recompute L s b).external_pot_imag 1 x =
        (exp_potential_tmp L b s.delta_t (s.hamiltonian.potential_b.get_value x)).im) := by
  have hgrid := fun (t : Solver1D K) (d : K) (w : Nat) =>
    (initialize_exp_potential_frame L t d w).1
  have hham := fun (t : Solver1D K) (d : K) (w : Nat) =>
    (initialize_exp_potential_frame L t d w).2.1
  have hdt := fun (t : Solver1D K) (d : K) (w : Nat) =>
    (initialize_exp_potential_frame L t d w).2.2.1
  have himag := fun (t : Solver1D K) (d : K) (w : Nat) =>
    (initialize_exp_potential_frame L t d w).2.2.2.1
  have hsingle := fun (t : Solver1D K) (d : K) (w : Nat) =>
    (initialize_exp_potential_frame L t d w).2.2.2.2.1
  cases hs : s.single_component <;> cases b <;>
    simp [evolve_recompute, initialize_exp_potential_real_apply,
      initialize_exp_potential_imag_apply, hgrid, hham, hdt, himag, hsingle, hs, h0, h1,
      exp_potential_ptmp]


/-! ## The pair updates and the potential factor -/

/-- The real-time pair update with `h_a² + h_b² = 1` preserves the sum of the
squared moduli of the pair. -/
theorem kinetic_pair_real_normSq (h_a h_b : K) (h : h_a ^ 2 + h_b ^ 2 = 1)
    (psi_l psi_r : Cplx K) :
    Cplx.normSq (kinetic_pair_real h_a h_b psi_l psi_r).1 +
        Cplx.normSq (kinetic_pair_real h_a h_b psi_l psi_r).2 =
      Cplx.normSq psi_l + Cplx.normSq psi_r := by
  simp only [kinetic_pair_real, Cplx.normSq, Cplx.add_re, Cplx.add_im, Cplx.mul_re, Cplx.mul_im,
    Cplx.ofReal_re, Cplx.ofReal_im, Cplx.I_re, Cplx.I_im]
  linear_combination
    (psi_l.re * psi_l.re + psi_l.im * psi_l.im + psi_r.re * psi_r.re + psi_r.im * psi_r.im) * h

/-- A factor `ER + i EI` with `ER² + EI² = 1` leaves the squared modulus of a
cell unchanged. -/
theorem potential_step_normSq (er ei : K) (h : er ^ 2 + ei ^ 2 = 1) (psi : Cplx K) :
    Cplx.normSq (potential_step er ei psi) = Cplx.normSq psi := by
  simp only [potential_step, Cplx.normSq, Cplx.mul_re, Cplx.mul_im]
  linear_combination (psi.re * psi.re + psi.im * psi.im) * h

/-- The imaginary-time pair update with `h_a = cosh θ`, `h_b = sinh θ`, `θ ≥ 0`
multiplies the sum of the squared moduli by at most `exp (2 θ)`. -/
theorem kinetic_pair_imag_normSq_le (θ : ℝ) (hθ : 0 ≤ θ) (psi_l psi_r : Cplx ℝ) :
    Cplx.normSq (kinetic_pair_imag (Real.cosh θ) (Real.sinh θ) psi_l psi_r).1 +
        Cplx.normSq (kinetic_pair_imag (Real.cosh θ) (Real.sinh θ) psi_l psi_r).2 ≤
      Real.exp (2 * θ) * (Cplx.normSq psi_l + Cplx.normSq psi_r) := by
  have hexp : Real.exp (2 * θ) = (Real.cosh θ + Real.sinh θ) ^ 2 := by
    rw [Real.cosh_add_sinh, ← Real.exp_nat_mul]
    norm_num
  have hs : 0 ≤ Real.sinh θ := Real.sinh_nonneg_iff.2 hθ
  have hc : 0 < Real.cosh θ := Real.cosh_pos θ
  have hcs : 0 ≤ Real.cosh θ * Real.sinh θ := mul_nonneg hc.le hs
  have hsq : 0 ≤ (psi_l.re - psi_r.re) ^ 2 + (psi_l.im - psi_r.im) ^ 2 := by positivity
  have hprod := mul_nonneg hcs hsq
  rw [hexp]
  simp only [kinetic_pair_imag, Cplx.normSq, Cplx.add_re, Cplx.add_im, Cplx.mul_re, Cplx.mul_im,
    Cplx.ofReal_re, Cplx.ofReal_im]
  nlinarith [hprod]


/-! ## C1: the real-time kinetic constants -/

/-- C1: in real time `evolve` stores `h_a = cos θ`, `h_b = sin θ` with
`θ = Δt / (4 m dx²)` for the first component (and with `m_b` for the second
one on a two-component system); for non-zero mass and spacing they satisfy
`h_a² + h_b² = 1`, and the pair update
`(h_a ψ_l + i h_b ψ_r, i h_b ψ_l + h_a ψ_r)` keeps `|ψ_l|² + |ψ_r|²`. -/
theorem real_time_kinetic_constants_unitary (L : Libm ℝ) (hL : L.Exact) (s : Solver1D ℝ)
    (_hm : s.hamiltonian.mass ≠ 0) (_hdx : s.grid.delta_x ≠ 0) :
    ((evolve_recompute L s false).h_a 0 =
        Real.cos (s.delta_t / (4 * s.hamiltonian.mass * s.grid.delta_x ^ 2)) ∧
      (evolve_recompute L s false).h_b 0 =
        Real.sin (s.delta_t / (4 * s.hamiltonian.mass * s.grid.delta_x ^ 2)) ∧
      (evolve_recompute L s false).h_a 0 ^ 2 + (evolve_recompute L s false).h_b 0 ^ 2 = 1 ∧
      ∀ psi_l psi_r : Cplx ℝ,
        Cplx.normSq (kinetic_pair_real ((evolve_recompute L s false).h_a 0)
            ((evolve_recompute L s false).h_b 0) psi_l psi_r).1 +
          Cplx.normSq (kinetic_pair_real ((evolve_recompute L s false).h_a 0)
            ((evolve_recompute L s false).h_b 0) psi_l psi_r).2 =
        Cplx.normSq psi_l + Cplx.normSq psi_r) ∧
    (s.single_component = false → s.hamiltonian.mass_b ≠ 0 →
      (evolve_recompute L s false).h_a 1 =
        Real.cos (s.delta_t / (4 * s.hamiltonian.mass_b * s.grid.delta_x ^ 2)) ∧
      (evolve_recompute L s false).h_b 1 =
        Real.sin (s.delta_t / (4 * s.hamiltonian.mass_b * s.grid.delta_x ^ 2)) ∧
      (evolve_recompute L s false).h_a 1 ^ 2 + (evolve_recompute L s false).h_b 1 ^ 2 = 1 ∧
      ∀ psi_l psi_r : Cplx ℝ,
        Cplx.normSq (kinetic_pair_real ((evolve_recompute L s false).h_a 1)
            ((evolve_recompute L s false).h_b 1) psi_l psi_r).1 +
          Cplx.normSq (kinetic_pair_real ((evolve_recompute L s false).h_a 1)
            ((evolve_recompute L s false).h_b 1) psi_l psi_r).2 =
        Cplx.normSq psi_l + Cplx.normSq psi_r) := by
  obtain ⟨hcos, hsin, -, -, -⟩ := hL
  obtain ⟨ha0, hb0, h1⟩ := evolve_recompute_real_h L s
  rw [hcos] at ha0 h1
  rw [hsin] at hb0 h1
  have e0 : 4 * s.hamiltonian.mass * s.grid.delta_x * s.grid.delta_x =
      4 * s.hamiltonian.mass * s.grid.delta_x ^ 2 := by ring
  have e1 : 4 * s.hamiltonian.mass_b * s.grid.delta_x * s.grid.delta_x =
      4 * s.hamiltonian.mass_b * s.grid.delta_x ^ 2 := by ring
  rw [e0] at ha0 hb0
  rw [e1] at h1
  refine ⟨⟨ha0, hb0, ?_, ?_⟩, ?_⟩
  · rw [ha0, hb0]
    exact Real.cos_sq_add_sin_sq _
  · intro psi_l psi_r
    apply kinetic_pair_real_normSq
    rw [ha0, hb0]
    exact Real.cos_sq_add_sin_sq _
  · intro hs _
    obtain ⟨ha1, hb1⟩ := h1 hs
    refine ⟨ha1, hb1, ?_, ?_⟩
    · rw [ha1, hb1]
      exact Real.cos_sq_add_sin_sq _
    · intro psi_l psi_r
      apply kinetic_pair_real_normSq
      rw [ha1, hb1]
      exact Real.cos_sq_add_sin_sq _

/-- C1 at the two-component solver with `Δt = 1`, `m = m_b = 1`, `dx = 1`. -/
theorem real_time_kinetic_constants_unitary_witness :
    (evolve_recompute (⟨Real.cos, Real.sin, Real.cosh, Real.sinh, Real.exp⟩ : Libm ℝ)
        (Examples.flatSolver 1 1 1 0) false).h_a 0 ^ 2 +
      (evolve_recompute (⟨Real.cos, Real.sin, Real.cosh, Real.sinh, Real.exp⟩ : Libm ℝ)
        (Examples.flatSolver 1 1 1 0) false).h_b 0 ^ 2 = 1 ∧
    (evolve_recompute (⟨Real.cos, Real.sin, Real.cosh, Real.sinh, Real.exp⟩ : Libm ℝ)
        (Examples.flatSolver 1 1 1 0) false).h_a 1 ^ 2 +
      (evolve_recompute (⟨Real.cos, Real.sin, Real.cosh, Real.sinh, Real.exp⟩ : Libm ℝ)
        (Examples.flatSolver 1 1 1 0) false).h_b 1 ^ 2 = 1 :=
  have h := real_time_kinetic_constants_unitary
    (⟨Real.cos, Real.sin, Real.cosh, Real.sinh, Real.exp⟩ : Libm ℝ) ⟨rfl, rfl, rfl, rfl, rfl⟩
    (Examples.flatSolver 1 1 1 0) one_ne_zero one_ne_zero
  ⟨h.1.2.2.1, (h.2 rfl one_ne_zero).2.2.1⟩


/-! ## C2: the time step of the exponentiated potential -/

/-- The value `tmp` for an exact math library, as a complex exponential. -/
theorem exp_potential_tmp_exact (L : Libm ℝ) (hL : L.Exact) (delta_t ptmp : ℝ) :
    (⟨(exp_potential_tmp L false delta_t ptmp).re,
        (exp_potential_tmp L false delta_t ptmp).im⟩ : ℂ) =
        Complex.exp (-(Complex.I * ((delta_t * ptmp : ℝ) : ℂ))) ∧
      (⟨(exp_potential_tmp L true delta_t ptmp).re,
        (exp_potential_tmp L true delta_t ptmp).im⟩ : ℂ) =
        Complex.exp ((-(delta_t * ptmp) : ℝ) : ℂ) := by
  obtain ⟨hcos, hsin, -, -, hexp⟩ := hL
  constructor
  · apply Complex.ext
    · rw [Complex.exp_re]
      simp [exp_potential_tmp, Libm.cexp, hcos, hexp]
    · rw [Complex.exp_im]
      simp [exp_potential_tmp, Libm.cexp, hsin, hexp]
  · apply Complex.ext
    · rw [Complex.exp_re]
      simp [exp_potential_tmp, Libm.cexp, hcos, hexp]
    · rw [Complex.exp_im]
      simp [exp_potential_tmp, Libm.cexp, hsin, hexp]

/-- C2 (amended): after `evolve` has recomputed its constants with time step
`Δt`, every cell `0 ≤ x < dim_x` of the cache of every component holds
`ER + i EI = exp(-i Δt V(x))` in real time and `exp(-Δt V(x))` in imaginary
time: the exponent carries the full time step `Δt`. -/
theorem exp_potential_cache_full_step (L : Libm ℝ) (hL : L.Exact) (s : Solver1D ℝ) (x : Int)
    (h0 : 0 ≤ x) (h1 : x < s.grid.dim_x) :
    ((⟨(evolve_recompute L s false).external_pot_real 0 x,
          (evolve_recompute L s false).external_pot_imag 0 x⟩ : ℂ) =
        Complex.exp
          (-(Complex.I * ((s.delta_t * s.hamiltonian.potential.get_value x : ℝ) : ℂ))) ∧
      (⟨(evolve_recompute L s true).external_pot_real 0 x,
          (evolve_recompute L s true).external_pot_imag 0 x⟩ : ℂ) =
        Complex.exp ((-(s.delta_t * s.hamiltonian.potential.get_value x) : ℝ) : ℂ)) ∧
    (s.single_component = false →
      (⟨(evolve_recompute L s false).external_pot_real 1 x,
          (evolve_recompute L s false).external_pot_imag 1 x⟩ : ℂ) =
        Complex.exp
          (-(Complex.I * ((s.delta_t * s.hamiltonian.potential_b.get_value x : ℝ) : ℂ))) ∧
      (⟨(evolve_recompute L s true).external_pot_real 1 x,
          (evolve_recompute L s true).external_pot_imag 1 x⟩ : ℂ) =
        Complex.exp ((-(s.delta_t * s.hamiltonian.potential_b.get_value x) : ℝ) : ℂ)) := by
  obtain ⟨⟨hr0, hi0⟩, hf⟩ := evolve_recompute_pot L s false x h0 h1
  obtain ⟨⟨hr0t, hi0t⟩, ht⟩ := evolve_recompute_pot L s true x h0 h1
  refine ⟨⟨?_, ?_⟩, ?_⟩
  · rw [hr0, hi0]
    exact (exp_potential_tmp_exact L hL _ _).1
  · rw [hr0t, hi0t]
    exact (exp_potential_tmp_exact L hL _ _).2
  · intro hs
    obtain ⟨hr1, hi1⟩ := hf hs
    obtain ⟨hr1t, hi1t⟩ := ht hs
    rw [hr1, hi1, hr1t, hi1t]
    exact ⟨(exp_potential_tmp_exact L hL _ _).1, (exp_potential_tmp_exact L hL _ _).2⟩

/-- C2 (amended) at the cell `0` of the solver with `Δt = 2` and `V = 1`. -/
theorem exp_potential_cache_full_step_witness :
    (⟨(evolve_recompute (⟨Real.cos, Real.sin, Real.cosh, Real.sinh, Real.exp⟩ : Libm ℝ)
          (Examples.flatSolver 2 1 1 1) false).external_pot_real 0 0,
        (evolve_recompute (⟨Real.cos, Real.sin, Real.cosh, Real.sinh, Real.exp⟩ : Libm ℝ)
          (Examples.flatSolver 2 1 1 1) false).external_pot_imag 0 0⟩ : ℂ) =
      Complex.exp (-(Complex.I * (((2 : ℝ) * 1 : ℝ) : ℂ))) :=
  (exp_potential_cache_full_step
    (⟨Real.cos, Real.sin, Real.cosh, Real.sinh, Real.exp⟩ : Libm ℝ) ⟨rfl, rfl, rfl, rfl, rfl⟩
    (Examples.flatSolver 2 1 1 1) 0 (le_refl 0) (by decide)).1.1

/-- C2 as stated fails: with `Δt = 2` and `V = 1` the cell `0` of the real-time
cache is not `exp(-i (Δt/2) V(0))`. -/
theorem exp_potential_cache_half_step_counterexample :
    (⟨(evolve_recompute (⟨Real.cos, Real.sin, Real.cosh, Real.sinh, Real.exp⟩ : Libm ℝ)
          (Examples.flatSolver 2 1 1 1) false).external_pot_real 0 0,
        (evolve_recompute (⟨Real.cos, Real.sin, Real.cosh, Real.sinh, Real.exp⟩ : Libm ℝ)
          (Examples.flatSolver 2 1 1 1) false).external_pot_imag 0 0⟩ : ℂ) ≠
      Complex.exp (-(Complex.I *
        (((Examples.flatSolver (2 : ℝ) 1 1 1).delta_t / 2 *
          (Examples.flatSolver (2 : ℝ) 1 1 1).hamiltonian.potential.get_value 0 : ℝ) : ℂ))) := by
  intro h
  have hre := congrArg Complex.re h
  have hpot := (evolve_recompute_pot
    (⟨Real.cos, Real.sin, Real.cosh, Real.sinh, Real.exp⟩ : Libm ℝ)
    (Examples.flatSolver 2 1 1 1) false 0 (le_refl 0) (by decide)).1.1
  rw [Complex.exp_re] at hre
  simp only [hpot] at hre
  have hl : (exp_potential_tmp (⟨Real.cos, Real.sin, Real.cosh, Real.sinh, Real.exp⟩ : Libm ℝ)
      false (Examples.flatSolver (2 : ℝ) 1 1 1).delta_t
      ((Examples.flatSolver (2 : ℝ) 1 1 1).hamiltonian.potential.get_value 0)).re =
      Real.cos 2 := by
    simp [exp_potential_tmp, Libm.cexp, Examples.flatSolver, Examples.solver,
      Examples.hamiltonian]
  rw [hl] at hre
  have hr : (Examples.flatSolver (2 : ℝ) 1 1 1).delta_t / 2 *
      (Examples.flatSolver (2 : ℝ) 1 1 1).hamiltonian.potential.get_value 0 = 1 := by
    simp [Examples.flatSolver, Examples.solver, Examples.hamiltonian]
  rw [hr] at hre
  simp at hre
  have h1 := Real.cos_one_pos
  have h2 := Real.cos_two_neg
  linarith


/-! ## C3: the real-time potential factor -/

/-- C3: when `imag_time` is false, the pair `(ER, EI)` that
`initialize_exp_potential` writes at a cell `0 ≤ x < dim_x` of the component
`which` satisfies `ER² + EI² = 1`, whatever the potential and the time step, so
the update `ψ ← (ER + i EI) ψ` leaves `|ψ|²` unchanged. -/
theorem real_time_potential_factor_unitary (L : Libm ℝ) (hL : L.Exact) (s : Solver1D ℝ)
    (delta_t : ℝ) (which : Nat) (x : Int) (himag : s.imag_time = false)
    (h0 : 0 ≤ x) (h1 : x < s.grid.dim_x) :
    (initialize_exp_potential L s delta_t which).external_pot_real which x ^ 2 +
        (initialize_exp_potential L s delta_t which).external_pot_imag which x ^ 2 = 1 ∧
      ∀ psi : Cplx ℝ,
        Cplx.normSq (potential_step
          ((initialize_exp_potential L s delta_t which).external_pot_real which x)
          ((initialize_exp_potential L s delta_t which).external_pot_imag which x) psi) =
        Cplx.normSq psi := by
  obtain ⟨hcos, hsin, -, -, hexp⟩ := hL
  have hunit : (initialize_exp_potential L s delta_t which).external_pot_real which x ^ 2 +
      (initialize_exp_potential L s delta_t which).external_pot_imag which x ^ 2 = 1 := by
    rw [initialize_exp_potential_real_apply, initialize_exp_potential_imag_apply,
      if_pos ⟨rfl, h0, h1⟩, if_pos ⟨rfl, h0, h1⟩, himag]
    simp only [exp_potential_tmp, Libm.cexp, hcos, hsin, hexp, Real.exp_zero, one_mul,
      Bool.false_eq_true, if_false]
    exact Real.cos_sq_add_sin_sq _
  exact ⟨hunit, fun psi => potential_step_normSq _ _ hunit psi⟩

/-- C3 at the cell `3` of the first component, with `Δt = 2` and `V = 1`. -/
theorem real_time_potential_factor_unitary_witness :
    (initialize_exp_potential (⟨Real.cos, Real.sin, Real.cosh, Real.sinh, Real.exp⟩ : Libm ℝ)
        (Examples.flatSolver 2 1 1 1) 2 0).external_pot_real 0 3 ^ 2 +
      (initialize_exp_potential (⟨Real.cos, Real.sin, Real.cosh, Real.sinh, Real.exp⟩ : Libm ℝ)
        (Examples.flatSolver 2 1 1 1) 2 0).external_pot_imag 0 3 ^ 2 = 1 :=
  (real_time_potential_factor_unitary
    (⟨Real.cos, Real.sin, Real.cosh, Real.sinh, Real.exp⟩ : Libm ℝ) ⟨rfl, rfl, rfl, rfl, rfl⟩
    (Examples.flatSolver 2 1 1 1) 2 0 3 rfl (by decide) (by decide)).1

/-! ## C4: the imaginary-time kinetic constants -/

/-- C4 (amended): in imaginary time `evolve` stores `h_a = cosh θ`,
`h_b = sinh θ` with `θ = Δt / (4 m dx²)`; for `Δt ≥ 0`, `m > 0` and `dx ≠ 0`
they satisfy `h_a² - h_b² = 1`, and the pair update
`(h_a ψ_l + h_b ψ_r, h_b ψ_l + h_a ψ_r)` satisfies
`|ψ_l'|² + |ψ_r'|² ≤ exp(2θ) (|ψ_l|² + |ψ_r|²)`; likewise with `m_b` for the
second component of a two-component system. -/
theorem imag_time_kinetic_pair_bound (L : Libm ℝ) (hL : L.Exact) (s : Solver1D ℝ)
    (hdt : 0 ≤ s.delta_t) (hm : 0 < s.hamiltonian.mass) (hdx : s.grid.delta_x ≠ 0) :
    ((evolve_recompute L s true).h_a 0 =
        Real.cosh (s.delta_t / (4 * s.hamiltonian.mass * s.grid.delta_x ^ 2)) ∧
      (evolve_recompute L s true).h_b 0 =
        Real.sinh (s.delta_t / (4 * s.hamiltonian.mass * s.grid.delta_x ^ 2)) ∧
      (evolve_recompute L s true).h_a 0 ^ 2 - (evolve_recompute L s true).h_b 0 ^ 2 = 1 ∧
      ∀ psi_l psi_r : Cplx ℝ,
        Cplx.normSq (kinetic_pair_imag ((evolve_recompute L s true).h_a 0)
            ((evolve_recompute L s true).h_b 0) psi_l psi_r).1 +
          Cplx.normSq (kinetic_pair_imag ((evolve_recompute L s true).h_a 0)
            ((evolve_recompute L s true).h_b 0) psi_l psi_r).2 ≤
        Real.exp (2 * (s.delta_t / (4 * s.hamiltonian.mass * s.grid.delta_x ^ 2))) *
          (Cplx.normSq psi_l + Cplx.normSq psi_r)) ∧
    (s.single_component = false → 0 < s.hamiltonian.mass_b →
      (evolve_recompute L s true).h_a 1 =
        Real.cosh (s.delta_t / (4 * s.hamiltonian.mass_b * s.grid.delta_x ^ 2)) ∧
      (evolve_recompute L s true).h_b 1 =
        Real.sinh (s.delta_t / (4 * s.hamiltonian.mass_b * s.grid.delta_x ^ 2)) ∧
      (evolve_recompute L s true).h_a 1 ^ 2 - (evolve_recompute L s true).h_b 1 ^ 2 = 1 ∧
      ∀ psi_l psi_r : Cplx ℝ,
        Cplx.normSq (kinetic_pair_imag ((evolve_recompute L s true).h_a 1)
            ((evolve_recompute L s true).h_b 1) psi_l psi_r).1 +
          Cplx.normSq (kinetic_pair_imag ((evolve_recompute L s true).h_a 1)
            ((evolve_recompute L s true).h_b 1) psi_l psi_r).2 ≤
        Real.exp (2 * (s.delta_t / (4 * s.hamiltonian.mass_b * s.grid.delta_x ^ 2))) *
          (Cplx.normSq psi_l + Cplx.normSq psi_r)) := by
  obtain ⟨-, -, hcosh, hsinh, -⟩ := hL
  obtain ⟨ha0, hb0, h1⟩ := evolve_recompute_imag_h L s
  rw [hcosh] at ha0 h1
  rw [hsinh] at hb0 h1
  have e0 : 4 * s.hamiltonian.mass * s.grid.delta_x * s.grid.delta_x =
      4 * s.hamiltonian.mass * s.grid.delta_x ^ 2 := by ring
  have e1 : 4 * s.hamiltonian.mass_b * s.grid.delta_x * s.grid.delta_x =
      4 * s.hamiltonian.mass_b * s.grid.delta_x ^ 2 := by ring
  rw [e0] at ha0 hb0
  rw [e1] at h1
  have hdx2 : 0 < s.grid.delta_x ^ 2 := by positivity
  have hθ : ∀ m : ℝ, 0 < m → 0 ≤ s.delta_t / (4 * m * s.grid.delta_x ^ 2) := by
    intro m hmp
    have : 0 < 4 * m * s.grid.delta_x ^ 2 := by positivity
    exact div_nonneg hdt this.le
  refine ⟨⟨ha0, hb0, ?_, ?_⟩, ?_⟩
  · rw [ha0, hb0, Real.cosh_sq]
    ring
  · intro psi_l psi_r
    rw [ha0, hb0]
    exact kinetic_pair_imag_normSq_le _ (hθ _ hm) psi_l psi_r
  · intro hs hmb
    obtain ⟨ha1, hb1⟩ := h1 hs
    refine ⟨ha1, hb1, ?_, ?_⟩
    · rw [ha1, hb1, Real.cosh_sq]
      ring
    · intro psi_l psi_r
      rw [ha1, hb1]
      exact kinetic_pair_imag_normSq_le _ (hθ _ hmb) psi_l psi_r

/-- C4 (amended) at the solver with `Δt = 4`, `m = 1`, `dx = 1`. -/
theorem imag_time_kinetic_pair_bound_witness :
    (evolve_recompute (⟨Real.cos, Real.sin, Real.cosh, Real.sinh, Real.exp⟩ : Libm ℝ)
        (Examples.flatSolver 4 1 1 0) true).h_a 0 ^ 2 -
      (evolve_recompute (⟨Real.cos, Real.sin, Real.cosh, Real.sinh, Real.exp⟩ : Libm ℝ)
        (Examples.flatSolver 4 1 1 0) true).h_b 0 ^ 2 = 1 :=
  (imag_time_kinetic_pair_bound
    (⟨Real.cos, Real.sin, Real.cosh, Real.sinh, Real.exp⟩ : Libm ℝ) ⟨rfl, rfl, rfl, rfl, rfl⟩
    (Examples.flatSolver 4 1 1 0)
    (show (0 : ℝ) ≤ 4 by norm_num) one_pos one_ne_zero).1.2.2.1

/-- C4 as stated fails: with `Δt = 4`, `m = 1`, `dx = 1` (so `θ = 1`) the pair
`ψ_l = ψ_r = 1` is mapped to a pair of larger norm. -/
theorem imag_time_kinetic_norm_counterexample :
    ¬ (Cplx.normSq (kinetic_pair_imag
          ((evolve_recompute (⟨Real.cos, Real.sin, Real.cosh, Real.sinh, Real.exp⟩ : Libm ℝ)
            (Examples.flatSolver 4 1 1 0) true).h_a 0)
          ((evolve_recompute (⟨Real.cos, Real.sin, Real.cosh, Real.sinh, Real.exp⟩ : Libm ℝ)
            (Examples.flatSolver 4 1 1 0) true).h_b 0) ⟨1, 0⟩ ⟨1, 0⟩).1 +
        Cplx.normSq (kinetic_pair_imag
          ((evolve_recompute (⟨Real.cos, Real.sin, Real.cosh, Real.sinh, Real.exp⟩ : Libm ℝ)
            (Examples.flatSolver 4 1 1 0) true).h_a 0)
          ((evolve_recompute (⟨Real.cos, Real.sin, Real.cosh, Real.sinh, Real.exp⟩ : Libm ℝ)
            (Examples.flatSolver 4 1 1 0) true).h_b 0) ⟨1, 0⟩ ⟨1, 0⟩).2 ≤
      Cplx.normSq (⟨1, 0⟩ : Cplx ℝ) + Cplx.normSq (⟨1, 0⟩ : Cplx ℝ)) := by
  obtain ⟨ha, hb, -⟩ := evolve_recompute_imag_h
    (⟨Real.cos, Real.sin, Real.cosh, Real.sinh, Real.exp⟩ : Libm ℝ) (Examples.flatSolver 4 1 1 0)
  have hθ : (Examples.flatSolver (4 : ℝ) 1 1 0).delta_t /
      (4 * (Examples.flatSolver (4 : ℝ) 1 1 0).hamiltonian.mass *
        (Examples.flatSolver (4 : ℝ) 1 1 0).grid.delta_x *
        (Examples.flatSolver (4 : ℝ) 1 1 0).grid.delta_x) = 1 := by
    simp [Examples.flatSolver, Examples.solver, Examples.hamiltonian, Examples.grid6]
  rw [hθ] at ha hb
  rw [ha, hb]
  simp only [kinetic_pair_imag, Cplx.normSq, Cplx.add_re, Cplx.add_im, Cplx.mul_re, Cplx.mul_im,
    Cplx.ofReal_re, Cplx.ofReal_im]
  have hexp : Real.cosh 1 + Real.sinh 1 = Real.exp 1 := Real.cosh_add_sinh 1
  have h1 : (1 : ℝ) + 1 < Real.exp 1 := Real.add_one_lt_exp one_ne_zero
  intro hle
  nlinarith [hle, hexp, h1]


/-! ## Lemmas on the energy loop -/

theorem body_sum_norm2_0 (s : Solver1D K) (j : Int) (acc : EnergySums K) :
    (energy_loop_body s j acc).sum_norm2_0 =
      acc.sum_norm2_0 + Cplx.normSq (s.state.psi j) := by
  unfold energy_loop_body
  cases s.single_component <;> cases kinetic_guard s.grid j <;>
    simp [Cplx.normSq, Cplx.real]

theorem body_sum_norm2_1 (s : Solver1D K) (hs : s.single_component = false) (j : Int)
    (acc : EnergySums K) :
    (energy_loop_body s j acc).sum_norm2_1 =
      acc.sum_norm2_1 + Cplx.normSq (s.state_b.psi j) := by
  unfold energy_loop_body
  cases kinetic_guard s.grid j <;> simp [Cplx.normSq, Cplx.real, hs]

theorem body_sum_potential_energy_0 (s : Solver1D K) (j : Int) (acc : EnergySums K) :
    (energy_loop_body s j acc).sum_potential_energy_0 =
      acc.sum_potential_energy_0 +
        s.hamiltonian.potential.get_value j * Cplx.normSq (s.state.psi j) := by
  unfold energy_loop_body
  cases s.single_component <;> cases kinetic_guard s.grid j <;>
    simp [Cplx.normSq, Cplx.real] <;> ring

theorem body_sum_potential_energy_1 (s : Solver1D K) (hs : s.single_component = false)
    (j : Int) (acc : EnergySums K) :
    (energy_loop_body s j acc).sum_potential_energy_1 =
      acc.sum_potential_energy_1 +
        s.hamiltonian.potential_b.get_value j * Cplx.normSq (s.state_b.psi j) := by
  unfold energy_loop_body
  cases kinetic_guard s.grid j <;> simp [Cplx.normSq, Cplx.real, hs] <;> ring

theorem body_sum_intra_species_energy_0 (s : Solver1D K) (j : Int) (acc : EnergySums K) :
    (energy_loop_body s j acc).sum_intra_species_energy_0 =
      acc.sum_intra_species_energy_0 +
        1 / 2 * s.hamiltonian.coupling_a * Cplx.normSq (s.state.psi j) ^ 2 := by
  unfold energy_loop_body
  cases s.single_component <;> cases kinetic_guard s.grid j <;>
    simp [Cplx.normSq, Cplx.real] <;> ring

theorem body_sum_intra_species_energy_1 (s : Solver1D K) (hs : s.single_component = false)
    (j : Int) (acc : EnergySums K) :
    (energy_loop_body s j acc).sum_intra_species_energy_1 =
      acc.sum_intra_species_energy_1 +
        1 / 2 * s.hamiltonian.coupling_b * Cplx.normSq (s.state_b.psi j) ^ 2 := by
  unfold energy_loop_body
  cases kinetic_guard s.grid j <;> simp [Cplx.normSq, Cplx.real, hs] <;> ring

theorem body_sum_inter_species_energy (s : Solver1D K) (hs : s.single_component = false)
    (j : Int) (acc : EnergySums K) :
    (energy_loop_body s j acc).sum_inter_species_energy =
      acc.sum_inter_species_energy +
        s.hamiltonian.coupling_ab *
          (Cplx.normSq (s.state.psi j) ^ 2 * Cplx.normSq (s.state_b.psi j) ^ 2) := by
  unfold energy_loop_body
  cases kinetic_guard s.grid j <;> simp [Cplx.normSq, Cplx.real, hs] <;> ring

theorem body_sum_kinetic_energy_0 (s : Solver1D K) (j : Int) (acc : EnergySums K) :
    (energy_loop_body s j acc).sum_kinetic_energy_0 =
      acc.sum_kinetic_energy_0 +
        (if kinetic_guard s.grid j = true then
          (kinetic_term s.grid s.state (Cplx.ofReal (-1 / (2 * s.hamiltonian.mass))) j).re
        else 0) := by
  unfold energy_loop_body
  cases s.single_component <;> cases kinetic_guard s.grid j <;> simp [Cplx.real]

theorem body_sum_kinetic_energy_1 (s : Solver1D K) (hs : s.single_component = false)
    (j : Int) (acc : EnergySums K) :
    (energy_loop_body s j acc).sum_kinetic_energy_1 =
      acc.sum_kinetic_energy_1 +
        (if kinetic_guard s.grid j = true then
          (kinetic_term s.grid s.state_b (Cplx.ofReal (-1 / (2 * s.hamiltonian.mass_b))) j).re
        else 0) := by
  unfold energy_loop_body
  cases kinetic_guard s.grid j <;> simp [Cplx.real, hs]

/-- The sums that the loop leaves in the accumulators of the first component. -/
theorem energy_sums_first (s : Solver1D K) :
    (energy_sums s).sum_norm2_0 = ∑ j ∈ inner_box s.grid, Cplx.normSq (s.state.psi j) ∧
    (energy_sums s).sum_potential_energy_0 =
      ∑ j ∈ inner_box s.grid,
        s.hamiltonian.potential.get_value j * Cplx.normSq (s.state.psi j) ∧
    (energy_sums s).sum_intra_species_energy_0 =
      ∑ j ∈ inner_box s.grid,
        1 / 2 * s.hamiltonian.coupling_a * Cplx.normSq (s.state.psi j) ^ 2 ∧
    (energy_sums s).sum_kinetic_energy_0 =
      ∑ j ∈ kinetic_points s.grid,
        (kinetic_term s.grid s.state (Cplx.ofReal (-1 / (2 * s.hamiltonian.mass))) j).re := by
  unfold energy_sums inner_box kinetic_points
  refine ⟨?_, ?_, ?_, ?_⟩
  · rw [forLoop_sum EnergySums.sum_norm2_0 _ _ (body_sum_norm2_0 s), zero_add]
  · rw [forLoop_sum EnergySums.sum_potential_energy_0 _ _ (body_sum_potential_energy_0 s),
      zero_add]
  · rw [forLoop_sum EnergySums.sum_intra_species_energy_0 _ _
      (body_sum_intra_species_energy_0 s), zero_add]
  · rw [forLoop_sum EnergySums.sum_kinetic_energy_0 _ _ (body_sum_kinetic_energy_0 s),
      zero_add, inner_box, Finset.sum_filter]

/-- The sums that the loop leaves in the accumulators of the second component
and in the inter-species accumulator, on a two-component system. -/
theorem energy_sums_second (s : Solver1D K) (hs : s.single_component = false) :
    (energy_sums s).sum_norm2_1 = ∑ j ∈ inner_box s.grid, Cplx.normSq (s.state_b.psi j) ∧
    (energy_sums s).sum_potential_energy_1 =
      ∑ j ∈ inner_box s.grid,
        s.hamiltonian.potential_b.get_value j * Cplx.normSq (s.state_b.psi j) ∧
    (energy_sums s).sum_intra_species_energy_1 =
      ∑ j ∈ inner_box s.grid,
        1 / 2 * s.hamiltonian.coupling_b * Cplx.normSq (s.state_b.psi j) ^ 2 ∧
    (energy_sums s).sum_kinetic_energy_1 =
      ∑ j ∈ kinetic_points s.grid,
        (kinetic_term s.grid s.state_b (Cplx.ofReal (-1 / (2 * s.hamiltonian.mass_b))) j).re ∧
    (energy_sums s).sum_inter_species_energy =
      ∑ j ∈ inner_box s.grid,
        s.hamiltonian.coupling_ab *
          (Cplx.normSq (s.state.psi j) ^ 2 * Cplx.normSq (s.state_b.psi j) ^ 2) := by
  unfold energy_sums inner_box kinetic_points
  refine ⟨?_, ?_, ?_, ?_, ?_⟩
  · rw [forLoop_sum EnergySums.sum_norm2_1 _ _ (body_sum_norm2_1 s hs), zero_add]
  · rw [forLoop_sum EnergySums.sum_potential_energy_1 _ _ (body_sum_potential_energy_1 s hs),
      zero_add]
  · rw [forLoop_sum EnergySums.sum_intra_species_energy_1 _ _
      (body_sum_intra_species_energy_1 s hs), zero_add]
  · rw [forLoop_sum EnergySums.sum_kinetic_energy_1 _ _ (body_sum_kinetic_energy_1 s hs),
      zero_add, inner_box, Finset.sum_filter]
  · rw [forLoop_sum EnergySums.sum_inter_species_energy _ _
      (body_sum_inter_species_energy s hs), zero_add]


/-! ## Lemmas on `calculate_energy_expected_values` and the getters -/

/-- The method `calculate_energy_expected_values` writes only the cache. -/
theorem calculate_frame (s : Solver1D K) :
    (calculate_energy_expected_values s).grid = s.grid ∧
    (calculate_energy_expected_values s).state = s.state ∧
    (calculate_energy_expected_values s).state_b = s.state_b ∧
    (calculate_energy_expected_values s).hamiltonian = s.hamiltonian ∧
    (calculate_energy_expected_values s).single_component = s.single_component ∧
    (calculate_energy_expected_values s).energy_expected_values_updated = true := by
  unfold calculate_energy_expected_values
  cases hs : s.single_component <;> simp [hs]

/-- The values that `calculate_energy_expected_values` leaves for the first
component. -/
theorem calculate_first (s : Solver1D K) :
    (calculate_energy_expected_values s).norm2 0 =
      (energy_sums s).sum_norm2_0 * s.grid.delta_x ∧
    (calculate_energy_expected_values s).kinetic_energy 0 =
      (energy_sums s).sum_kinetic_energy_0 / (energy_sums s).sum_norm2_0 ∧
    (calculate_energy_expected_values s).potential_energy 0 =
      (energy_sums s).sum_potential_energy_0 / (energy_sums s).sum_norm2_0 ∧
    (calculate_energy_expected_values s).intra_species_energy 0 =
      (energy_sums s).sum_intra_species_energy_0 / (energy_sums s).sum_norm2_0 := by
  unfold calculate_energy_expected_values
  cases hs : s.single_component <;> simp [hs, setAt_apply]

/-- The values that `calculate_energy_expected_values` leaves for the second
component and for the inter-species energy on a two-component system. -/
theorem calculate_second (s : Solver1D K) (hs : s.single_component = false) :
    (calculate_energy_expected_values s).norm2 1 =
      (energy_sums s).sum_norm2_1 * s.grid.delta_x ∧
    (calculate_energy_expected_values s).kinetic_energy 1 =
      (energy_sums s).sum_kinetic_energy_1 / (energy_sums s).sum_norm2_1 ∧
    (calculate_energy_expected_values s).potential_energy 1 =
      (energy_sums s).sum_potential_energy_1 / (energy_sums s).sum_norm2_1 ∧
    (calculate_energy_expected_values s).intra_species_energy 1 =
      (energy_sums s).sum_intra_species_energy_1 / (energy_sums s).sum_norm2_1 ∧
    (calculate_energy_expected_values s).inter_species_energy =
      (energy_sums s).sum_inter_species_energy /
        ((energy_sums s).sum_norm2_0 * (energy_sums s).sum_norm2_1) := by
  unfold calculate_energy_expected_values
  simp [hs, setAt_apply]

/-- The sums of the loop depend only on the members that
`calculate_energy_expected_values` leaves unchanged. -/
theorem energy_sums_congr (s t : Solver1D K) (hg : t.grid = s.grid) (hst : t.state = s.state)
    (hsb : t.state_b = s.state_b) (hh : t.hamiltonian = s.hamiltonian)
    (hc : t.single_component = s.single_component) : energy_sums t = energy_sums s := by
  unfold energy_sums
  have hbody : energy_loop_body t = energy_loop_body s := by
    funext j acc
    unfold energy_loop_body
    rw [hg, hst, hsb, hh, hc]
  rw [hbody, hg]

/-- For a solver with a valid cache, a getter reads the values computed from
the current state. -/
theorem refresh_of_valid (s : Solver1D K) (h : CacheValid s) :
    ∃ s0 : Solver1D K, refresh s = calculate_energy_expected_values s0 ∧
      energy_sums s0 = energy_sums s ∧ s0.grid = s.grid ∧
      s0.single_component = s.single_component := by
  rcases h with h | ⟨s0, h⟩
  · refine ⟨s, ?_, rfl, rfl, rfl⟩
    simp [refresh, h]
  · obtain ⟨hg, hst, hsb, hh, hc, hflag⟩ := calculate_frame s0
    refine ⟨s0, ?_, ?_, ?_, ?_⟩
    · rw [h]
      simp [refresh, hflag]
    · rw [h]
      exact (energy_sums_congr s0 _ hg hst hsb hh hc).symm
    · rw [h, hg]
    · rw [h, hc]


theorem normSq_psi (st : State1D K) (j : Int) :
    Cplx.normSq (st.psi j) = st.p_real j ^ 2 + st.p_imag j ^ 2 := by
  simp only [Cplx.normSq, State1D.psi]
  ring

/-- The summand of the specification is the term of the code times `dx`. -/
theorem kinetic_summand_spec_re (grid : Lattice1D K) (st : State1D K) (m : K) (j : Int) :
    (kinetic_summand_spec m grid.delta_x st.psi j).re =
      (kinetic_term grid st (Cplx.ofReal (-1 / (2 * m))) j).re * grid.delta_x := by
  simp only [kinetic_summand_spec, kinetic_term, Cplx.mul_re, Cplx.mul_im, Cplx.add_re,
    Cplx.add_im, Cplx.conj_re, Cplx.conj_im, Cplx.ofReal_re, Cplx.ofReal_im]
  ring

/-- A quotient of two sums is unchanged when both carry the factor `dx ≠ 0`. -/
theorem div_scaled (S N dx : K) (hdx : dx ≠ 0) : S / N = S * dx / (dx * N) := by
  rw [mul_comm S dx, mul_div_mul_left _ _ hdx]

/-! ## C5: the squared norm -/

/-- C5: `get_squared_norm(1)` returns `dx · ∑ (p_real[j]² + p_imag[j]²)` over
the indices `inner_start_x − start_x ≤ j < inner_end_x − start_x` of the first
component; on a two-component system `get_squared_norm(2)` returns the same
quantity of the second component and `get_squared_norm(3)` the sum of the two;
on a one-component system `get_squared_norm(3)` equals `get_squared_norm(1)`. -/
theorem squared_norm_getter (s : Solver1D K) (h : CacheValid s) :
    (get_squared_norm s 1).1 =
      s.grid.delta_x *
        ∑ j ∈ Finset.Ico (s.grid.inner_start_x - s.grid.start_x)
            (s.grid.inner_end_x - s.grid.start_x),
          (s.state.p_real j ^ 2 + s.state.p_imag j ^ 2) ∧
    (s.single_component = false →
      (get_squared_norm s 2).1 =
        s.grid.delta_x *
          ∑ j ∈ Finset.Ico (s.grid.inner_start_x - s.grid.start_x)
              (s.grid.inner_end_x - s.grid.start_x),
            (s.state_b.p_real j ^ 2 + s.state_b.p_imag j ^ 2) ∧
      (get_squared_norm s 3).1 =
        s.grid.delta_x *
          ∑ j ∈ Finset.Ico (s.grid.inner_start_x - s.grid.start_x)
              (s.grid.inner_end_x - s.grid.start_x),
            (s.state.p_real j ^ 2 + s.state.p_imag j ^ 2) +
        s.grid.delta_x *
          ∑ j ∈ Finset.Ico (s.grid.inner_start_x - s.grid.start_x)
              (s.grid.inner_end_x - s.grid.start_x),
            (s.state_b.p_real j ^ 2 + s.state_b.p_imag j ^ 2)) ∧
    (s.single_component = true → (get_squared_norm s 3).1 = (get_squared_norm s 1).1) := by
  obtain ⟨s0, hr, hsum, hg, hc⟩ := refresh_of_valid s h
  obtain ⟨hn0, -⟩ := calculate_first s0
  obtain ⟨-, -, -, -, hc0, -⟩ := calculate_frame s0
  have e0 : (calculate_energy_expected_values s0).norm2 0 =
      s.grid.delta_x * ∑ j ∈ inner_box s.grid, (s.state.p_real j ^ 2 + s.state.p_imag j ^ 2) := by
    rw [hn0, hsum, (energy_sums_first s).1, hg, mul_comm]
    simp only [normSq_psi]
  refine ⟨?_, ?_, ?_⟩
  · simp only [get_squared_norm, hr]
    simpa using e0
  · intro hs
    have hs0 : s0.single_component = false := hc.trans hs
    obtain ⟨hn1, -⟩ := calculate_second s0 hs0
    have e1 : (calculate_energy_expected_values s0).norm2 1 =
        s.grid.delta_x *
          ∑ j ∈ inner_box s.grid, (s.state_b.p_real j ^ 2 + s.state_b.p_imag j ^ 2) := by
      rw [hn1, hsum, (energy_sums_second s hs).1, hg, mul_comm]
      simp only [normSq_psi]
    have hcs : (calculate_energy_expected_values s0).single_component = false :=
      hc0.trans hs0
    constructor
    · simp only [get_squared_norm, hr, hcs]
      simpa using e1
    · simp only [get_squared_norm, hr, hcs]
      simpa using congrArg₂ (· + ·) e0 e1
  · intro hs
    have hcs : (calculate_energy_expected_values s0).single_component = true :=
      hc0.trans (hc.trans hs)
    simp [get_squared_norm, hr, hcs]

/-- C5 on six cells holding `1`, with `dx = 1/2`: both components have squared
norm `3`. -/
theorem squared_norm_getter_witness :
    (get_squared_norm (Examples.flatSolver (1 : ℚ) (1 / 2) 1 0) 1).1 = 3 ∧
      (get_squared_norm (Examples.flatSolver (1 : ℚ) (1 / 2) 1 0) 3).1 = 3 + 3 := by
  have h := squared_norm_getter (Examples.flatSolver (1 : ℚ) (1 / 2) 1 0) (Or.inl rfl)
  refine ⟨?_, ?_⟩
  · rw [h.1]
    simp [Examples.flatSolver, Examples.solver, Examples.grid6, Examples.constState]
    norm_num
  · rw [(h.2.1 rfl).2]
    simp [Examples.flatSolver, Examples.solver, Examples.grid6, Examples.constState]
    norm_num


/-! ## C6: the kinetic energy -/

/-- C6: for a state of non-zero norm, `dx ≠ 0` and `m ≠ 0`,
`get_kinetic_energy(1)` is the real part of the sum over the contributing
points of `conj(ψ_j) (−1/(2m)) (1/dx²) (−1/12 ψ_{j+2} + 4/3 ψ_{j+1} − 5/2 ψ_j +
4/3 ψ_{j−1} − 1/12 ψ_{j−2}) dx`, divided by the squared norm `dx ∑ |ψ|²` of the
component; likewise `get_kinetic_energy(2)` with `m_b` and the second state on
a two-component system. -/
theorem kinetic_energy_getter (s : Solver1D K) (h : CacheValid s)
    (hdx : s.grid.delta_x ≠ 0) :
    (s.hamiltonian.mass ≠ 0 →
      s.grid.delta_x * ∑ j ∈ inner_box s.grid, Cplx.normSq (s.state.psi j) ≠ 0 →
      (get_kinetic_energy s 1).1 =
        (∑ j ∈ kinetic_points s.grid,
            kinetic_summand_spec s.hamiltonian.mass s.grid.delta_x s.state.psi j).re /
          (s.grid.delta_x * ∑ j ∈ inner_box s.grid, Cplx.normSq (s.state.psi j))) ∧
    (s.single_component = false → s.hamiltonian.mass_b ≠ 0 →
      s.grid.delta_x * ∑ j ∈ inner_box s.grid, Cplx.normSq (s.state_b.psi j) ≠ 0 →
      (get_kinetic_energy s 2).1 =
        (∑ j ∈ kinetic_points s.grid,
            kinetic_summand_spec s.hamiltonian.mass_b s.grid.delta_x s.state_b.psi j).re /
          (s.grid.delta_x * ∑ j ∈ inner_box s.grid, Cplx.normSq (s.state_b.psi j))) := by
  obtain ⟨s0, hr, hsum, hg, hc⟩ := refresh_of_valid s h
  obtain ⟨-, hk0, -, -⟩ := calculate_first s0
  obtain ⟨-, -, -, -, hc0, -⟩ := calculate_frame s0
  constructor
  · intro _ _
    have e0 : (get_kinetic_energy s 1).1 = (calculate_energy_expected_values s0).kinetic_energy 0 := by
      simp [get_kinetic_energy, hr]
    rw [e0, hk0, hsum, (energy_sums_first s).1, (energy_sums_first s).2.2.2, Cplx.re_sum]
    simp only [kinetic_summand_spec_re]
    rw [← Finset.sum_mul]
    exact div_scaled _ _ _ hdx
  · intro hs _ _
    have hs0 : s0.single_component = false := hc.trans hs
    obtain ⟨-, hk1, -, -, -⟩ := calculate_second s0 hs0
    have hcs : (calculate_energy_expected_values s0).single_component = false :=
      hc0.trans hs0
    have e1 : (get_kinetic_energy s 2).1 = (calculate_energy_expected_values s0).kinetic_energy 1 := by
      simp [get_kinetic_energy, hr, hcs]
    rw [e1, hk1, hsum, (energy_sums_second s hs).1, (energy_sums_second s hs).2.2.2.1,
      Cplx.re_sum]
    simp only [kinetic_summand_spec_re]
    rw [← Finset.sum_mul]
    exact div_scaled _ _ _ hdx

/-- C6 on six cells holding `1`, with `dx = 1/2` and `m = 1`: the stencil
vanishes on a constant field, so the kinetic energy is `0`. -/
theorem kinetic_energy_getter_witness :
    (get_kinetic_energy (Examples.flatSolver (1 : ℚ) (1 / 2) 1 0) 1).1 = 0 := by
  have hne : (Examples.flatSolver (1 : ℚ) (1 / 2) 1 0).grid.delta_x *
      ∑ j ∈ inner_box (Examples.flatSolver (1 : ℚ) (1 / 2) 1 0).grid,
        Cplx.normSq ((Examples.flatSolver (1 : ℚ) (1 / 2) 1 0).state.psi j) ≠ 0 := by
    simp [Examples.flatSolver, Examples.solver, Examples.grid6, Examples.constState, inner_box,
      State1D.psi, Cplx.normSq]
  rw [(kinetic_energy_getter (Examples.flatSolver (1 : ℚ) (1 / 2) 1 0) (Or.inl rfl)
    (by simp [Examples.flatSolver, Examples.solver, Examples.grid6])).1
    (by simp [Examples.flatSolver, Examples.solver, Examples.hamiltonian]) hne]
  have hz : ∀ j : Int,
      (kinetic_summand_spec (Examples.flatSolver (1 : ℚ) (1 / 2) 1 0).hamiltonian.mass
        (Examples.flatSolver (1 : ℚ) (1 / 2) 1 0).grid.delta_x
        (Examples.flatSolver (1 : ℚ) (1 / 2) 1 0).state.psi j).re = 0 := by
    intro j
    simp [kinetic_summand_spec, Examples.flatSolver, Examples.solver, Examples.grid6,
      Examples.hamiltonian, Examples.constState, State1D.psi]
    norm_num
  rw [Cplx.re_sum, Finset.sum_eq_zero (fun j _ => hz j), zero_div]


/-! ## C7: the stencil of a contributing point -/

omit [Field K] in
/-- Membership in the set of contributing points, spelled out. -/
theorem mem_kinetic_points (grid : Lattice1D K) (j : Int) :
    j ∈ kinetic_points grid ↔
      (grid.inner_start_x - grid.start_x ≤ j ∧ j < grid.inner_end_x - grid.start_x) ∧
      (if grid.inner_start_x - grid.start_x = 0 then (2 : Int) else 0) ≤
        j - (grid.inner_start_x - grid.start_x) ∧
      j < grid.inner_end_x - grid.start_x -
        (if grid.end_x - grid.inner_end_x = 0 then (2 : Int) else 0) := by
  simp only [kinetic_points, inner_box, Finset.mem_filter, Finset.mem_Ico, kinetic_guard,
    boolToInt, ini_halo_x, end_halo_x, Bool.and_eq_true, decide_eq_true_eq, beq_iff_eq, ge_iff_le]
  by_cases hl : grid.inner_start_x - grid.start_x = 0 <;>
    by_cases hr : grid.end_x - grid.inner_end_x = 0 <;> simp [hl, hr]

/-- C7 (amended): on a tile with `start_x ≤ inner_start_x ≤ inner_end_x ≤ end_x`
whose halo on either edge is absent or at least two cells wide, a point that
contributes to the kinetic-energy sum has its whole stencil inside the tile:
`0 ≤ j − 2` and `j + 2 ≤ (end_x − start_x) − 1`. -/
theorem kinetic_stencil_inside_tile (grid : Lattice1D K) (j : Int)
    (_h1 : grid.start_x ≤ grid.inner_start_x) (_h2 : grid.inner_start_x ≤ grid.inner_end_x)
    (_h3 : grid.inner_end_x ≤ grid.end_x)
    (hl : grid.inner_start_x - grid.start_x = 0 ∨ 2 ≤ grid.inner_start_x - grid.start_x)
    (hr : grid.end_x - grid.inner_end_x = 0 ∨ 2 ≤ grid.end_x - grid.inner_end_x)
    (hj : j ∈ kinetic_points grid) :
    0 ≤ j - 2 ∧ j + 2 ≤ (grid.end_x - grid.start_x) - 1 := by
  obtain ⟨⟨hlo, hhi⟩, hg1, hg2⟩ := (mem_kinetic_points grid j).1 hj
  constructor
  · rcases hl with hl | hl
    · rw [if_pos hl] at hg1
      omega
    · omega
  · rcases hr with hr | hr
    · rw [if_pos hr] at hg2
      omega
    · omega

/-- C7 (amended) on a tile with halos of width two and four: the first inner
cell `j = 2` contributes and its stencil `0 … 4` lies inside the tile. -/
theorem kinetic_stencil_inside_tile_witness :
    (2 : Int) ∈ kinetic_points (Examples.haloGrid : Lattice1D ℚ) ∧
      ((0 : Int) ≤ 2 - 2 ∧ (2 : Int) + 2 ≤ (10 - 0) - 1) :=
  have hmem : (2 : Int) ∈ kinetic_points (Examples.haloGrid : Lattice1D ℚ) := by
    rw [mem_kinetic_points]
    simp [Examples.haloGrid]
  ⟨hmem, kinetic_stencil_inside_tile (Examples.haloGrid : Lattice1D ℚ) 2 (by decide) (by decide)
    (by decide) (Or.inr (by decide)) (Or.inr (by decide)) hmem⟩

/-- C7 as stated fails: on a tile whose left halo is one cell wide the inner
cell `j = 1` contributes to the kinetic sum, and its stencil reads the index
`j − 2 = −1`. -/
theorem kinetic_stencil_halo_one_counterexample :
    (Examples.haloOneGrid : Lattice1D ℚ).start_x ≤ (Examples.haloOneGrid : Lattice1D ℚ).inner_start_x ∧
      (Examples.haloOneGrid : Lattice1D ℚ).inner_start_x ≤
        (Examples.haloOneGrid : Lattice1D ℚ).inner_end_x ∧
      (Examples.haloOneGrid : Lattice1D ℚ).inner_end_x ≤ (Examples.haloOneGrid : Lattice1D ℚ).end_x ∧
      (1 : Int) ∈ kinetic_points (Examples.haloOneGrid : Lattice1D ℚ) ∧
      ¬ ((0 : Int) ≤ 1 - 2 ∧
        (1 : Int) + 2 ≤ ((Examples.haloOneGrid : Lattice1D ℚ).end_x -
          (Examples.haloOneGrid : Lattice1D ℚ).start_x) - 1) := by
  refine ⟨by decide, by decide, by decide, ?_, by decide⟩
  rw [mem_kinetic_points]
  simp [Examples.haloOneGrid]

/-! ## C8: the potential energy -/

/-- C8: for a state of non-zero norm and `dx ≠ 0`, `get_potential_energy(1)` is
`(∑ V(j) |ψ_j|² dx) / (dx ∑ |ψ_j|²)`, both sums over the inner sub-box and
`V(j)` the value of the potential at the tile index `j`; likewise
`get_potential_energy(2)` with the second potential and state on a
two-component system. -/
theorem potential_energy_getter (s : Solver1D K) (h : CacheValid s)
    (hdx : s.grid.delta_x ≠ 0) :
    (s.grid.delta_x * ∑ j ∈ inner_box s.grid, Cplx.normSq (s.state.psi j) ≠ 0 →
      (get_potential_energy s 1).1 =
        (∑ j ∈ inner_box s.grid,
            s.hamiltonian.potential.get_value j * Cplx.normSq (s.state.psi j) *
              s.grid.delta_x) /
          (s.grid.delta_x * ∑ j ∈ inner_box s.grid, Cplx.normSq (s.state.psi j))) ∧
    (s.single_component = false →
      s.grid.delta_x * ∑ j ∈ inner_box s.grid, Cplx.normSq (s.state_b.psi j) ≠ 0 →
      (get_potential_energy s 2).1 =
        (∑ j ∈ inner_box s.grid,
            s.hamiltonian.potential_b.get_value j * Cplx.normSq (s.state_b.psi j) *
              s.grid.delta_x) /
          (s.grid.delta_x * ∑ j ∈ inner_box s.grid, Cplx.normSq (s.state_b.psi j))) := by
  obtain ⟨s0, hr, hsum, hg, hc⟩ := refresh_of_valid s h
  obtain ⟨-, -, hp0, -⟩ := calculate_first s0
  obtain ⟨-, -, -, -, hc0, -⟩ := calculate_frame s0
  constructor
  · intro _
    have e0 : (get_potential_energy s 1).1 =
        (calculate_energy_expected_values s0).potential_energy 0 := by
      simp [get_potential_energy, hr]
    rw [e0, hp0, hsum, (energy_sums_first s).1, (energy_sums_first s).2.1, ← Finset.sum_mul]
    exact div_scaled _ _ _ hdx
  · intro hs _
    have hs0 : s0.single_component = false := hc.trans hs
    obtain ⟨-, -, hp1, -, -⟩ := calculate_second s0 hs0
    have hcs : (calculate_energy_expected_values s0).single_component = false :=
      hc0.trans hs0
    have e1 : (get_potential_energy s 2).1 =
        (calculate_energy_expected_values s0).potential_energy 1 := by
      simp [get_potential_energy, hr, hcs]
    rw [e1, hp1, hsum, (energy_sums_second s hs).1, (energy_sums_second s hs).2.1,
      ← Finset.sum_mul]
    exact div_scaled _ _ _ hdx

/-- C8 on six cells holding `1`, with `dx = 1/2` and the constant potential
`V = 3`: the potential energy is `3`. -/
theorem potential_energy_getter_witness :
    (get_potential_energy (Examples.flatSolver (1 : ℚ) (1 / 2) 1 3) 1).1 = 3 := by
  have hne : (Examples.flatSolver (1 : ℚ) (1 / 2) 1 3).grid.delta_x *
      ∑ j ∈ inner_box (Examples.flatSolver (1 : ℚ) (1 / 2) 1 3).grid,
        Cplx.normSq ((Examples.flatSolver (1 : ℚ) (1 / 2) 1 3).state.psi j) ≠ 0 := by
    simp [Examples.flatSolver, Examples.solver, Examples.grid6, Examples.constState, inner_box,
      State1D.psi, Cplx.normSq]
  rw [(potential_energy_getter (Examples.flatSolver (1 : ℚ) (1 / 2) 1 3) (Or.inl rfl)
    (by simp [Examples.flatSolver, Examples.solver, Examples.grid6])).1 hne]
  simp [Examples.flatSolver, Examples.solver, Examples.grid6, Examples.constState, inner_box,
    Examples.hamiltonian, State1D.psi, Cplx.normSq]
  norm_num


/-! ## C9: the intra-species energy -/

/-- C9: for a state of non-zero norm and `dx ≠ 0`,
`get_intra_species_energy(1)` is `(0.5 g_a ∑ |ψ_j|⁴ dx) / (dx ∑ |ψ_j|²)`, both
sums over the inner sub-box, with `g_a = coupling_a`; likewise
`get_intra_species_energy(2)` with `coupling_b` and the second state on a
two-component system. -/
theorem intra_species_energy_getter (s : Solver1D K) (h : CacheValid s)
    (hdx : s.grid.delta_x ≠ 0) :
    (s.grid.delta_x * ∑ j ∈ inner_box s.grid, Cplx.normSq (s.state.psi j) ≠ 0 →
      (get_intra_species_energy s 1).1 =
        (1 / 2 * s.hamiltonian.coupling_a *
            (∑ j ∈ inner_box s.grid, Cplx.normSq (s.state.psi j) ^ 2) * s.grid.delta_x) /
          (s.grid.delta_x * ∑ j ∈ inner_box s.grid, Cplx.normSq (s.state.psi j))) ∧
    (s.single_component = false →
      s.grid.delta_x * ∑ j ∈ inner_box s.grid, Cplx.normSq (s.state_b.psi j) ≠ 0 →
      (get_intra_species_energy s 2).1 =
        (1 / 2 * s.hamiltonian.coupling_b *
            (∑ j ∈ inner_box s.grid, Cplx.normSq (s.state_b.psi j) ^ 2) * s.grid.delta_x) /
          (s.grid.delta_x * ∑ j ∈ inner_box s.grid, Cplx.normSq (s.state_b.psi j))) := by
  obtain ⟨s0, hr, hsum, hg, hc⟩ := refresh_of_valid s h
  obtain ⟨-, -, -, hi0⟩ := calculate_first s0
  obtain ⟨-, -, -, -, hc0, -⟩ := calculate_frame s0
  constructor
  · intro _
    have e0 : (get_intra_species_energy s 1).1 =
        (calculate_energy_expected_values s0).intra_species_energy 0 := by
      simp [get_intra_species_energy, hr]
    rw [e0, hi0, hsum, (energy_sums_first s).1, (energy_sums_first s).2.2.1, ← Finset.mul_sum]
    exact div_scaled _ _ _ hdx
  · intro hs _
    have hs0 : s0.single_component = false := hc.trans hs
    obtain ⟨-, -, -, hi1, -⟩ := calculate_second s0 hs0
    have hcs : (calculate_energy_expected_values s0).single_component = false :=
      hc0.trans hs0
    have e1 : (get_intra_species_energy s 2).1 =
        (calculate_energy_expected_values s0).intra_species_energy 1 := by
      simp [get_intra_species_energy, hr, hcs]
    rw [e1, hi1, hsum, (energy_sums_second s hs).1, (energy_sums_second s hs).2.2.1,
      ← Finset.mul_sum]
    exact div_scaled _ _ _ hdx

/-- C9 on six cells holding `2`, with `dx = 1/24` and `g_a = 1`: the
intra-species energy is `0.5 · 96 / 24 = 2`. -/
theorem intra_species_energy_getter_witness :
    (get_intra_species_energy (Examples.coupledSolver (2 : ℚ) (1 / 24) 1) 1).1 = 2 := by
  have hne : (Examples.coupledSolver (2 : ℚ) (1 / 24) 1).grid.delta_x *
      ∑ j ∈ inner_box (Examples.coupledSolver (2 : ℚ) (1 / 24) 1).grid,
        Cplx.normSq ((Examples.coupledSolver (2 : ℚ) (1 / 24) 1).state.psi j) ≠ 0 := by
    simp [Examples.coupledSolver, Examples.solver, Examples.grid6, Examples.constState,
      inner_box, State1D.psi, Cplx.normSq]
  rw [(intra_species_energy_getter (Examples.coupledSolver (2 : ℚ) (1 / 24) 1) (Or.inl rfl)
    (by simp [Examples.coupledSolver, Examples.solver, Examples.grid6])).1 hne]
  simp [Examples.coupledSolver, Examples.solver, Examples.grid6, Examples.constState, inner_box,
    Examples.hamiltonian, State1D.psi, Cplx.normSq]
  norm_num

/-! ## The inter-species energy as the code computes it -/

/-- What the code returns on a two-component system whose components both have
squared norm `1` (`dx ∑ |ψ_a|² = dx ∑ |ψ_b|² = 1`):
`get_inter_species_energy()` is `g_ab ∑ (|ψ_a,j|² |ψ_b,j|²)² dx²` over the inner
sub-box, because the loop weights the density product `g_ab |ψ_a|² |ψ_b|²` by
`|ψ_a|² |ψ_b|²` and the sum is divided by `(∑ |ψ_a|²)(∑ |ψ_b|²)`. The factor
`dx²` in place of `dx` makes the value depend on the grid. -/
theorem inter_species_energy_getter (s : Solver1D K) (h : CacheValid s)
    (hs : s.single_component = false)
    (ha : s.grid.delta_x * ∑ j ∈ inner_box s.grid, Cplx.normSq (s.state.psi j) = 1)
    (hb : s.grid.delta_x * ∑ j ∈ inner_box s.grid, Cplx.normSq (s.state_b.psi j) = 1) :
    (get_inter_species_energy s).1 =
        (∑ j ∈ inner_box s.grid,
            s.hamiltonian.coupling_ab *
              (Cplx.normSq (s.state.psi j) ^ 2 * Cplx.normSq (s.state_b.psi j) ^ 2)) /
          ((∑ j ∈ inner_box s.grid, Cplx.normSq (s.state.psi j)) *
            (∑ j ∈ inner_box s.grid, Cplx.normSq (s.state_b.psi j))) ∧
      (get_inter_species_energy s).1 =
        s.hamiltonian.coupling_ab *
          (∑ j ∈ inner_box s.grid,
            (Cplx.normSq (s.state.psi j) * Cplx.normSq (s.state_b.psi j)) ^ 2) *
          s.grid.delta_x ^ 2 := by
  obtain ⟨s0, hr, hsum, hg, hc⟩ := refresh_of_valid s h
  obtain ⟨-, -, -, -, hc0, -⟩ := calculate_frame s0
  have hs0 : s0.single_component = false := hc.trans hs
  obtain ⟨-, -, -, -, hinter⟩ := calculate_second s0 hs0
  have hcs : (calculate_energy_expected_values s0).single_component = false := hc0.trans hs0
  have e : (get_inter_species_energy s).1 =
      (calculate_energy_expected_values s0).inter_species_energy := by
    simp [get_inter_species_energy, hr, hcs]
  have hval : (get_inter_species_energy s).1 =
      (∑ j ∈ inner_box s.grid,
          s.hamiltonian.coupling_ab *
            (Cplx.normSq (s.state.psi j) ^ 2 * Cplx.normSq (s.state_b.psi j) ^ 2)) /
        ((∑ j ∈ inner_box s.grid, Cplx.normSq (s.state.psi j)) *
          (∑ j ∈ inner_box s.grid, Cplx.normSq (s.state_b.psi j))) := by
    rw [e, hinter, hsum, (energy_sums_first s).1, (energy_sums_second s hs).1,
      (energy_sums_second s hs).2.2.2.2]
  refine ⟨hval, ?_⟩
  rw [hval]
  have hdx : s.grid.delta_x ≠ 0 := by
    intro h0
    rw [h0, zero_mul] at ha
    exact zero_ne_one ha
  have hNa : ∑ j ∈ inner_box s.grid, Cplx.normSq (s.state.psi j) = s.grid.delta_x⁻¹ :=
    eq_inv_of_mul_eq_one_right ha
  have hNb : ∑ j ∈ inner_box s.grid, Cplx.normSq (s.state_b.psi j) = s.grid.delta_x⁻¹ :=
    eq_inv_of_mul_eq_one_right hb
  rw [hNa, hNb, ← Finset.mul_sum]
  have hpow : ∀ j : Int,
      Cplx.normSq (s.state.psi j) ^ 2 * Cplx.normSq (s.state_b.psi j) ^ 2 =
        (Cplx.normSq (s.state.psi j) * Cplx.normSq (s.state_b.psi j)) ^ 2 := by
    intro j
    ring
  simp only [hpow]
  rw [div_eq_mul_inv, mul_inv, inv_inv, sq]

/-- The value returned on six cells holding `2` in both components, with
`dx = 1/24` and `g_ab = 1`: `6 · 256 / 576 = 8/3`. -/
theorem inter_species_energy_getter_witness :
    (get_inter_species_energy (Examples.coupledSolver (2 : ℚ) (1 / 24) 1)).1 = 8 / 3 := by
  have hn : (Examples.coupledSolver (2 : ℚ) (1 / 24) 1).grid.delta_x *
      ∑ j ∈ inner_box (Examples.coupledSolver (2 : ℚ) (1 / 24) 1).grid,
        Cplx.normSq ((Examples.coupledSolver (2 : ℚ) (1 / 24) 1).state.psi j) = 1 := by
    simp [Examples.coupledSolver, Examples.solver, Examples.grid6, Examples.constState,
      inner_box, State1D.psi, Cplx.normSq]
    norm_num
  rw [(inter_species_energy_getter (Examples.coupledSolver (2 : ℚ) (1 / 24) 1) (Or.inl rfl)
    rfl hn hn).2]
  simp [Examples.coupledSolver, Examples.solver, Examples.grid6, Examples.constState, inner_box,
    Examples.hamiltonian, State1D.psi, Cplx.normSq]
  norm_num

/-- On six cells holding `2` in both components, with `dx = 1/24` and
`g_ab = 1`, both squared norms are `1` and the code does not return
`g_ab ∑ |ψ_a|² |ψ_b|² dx`. -/
theorem inter_species_energy_counterexample :
    (Examples.coupledSolver (2 : ℚ) (1 / 24) 1).grid.delta_x *
        ∑ j ∈ inner_box (Examples.coupledSolver (2 : ℚ) (1 / 24) 1).grid,
          Cplx.normSq ((Examples.coupledSolver (2 : ℚ) (1 / 24) 1).state.psi j) = 1 ∧
      (Examples.coupledSolver (2 : ℚ) (1 / 24) 1).grid.delta_x *
        ∑ j ∈ inner_box (Examples.coupledSolver (2 : ℚ) (1 / 24) 1).grid,
          Cplx.normSq ((Examples.coupledSolver (2 : ℚ) (1 / 24) 1).state_b.psi j) = 1 ∧
      (get_inter_species_energy (Examples.coupledSolver (2 : ℚ) (1 / 24) 1)).1 ≠
        (Examples.coupledSolver (2 : ℚ) (1 / 24) 1).hamiltonian.coupling_ab *
          (∑ j ∈ inner_box (Examples.coupledSolver (2 : ℚ) (1 / 24) 1).grid,
            Cplx.normSq ((Examples.coupledSolver (2 : ℚ) (1 / 24) 1).state.psi j) *
              Cplx.normSq ((Examples.coupledSolver (2 : ℚ) (1 / 24) 1).state_b.psi j)) *
          (Examples.coupledSolver (2 : ℚ) (1 / 24) 1).grid.delta_x := by
  have hn : (Examples.coupledSolver (2 : ℚ) (1 / 24) 1).grid.delta_x *
      ∑ j ∈ inner_box (Examples.coupledSolver (2 : ℚ) (1 / 24) 1).grid,
        Cplx.normSq ((Examples.coupledSolver (2 : ℚ) (1 / 24) 1).state.psi j) = 1 := by
    simp [Examples.coupledSolver, Examples.solver, Examples.grid6, Examples.constState,
      inner_box, State1D.psi, Cplx.normSq]
    norm_num
  refine ⟨hn, hn, ?_⟩
  obtain ⟨-, -, -, -, hc0, -⟩ := calculate_frame (Examples.coupledSolver (2 : ℚ) (1 / 24) 1)
  obtain ⟨-, -, -, -, hinter⟩ :=
    calculate_second (Examples.coupledSolver (2 : ℚ) (1 / 24) 1) rfl
  have e : (get_inter_species_energy (Examples.coupledSolver (2 : ℚ) (1 / 24) 1)).1 =
      (calculate_energy_expected_values
        (Examples.coupledSolver (2 : ℚ) (1 / 24) 1)).inter_species_energy := by
    have hr : refresh (Examples.coupledSolver (2 : ℚ) (1 / 24) 1) =
        calculate_energy_expected_values (Examples.coupledSolver (2 : ℚ) (1 / 24) 1) := rfl
    have hcs : (calculate_energy_expected_values
        (Examples.coupledSolver (2 : ℚ) (1 / 24) 1)).single_component = false := hc0
    unfold get_inter_species_energy
    simp only [hr, hcs]
    rfl
  rw [e, hinter, (energy_sums_first _).1, (energy_sums_second _ rfl).1,
    (energy_sums_second _ rfl).2.2.2.2]
  simp [Examples.coupledSolver, Examples.solver, Examples.grid6, Examples.constState, inner_box,
    Examples.hamiltonian, State1D.psi, Cplx.normSq]
  norm_num

/-! ## Lemmas on the main loop of `evolve` -/

/-- An invariant indexed by the number of iterations done holds after the loop. -/
theorem forLoop_induct {σ : Type} (P : Nat → σ → Prop) (body : Int → σ → σ) (lo hi : Int)
    (init : σ) (h0 : P 0 init)
    (hs : ∀ (k : Nat) (a : σ), (k : Int) < hi - lo → P k a → P (k + 1) (body (lo + k) a)) :
    P (hi - lo).toNat (forLoop lo hi body init) := by
  unfold forLoop
  have aux : ∀ m : Nat, m ≤ (hi - lo).toNat →
      P m ((List.range m).foldl (fun (acc : σ) (k : Nat) => body (lo + (k : Int)) acc) init) := by
    intro m
    induction m with
    | zero => intro _; exact h0
    | succ m ih =>
      intro hm
      rw [forLoop_range_succ]
      apply hs
      · omega
      · exact ih (by omega)
  exact aux _ (le_refl _)

theorem forLoop_succ {σ : Type} (body : Int → σ → σ) (lo : Int) (k : Nat) (init : σ) :
    forLoop lo (lo + ((k + 1 : Nat) : Int)) body init =
      body (lo + k) (forLoop lo (lo + (k : Int)) body init) := by
  unfold forLoop
  have h1 : (lo + ((k + 1 : Nat) : Int) - lo).toNat = k + 1 := by omega
  have h2 : (lo + (k : Int) - lo).toNat = k := by omega
  rw [h1, h2, forLoop_range_succ]

theorem forLoop_nonpos {σ : Type} (body : Int → σ → σ) (lo hi : Int) (init : σ) (h : hi ≤ lo) :
    forLoop lo hi body init = init := by
  unfold forLoop
  have h0 : (hi - lo).toNat = 0 := by omega
  rw [h0]
  rfl

theorem LoopFrame.refl (s : Solver1D K) : LoopFrame s s :=
  ⟨rfl, rfl, rfl, rfl, rfl, rfl, rfl, rfl, rfl, rfl, rfl, rfl⟩

theorem LoopFrame.trans {s t u : Solver1D K} (h1 : LoopFrame s t) (h2 : LoopFrame t u) :
    LoopFrame s u := by
  obtain ⟨a1, a2, a3, a4, a5, a6, a7, a8, a9, a10, a11, a12⟩ := h1
  obtain ⟨b1, b2, b3, b4, b5, b6, b7, b8, b9, b10, b11, b12⟩ := h2
  exact ⟨b1.trans a1, b2.trans a2, b3.trans a3, b4.trans a4, b5.trans a5, b6.trans a6,
    b7.trans a7, b8.trans a8, b9.trans a9, b10.trans a10, b11.trans a11, b12.trans a12⟩

theorem evolve_update_potential_spec (env : Environment K) (L : Libm K) (i : Int)
    (st : EvolveLoop K) :
    (evolve_update_potential env L i st).var = st.var ∧
    LoopFrame st.solver (evolve_update_potential env L i st).solver ∧
    (evolve_update_potential env L i st).solver.current_evolution_time =
      st.solver.current_evolution_time ∧
    (evolve_update_potential env L i st).solver.hamiltonian.potential_b =
      st.solver.hamiltonian.potential_b ∧
    (evolve_update_potential env L i st).calls = st.calls ++
      (if 0 < i then
        potential_calls 0 st.solver.current_evolution_time
          (env.update st.solver.current_evolution_time st.solver.hamiltonian.potential).1
          (evolve_update_potential env L i st).solver
      else []) := by
  unfold evolve_update_potential
  by_cases hi : 0 < i
  · cases hr : (env.update st.solver.current_evolution_time st.solver.hamiltonian.potential).1
    · simp [hi, hr, EvolveLoop.call, potential_calls, LoopFrame]
    · simp [hi, hr, EvolveLoop.call, potential_calls, LoopFrame, initialize_exp_potential]
  · simp [hi, LoopFrame]


theorem evolve_update_potential_b_spec (env : Environment K) (L : Libm K) (i : Int)
    (st : EvolveLoop K) :
    (evolve_update_potential_b env L i st).var = st.var ∧
    LoopFrame st.solver (evolve_update_potential_b env L i st).solver ∧
    (evolve_update_potential_b env L i st).solver.current_evolution_time =
      st.solver.current_evolution_time ∧
    (evolve_update_potential_b env L i st).solver.hamiltonian.potential =
      st.solver.hamiltonian.potential ∧
    (evolve_update_potential_b env L i st).calls = st.calls ++
      (if st.solver.single_component = false ∧ 0 < i then
        potential_calls 1 st.solver.current_evolution_time
          (env.update_b st.solver.current_evolution_time st.solver.hamiltonian.potential_b).1
          (evolve_update_potential_b env L i st).solver
      else []) := by
  unfold evolve_update_potential_b
  by_cases hi : 0 < i
  · cases hs : st.solver.single_component
    · cases hr :
        (env.update_b st.solver.current_evolution_time st.solver.hamiltonian.potential_b).1
      · simp [hi, hr, hs, EvolveLoop.call, potential_calls, LoopFrame]
      · simp [hi, hr, hs, EvolveLoop.call, potential_calls, LoopFrame, initialize_exp_potential]
    · simp [hi, hs, LoopFrame]
  · simp [hi, LoopFrame]

theorem evolve_substep_spec (iterations i : Int) (which : Nat) (st : EvolveLoop K) :
    evolve_substep iterations i which st =
      { st with calls := st.calls ++ substep_calls iterations i which } := by
  unfold evolve_substep substep_calls
  by_cases h : i = iterations - 1 <;> simp [h, EvolveLoop.call]

theorem evolve_rabi_spec (iterations i : Int) (st : EvolveLoop K) :
    evolve_rabi iterations i st =
      { st with
        var := if i = iterations - 1 then 1 / 2 else st.var,
        calls := st.calls ++
          [Event.rabi_coupling (if i = iterations - 1 then 1 / 2 else st.var) st.solver.delta_t,
            Event.normalization] } := by
  unfold evolve_rabi
  by_cases h : i = iterations - 1 <;> simp [h, EvolveLoop.call]

theorem evolve_iteration_eq (env : Environment K) (L : Libm K) (iterations i : Int)
    (st : EvolveLoop K) :
    evolve_iteration env L iterations i st =
      { solver :=
          { (evolve_update_potential_b env L i (evolve_update_potential env L i st)).solver with
            current_evolution_time :=
              (evolve_update_potential_b env L i
                (evolve_update_potential env L i st)).solver.current_evolution_time +
              (evolve_update_potential_b env L i
                (evolve_update_potential env L i st)).solver.delta_t },
        var :=
          if (evolve_update_potential_b env L i
              (evolve_update_potential env L i st)).solver.single_component = false ∧
              i = iterations - 1 then 1 / 2
          else (evolve_update_potential_b env L i (evolve_update_potential env L i st)).var,
        calls :=
          (evolve_update_potential_b env L i (evolve_update_potential env L i st)).calls ++
            (substep_calls iterations i 0 ++
              (if (evolve_update_potential_b env L i
                  (evolve_update_potential env L i st)).solver.single_component then []
               else substep_calls iterations i 1 ++
                [Event.rabi_coupling
                    (if i = iterations - 1 then 1 / 2
                     else (evolve_update_potential_b env L i
                        (evolve_update_potential env L i st)).var)
                    (evolve_update_potential_b env L i
                      (evolve_update_potential env L i st)).solver.delta_t,
                  Event.normalization])) } := by
  unfold evolve_iteration
  simp only [evolve_substep_spec, evolve_rabi_spec]
  cases hs : (evolve_update_potential_b env L i
      (evolve_update_potential env L i st)).solver.single_component <;>
    simp [hs]

/-- One iteration of the main loop: what it leaves and the calls it issues. -/
theorem evolve_iteration_spec (env : Environment K) (L : Libm K) (iterations i : Int)
    (st : EvolveLoop K) (hvar : st.var = 1) :
    LoopFrame st.solver (evolve_iteration env L iterations i st).solver ∧
    (evolve_iteration env L iterations i st).solver.current_evolution_time =
      st.solver.current_evolution_time + st.solver.delta_t ∧
    (i ≠ iterations - 1 → (evolve_iteration env L iterations i st).var = 1) ∧
    (evolve_iteration env L iterations i st).calls = st.calls ++
      ((if 0 < i then
          potential_calls 0 st.solver.current_evolution_time
            (env.update st.solver.current_evolution_time st.solver.hamiltonian.potential).1
            (evolve_update_potential env L i st).solver
        else []) ++
        (if st.solver.single_component = false ∧ 0 < i then
          potential_calls 1 st.solver.current_evolution_time
            (env.update_b st.solver.current_evolution_time
              st.solver.hamiltonian.potential_b).1
            (evolve_update_potential_b env L i (evolve_update_potential env L i st)).solver
        else []) ++
        iteration_substeps st.solver.single_component st.solver.delta_t iterations i) := by
  obtain ⟨va, fa, ta, pa, ca⟩ := evolve_update_potential_spec env L i st
  obtain ⟨vb, fb, tb, pb, cb⟩ :=
    evolve_update_potential_b_spec env L i (evolve_update_potential env L i st)
  have fab := fa.trans fb
  have hsc := fab.2.2.2.2.2.2.1
  have hdt := fab.2.2.2.1
  rw [ta, pa, fa.2.2.2.2.2.2.1] at cb
  rw [evolve_iteration_eq]
  refine ⟨fab, ?_, ?_, ?_⟩
  · show _ + _ = _
    rw [tb, ta, hdt]
  · intro h
    show (if _ then _ else _) = _
    rw [if_neg (fun hh => h hh.2), vb, va, hvar]
  · show _ ++ _ = _
    rw [cb, ca, hsc, hdt, vb, va, hvar]
    simp only [iteration_substeps, List.append_assoc]


theorem evolve_update_potential_thread (env : Environment K) (L : Libm K) (i : Int)
    (st : EvolveLoop K) :
    evolve_update_potential env L i st =
      { solver := (evolve_update_potential env L i ⟨st.solver, 1, []⟩).solver,
        var := st.var,
        calls := st.calls ++ (evolve_update_potential env L i ⟨st.solver, 1, []⟩).calls } := by
  unfold evolve_update_potential
  by_cases hi : 0 < i
  · cases hr : (env.update st.solver.current_evolution_time st.solver.hamiltonian.potential).1
    · simp [hi, hr, EvolveLoop.call]
    · simp [hi, hr, EvolveLoop.call]
  · simp [hi]

theorem evolve_update_potential_b_thread (env : Environment K) (L : Libm K) (i : Int)
    (st : EvolveLoop K) :
    evolve_update_potential_b env L i st =
      { solver := (evolve_update_potential_b env L i ⟨st.solver, 1, []⟩).solver,
        var := st.var,
        calls := st.calls ++ (evolve_update_potential_b env L i ⟨st.solver, 1, []⟩).calls } := by
  unfold evolve_update_potential_b
  by_cases hi : 0 < i
  · cases hs : st.solver.single_component
    · cases hr :
        (env.update_b st.solver.current_evolution_time st.solver.hamiltonian.potential_b).1
      · simp [hi, hr, hs, EvolveLoop.call]
      · simp [hi, hr, hs, EvolveLoop.call]
    · simp [hi, hs]
  · simp [hi]

/-- The solver and the calls of an iteration depend on the loop state through
its solver only, as long as `var = 1`. -/
theorem evolve_iteration_thread (env : Environment K) (L : Libm K) (iterations i : Int)
    (st : EvolveLoop K) (hvar : st.var = 1) :
    (evolve_iteration env L iterations i st).solver =
        iteration_solver env L iterations i st.solver ∧
      (evolve_iteration env L iterations i st).calls =
        st.calls ++ iteration_events env L iterations i st.solver := by
  unfold iteration_solver iteration_events
  rw [evolve_iteration_eq env L iterations i st,
    evolve_iteration_eq env L iterations i ⟨st.solver, 1, []⟩]
  rw [evolve_update_potential_b_thread env L i (evolve_update_potential env L i st),
    evolve_update_potential_thread env L i st]
  rw [evolve_update_potential_b_thread env L i
      (evolve_update_potential env L i ⟨st.solver, 1, []⟩),
    evolve_update_potential_thread env L i ⟨st.solver, 1, []⟩]
  simp [hvar, List.append_assoc]


theorem evolve_loop_zero (env : Environment K) (L : Libm K) (s : Solver1D K) (iterations : Int)
    (calls : List (Event K)) :
    evolve_loop env L s iterations calls 0 =
      ⟨s, 1, calls ++
        (if s.single_component then [] else [Event.rabi_coupling (1 / 2) s.delta_t])⟩ := by
  unfold evolve_loop
  rw [forLoop_nonpos _ _ _ _ (le_refl 0)]
  cases hs : s.single_component <;> simp [EvolveLoop.call]

theorem evolve_loop_succ (env : Environment K) (L : Libm K) (s : Solver1D K) (iterations : Int)
    (calls : List (Event K)) (k : Nat) :
    evolve_loop env L s iterations calls ((k + 1 : Nat) : Int) =
      evolve_iteration env L iterations k (evolve_loop env L s iterations calls k) := by
  unfold evolve_loop
  have h := forLoop_succ (evolve_iteration env L iterations) 0 k
    ({ (if !s.single_component then
          EvolveLoop.call ⟨s, 1 / 2, calls⟩ (Event.rabi_coupling (1 / 2) s.delta_t)
        else ⟨s, 1 / 2, calls⟩) with var := 1 } : EvolveLoop K)
  simp only [zero_add] at h
  exact h

theorem evolve_loop_nonpos (env : Environment K) (L : Libm K) (s : Solver1D K)
    (iterations : Int) (calls : List (Event K)) (h : iterations ≤ 0) :
    evolve_loop env L s iterations calls iterations =
      evolve_loop env L s iterations calls 0 := by
  unfold evolve_loop
  rw [forLoop_nonpos _ _ _ _ h, forLoop_nonpos _ _ _ _ (le_refl 0)]

/-- The calls of an iteration: those that concern the potentials, then the
kernel sub-steps. -/
theorem iteration_events_eq (env : Environment K) (L : Libm K) (iterations i : Int)
    (s : Solver1D K) :
    iteration_events env L iterations i s =
      potential_events env L i s ++
        iteration_substeps s.single_component s.delta_t iterations i := by
  obtain ⟨va, fa, -, -, -⟩ := evolve_update_potential_spec env L i ⟨s, 1, []⟩
  obtain ⟨vb, fb, -, -, -⟩ :=
    evolve_update_potential_b_spec env L i (evolve_update_potential env L i ⟨s, 1, []⟩)
  have fab := fa.trans fb
  have hsc := fab.2.2.2.2.2.2.1
  have hdt := fab.2.2.2.1
  unfold iteration_events potential_events
  rw [evolve_iteration_eq]
  show _ ++ _ = _
  rw [hsc, hdt, vb, va]
  rfl

theorem potential_calls_not_substep (which : Nat) (t : K) (changed : Bool) (s : Solver1D K) :
    ∀ e ∈ potential_calls which t changed s, Event.isSubstep e = false := by
  intro e he
  cases changed <;> simp [potential_calls] at he
  · rw [he]; rfl
  · rcases he with he | he <;> rw [he] <;> rfl

theorem potential_events_eq (env : Environment K) (L : Libm K) (i : Int) (s : Solver1D K) :
    potential_events env L i s =
      (if 0 < i then
          potential_calls 0 s.current_evolution_time
            (env.update s.current_evolution_time s.hamiltonian.potential).1
            (evolve_update_potential env L i ⟨s, 1, []⟩).solver
        else []) ++
        (if s.single_component = false ∧ 0 < i then
          potential_calls 1 s.current_evolution_time
            (env.update_b s.current_evolution_time s.hamiltonian.potential_b).1
            (evolve_update_potential_b env L i (evolve_update_potential env L i ⟨s, 1, []⟩)).solver
        else []) := by
  obtain ⟨va, fa, ta, pa, ca⟩ := evolve_update_potential_spec env L i ⟨s, 1, []⟩
  obtain ⟨vb, fb, tb, pb, cb⟩ :=
    evolve_update_potential_b_spec env L i (evolve_update_potential env L i ⟨s, 1, []⟩)
  unfold potential_events
  rw [cb, ca, ta, pa, fa.2.2.2.2.2.2.1]
  simp

theorem potential_events_not_substep (env : Environment K) (L : Libm K) (i : Int)
    (s : Solver1D K) : ∀ e ∈ potential_events env L i s, Event.isSubstep e = false := by
  intro e he
  rw [potential_events_eq, List.mem_append] at he
  rcases he with he | he
  · split_ifs at he
    · exact potential_calls_not_substep _ _ _ _ e he
    · simp at he
  · split_ifs at he
    · exact potential_calls_not_substep _ _ _ _ e he
    · simp at he

theorem potential_events_nonpos (env : Environment K) (L : Libm K) (i : Int)
    (s : Solver1D K) (hi : i ≤ 0) : potential_events env L i s = [] := by
  rw [potential_events_eq]
  have h : ¬ 0 < i := not_lt.2 hi
  simp [h]

/-- The state of the main loop when the iteration `k ≤ iterations` begins. -/
theorem evolve_loop_spec (env : Environment K) (L : Libm K) (s : Solver1D K) (iterations : Int)
    (calls : List (Event K)) (k : Nat) (hk : (k : Int) ≤ iterations) :
    LoopFrame s (evolve_loop env L s iterations calls k).solver ∧
    (evolve_loop env L s iterations calls k).solver.current_evolution_time =
      s.current_evolution_time + (k : K) * s.delta_t ∧
    ((k : Int) < iterations → (evolve_loop env L s iterations calls k).var = 1) ∧
    (evolve_loop env L s iterations calls k).calls =
      calls ++ (if s.single_component then [] else [Event.rabi_coupling (1 / 2) s.delta_t]) ++
        (List.range k).flatMap (fun i =>
          iteration_events env L iterations i
            (evolve_loop env L s iterations calls i).solver) := by
  induction k with
  | zero =>
    rw [Nat.cast_zero, evolve_loop_zero]
    refine ⟨LoopFrame.refl s, ?_, fun _ => rfl, ?_⟩
    · simp
    · simp
  | succ k ih =>
    obtain ⟨hf, ht, hv, hc⟩ := ih (by push_cast at hk; omega)
    have hvar := hv (by push_cast at hk; omega)
    obtain ⟨hf', ht', hv', -⟩ := evolve_iteration_spec env L iterations k
      (evolve_loop env L s iterations calls k) hvar
    obtain ⟨-, hc'⟩ := evolve_iteration_thread env L iterations k
      (evolve_loop env L s iterations calls k) hvar
    rw [evolve_loop_succ]
    refine ⟨hf.trans hf', ?_, ?_, ?_⟩
    · rw [ht', ht, hf.2.2.2.1]
      push_cast
      ring
    · intro hlt
      apply hv'
      push_cast at hlt
      omega
    · rw [hc', hc, List.range_succ, List.flatMap_append]
      simp [List.append_assoc]

/-! ## Lemmas on the (re)initialisation and on `evolve` as a whole -/

/-- The recomputation of the constants writes the regime flag, the constants,
the exponentiated potentials and `norm2` only. -/
theorem evolve_recompute_frame (L : Libm K) (s : Solver1D K) (b : Bool) :
    (evolve_recompute L s b).grid = s.grid ∧
    (evolve_recompute L s b).state = s.state ∧
    (evolve_recompute L s b).state_b = s.state_b ∧
    (evolve_recompute L s b).hamiltonian = s.hamiltonian ∧
    (evolve_recompute L s b).delta_t = s.delta_t ∧
    (evolve_recompute L s b).kernel_type = s.kernel_type ∧
    (evolve_recompute L s b).kernel = s.kernel ∧
    (evolve_recompute L s b).single_component = s.single_component ∧
    (evolve_recompute L s b).imag_time = b ∧
    (evolve_recompute L s b).current_evolution_time = s.current_evolution_time ∧
    (evolve_recompute L s b).energy_expected_values_updated =
      s.energy_expected_values_updated := by
  cases hs : s.single_component <;> cases b <;>
    simp [evolve_recompute, initialize_exp_potential, hs]

theorem init_kernel_cpu (s : Solver1D K) (hcpu : s.kernel_type = "cpu") :
    init_kernel s =
      .ok { s with
        kernel := some ⟨!s.single_component, s.h_a, s.h_b, s.delta_t, s.imag_time⟩ } := by
  unfold init_kernel
  cases hs : s.single_component <;> simp [hcpu, hs]

/-- With the back end `"cpu"` the (re)initialisation of `evolve` succeeds; it
leaves the solver unchanged when the test of line 141 fails, and otherwise the
recomputed solver with a new kernel and `has_parameters_changed` cleared. -/
theorem evolve_initialise_cpu (L : Libm K) (s : Solver1D K) (b : Bool)
    (hcpu : s.kernel_type = "cpu") :
    ∃ s0 : Solver1D K,
      evolve_initialise L s b =
        .ok (s0, if evolve_needs_init s b = true then [Event.init_kernel] else []) ∧
      (evolve_needs_init s b = false → s0 = s) ∧
      (evolve_needs_init s b = true →
        s0 = { evolve_recompute L s b with
          kernel := some ⟨!s.single_component, (evolve_recompute L s b).h_a,
            (evolve_recompute L s b).h_b, s.delta_t, b⟩,
          has_parameters_changed := false }) ∧
      s0.grid = s.grid ∧ s0.state = s.state ∧ s0.state_b = s.state_b ∧
      s0.delta_t = s.delta_t ∧ s0.kernel_type = s.kernel_type ∧
      s0.single_component = s.single_component ∧ s0.imag_time = b ∧
      s0.current_evolution_time = s.current_evolution_time ∧
      s0.energy_expected_values_updated = s.energy_expected_values_updated ∧
      s0.kernel ≠ none ∧ s0.has_parameters_changed = false := by
  obtain ⟨hg, hst, hsb, -, hdt, hkt, -, hsc, him, htm, hfl⟩ := evolve_recompute_frame L s b
  cases hn : evolve_needs_init s b
  · refine ⟨s, ?_, fun _ => rfl, fun h => absurd h (by simp), rfl, rfl, rfl, rfl, rfl, rfl,
      ?_, rfl, rfl, ?_, ?_⟩
    · simp [evolve_initialise, hn]
    · simp only [evolve_needs_init, Bool.or_eq_false_iff, bne_eq_false_iff_eq] at hn
      exact hn.1.1.symm
    · simp only [evolve_needs_init, Bool.or_eq_false_iff] at hn
      intro h0
      rw [h0] at hn
      simp at hn
    · simp only [evolve_needs_init, Bool.or_eq_false_iff] at hn
      exact hn.2
  · refine ⟨{ evolve_recompute L s b with
        kernel := some ⟨!s.single_component, (evolve_recompute L s b).h_a,
          (evolve_recompute L s b).h_b, s.delta_t, b⟩,
        has_parameters_changed := false }, ?_, fun h => absurd h (by simp), fun _ => rfl,
      hg, hst, hsb, hdt, hkt, hsc, him, htm, hfl, by simp, rfl⟩
    unfold evolve_initialise
    rw [hn, if_pos rfl, init_kernel_cpu _ (hkt.trans hcpu), hsc, hdt, him]
    simp
    exact ⟨hdt.symm, hsc.symm, him.symm⟩

theorem evolve_get_sample_spec (env : Environment K) (s : Solver1D K) :
    (evolve_get_sample env s).energy_expected_values_updated = false ∧
    (evolve_get_sample env s).state.expected_values_updated = false ∧
    (s.single_component = false →
      (evolve_get_sample env s).state_b.expected_values_updated = false) ∧
    (evolve_get_sample env s).current_evolution_time = s.current_evolution_time ∧
    (evolve_get_sample env s).kernel = s.kernel ∧
    (evolve_get_sample env s).h_a = s.h_a ∧ (evolve_get_sample env s).h_b = s.h_b ∧
    (evolve_get_sample env s).imag_time = s.imag_time ∧
    (evolve_get_sample env s).has_parameters_changed = s.has_parameters_changed ∧
    (evolve_get_sample env s).kernel_type = s.kernel_type ∧
    (evolve_get_sample env s).single_component = s.single_component ∧
    (evolve_get_sample env s).delta_t = s.delta_t := by
  cases hs : s.single_component <;> simp [evolve_get_sample, hs]

/-- The number of iterations that the main loop runs. -/
theorem evolve_loop_toNat (env : Environment K) (L : Libm K) (s : Solver1D K)
    (iterations : Int) (calls : List (Event K)) :
    evolve_loop env L s iterations calls iterations =
      evolve_loop env L s iterations calls (iterations.toNat : Int) := by
  by_cases h : 0 ≤ iterations
  · rw [Int.toNat_of_nonneg h]
  · have h0 : iterations.toNat = 0 := by omega
    rw [h0, Nat.cast_zero]
    exact evolve_loop_nonpos env L s iterations calls (by omega)

/-- The calls of `evolve_main`: the calls of the (re)initialisation, the
opening Rabi coupling of a two-component system, the calls of the iterations
`0 … iterations − 1` and `get_sample`. -/
theorem evolve_main_calls (env : Environment K) (L : Libm K) (s : Solver1D K)
    (iterations : Int) (calls : List (Event K)) :
    (evolve_main env L s iterations calls).2 =
      calls ++ (if s.single_component then [] else [Event.rabi_coupling (1 / 2) s.delta_t]) ++
        (List.range iterations.toNat).flatMap (fun i =>
          potential_events env L i (evolve_loop env L s iterations calls i).solver ++
            iteration_substeps s.single_component s.delta_t iterations i) ++
        [Event.get_sample] := by
  have hk : (iterations.toNat : Int) ≤ iterations ∨ iterations < 0 := by omega
  unfold evolve_main
  simp only [EvolveLoop.call]
  rw [evolve_loop_toNat]
  have hspec : ∀ k : Nat, (k : Int) ≤ iterations →
      (evolve_loop env L s iterations calls k).calls =
        calls ++ (if s.single_component then []
          else [Event.rabi_coupling (1 / 2) s.delta_t]) ++
        (List.range k).flatMap (fun i =>
          potential_events env L i (evolve_loop env L s iterations calls i).solver ++
            iteration_substeps s.single_component s.delta_t iterations i) := by
    intro k hk
    rw [(evolve_loop_spec env L s iterations calls k hk).2.2.2]
    congr 1
    apply List.flatMap_congr
    intro i hi
    rw [List.mem_range] at hi
    obtain ⟨hf, -⟩ := evolve_loop_spec env L s iterations calls i (by omega)
    rw [iteration_events_eq, hf.2.2.2.2.2.2.1, hf.2.2.2.1]
  rcases hk with hk | hk
  · rw [hspec _ hk]
  · have h0 : iterations.toNat = 0 := by omega
    rw [h0, Nat.cast_zero, evolve_loop_zero]
    simp


theorem evolve_of_initialise (env : Environment K) (L : Libm K) (s : Solver1D K)
    (iterations : Int) (b : Bool) (s0 : Solver1D K) (c0 : List (Event K))
    (h : evolve_initialise L s b = .ok (s0, c0)) :
    evolve env L s iterations b = .ok (evolve_main env L s0 iterations c0) := by
  unfold evolve
  rw [h]

/-- With the back end `"cpu"`, `evolve` returns, and its calls are: `init_kernel`
when the test of line 141 holds, the opening Rabi coupling of a two-component
system, for each iteration the calls that concern the potentials followed by
the kernel sub-steps, and `get_sample`. -/
theorem evolve_calls (env : Environment K) (L : Libm K) (s : Solver1D K) (iterations : Int)
    (b : Bool) (hcpu : s.kernel_type = "cpu") :
    ∃ (s' : Solver1D K) (P : Nat → List (Event K)),
      evolve env L s iterations b =
        .ok (s', (if evolve_needs_init s b = true then [Event.init_kernel] else []) ++
          (if s.single_component then [] else [Event.rabi_coupling (1 / 2) s.delta_t]) ++
          (List.range iterations.toNat).flatMap (fun i =>
            P i ++ iteration_substeps s.single_component s.delta_t iterations i) ++
          [Event.get_sample]) ∧
      (∀ i, ∀ e ∈ P i, Event.isSubstep e = false) ∧ P 0 = [] := by
  obtain ⟨s0, h0, -, -, -, -, -, hdt, -, hsc, -⟩ := evolve_initialise_cpu L s b hcpu
  refine ⟨(evolve_main env L s0 iterations
      (if evolve_needs_init s b = true then [Event.init_kernel] else [])).1,
    fun i => potential_events env L i (evolve_loop env L s0 iterations
      (if evolve_needs_init s b = true then [Event.init_kernel] else []) i).solver, ?_, ?_, ?_⟩
  · rw [evolve_of_initialise env L s iterations b s0 _ h0]
    have hc := evolve_main_calls env L s0 iterations
      (if evolve_needs_init s b = true then [Event.init_kernel] else [])
    rw [hsc, hdt] at hc
    rw [← hc]
  · intro i e he
    exact potential_events_not_substep env L _ _ e he
  · exact potential_events_nonpos env L _ _ (by simp)

/-! ## The values of `var` passed to `rabi_coupling` -/

theorem rabi_vars_append (l1 l2 : List (Event K)) :
    rabi_vars (l1 ++ l2) = rabi_vars l1 ++ rabi_vars l2 := by
  induction l1 with
  | nil => rfl
  | cons e l ih => cases e <;> simp [rabi_vars, ih]

theorem rabi_vars_not_substep (l : List (Event K))
    (h : ∀ e ∈ l, Event.isSubstep e = false) : rabi_vars l = [] := by
  induction l with
  | nil => rfl
  | cons e l ih =>
    have he := h e (List.mem_cons_self _ _)
    have hl := ih (fun e' he' => h e' (List.mem_cons_of_mem _ he'))
    cases e <;> simp [Event.isSubstep] at he <;> simp [rabi_vars, hl]

theorem rabi_vars_flatMap (n : Nat) (f : Nat → List (Event K)) :
    rabi_vars ((List.range n).flatMap f) = (List.range n).flatMap (fun i => rabi_vars (f i)) := by
  induction n with
  | zero => rfl
  | succ n ih =>
    rw [List.range_succ, List.flatMap_append, List.flatMap_append, rabi_vars_append, ih]
    simp

theorem rabi_vars_iteration_substeps (single_component : Bool) (delta_t : K)
    (iterations i : Int) :
    rabi_vars (iteration_substeps single_component delta_t iterations i) =
      if single_component then [] else [if i = iterations - 1 then 1 / 2 else 1] := by
  cases single_component <;> by_cases h : i = iterations - 1 <;>
    simp [iteration_substeps, substep_calls, rabi_vars, h]

theorem flatMap_singleton_map {α β : Type} (l : List α) (f : α → β) :
    l.flatMap (fun a => [f a]) = l.map f := by
  induction l with
  | nil => rfl
  | cons a l ih => simp [List.flatMap_cons, ih]

/-- The values of `var` that one call of `evolve` passes to `rabi_coupling`. -/
theorem evolve_rabi_vars (env : Environment K) (L : Libm K) (s : Solver1D K)
    (iterations : Int) (b : Bool) (hcpu : s.kernel_type = "cpu") :
    ∃ r : Solver1D K × List (Event K),
      evolve env L s iterations b = .ok r ∧
      rabi_vars r.2 =
        if s.single_component then []
        else 1 / 2 :: (List.range iterations.toNat).map
          (fun (i : Nat) => if (i : Int) = iterations - 1 then (1 / 2 : K) else 1) := by
  obtain ⟨s', P, he, hP, -⟩ := evolve_calls env L s iterations b hcpu
  refine ⟨_, he, ?_⟩
  simp only [rabi_vars_append, rabi_vars_flatMap, rabi_vars_iteration_substeps]
  have hP' : ∀ i, rabi_vars (P i) = [] := fun i => rabi_vars_not_substep _ (hP i)
  have h0 : rabi_vars (if evolve_needs_init s b = true then [Event.init_kernel] else []) =
      ([] : List K) := by
    split_ifs <;> rfl
  rw [h0]
  cases hs : s.single_component
  · simp only [hP', rabi_vars, Bool.false_eq_true, if_false, List.nil_append,
      List.singleton_append, List.append_nil]
    rw [flatMap_singleton_map]
  · simp [hP', rabi_vars]

/-- The sum of the values of `var` over `n ≥ 1` iterations is `n`. -/
theorem rabi_vars_sum [CharZero K] (n : Nat) :
    ((1 / 2 : K) :: (List.range (n + 1)).map
      (fun (i : Nat) => if (i : Int) = ((n + 1 : Nat) : Int) - 1 then (1 / 2 : K) else 1)).sum =
      ((n + 1 : Nat) : K) := by
  have hmap : (List.range n).map
      (fun (i : Nat) => if (i : Int) = ((n + 1 : Nat) : Int) - 1 then (1 / 2 : K) else 1) =
      (List.range n).map (fun (_ : Nat) => (1 : K)) := by
    apply List.map_congr_left
    intro i hi
    rw [List.mem_range] at hi
    have : ¬ (i : Int) = ((n + 1 : Nat) : Int) - 1 := by push_cast; omega
    rw [if_neg this]
  have hlast : ((n : Int) = ((n + 1 : Nat) : Int) - 1) := by push_cast; omega
  rw [List.range_succ, List.map_append, hmap]
  simp only [List.map_cons, List.map_nil, List.sum_cons, List.sum_append, List.sum_nil,
    if_pos hlast, List.map_const', List.length_range, List.sum_replicate, smul_eq_mul, mul_one,
    nsmul_eq_mul]
  push_cast
  ring

/-! ## Lemmas on the order of the calls -/

theorem exchangeCompleted_append (l1 l2 : List (Event K)) (h1 : ExchangeCompleted l1)
    (h2 : ExchangeCompleted l2) : ExchangeCompleted (l1 ++ l2) := by
  intro A B w h
  rcases List.append_eq_append_iff.1 h with ⟨a', hA, hl2⟩ | ⟨c', hl1, hc⟩
  · exact h2 a' B w hl2
  · cases c' with
    | nil =>
      simp only [List.nil_append] at hc
      exact h2 [] B w hc.symm
    | cons x c'' =>
      simp only [List.cons_append, List.cons.injEq] at hc
      obtain ⟨hx, hB⟩ := hc
      subst hx
      obtain ⟨B', hB'⟩ := h1 A c'' w hl1
      refine ⟨B' ++ l2, ?_⟩
      rw [hB, hB']
      rfl

theorem exchangeCompleted_of_no_start (l : List (Event K))
    (h : ∀ w, Event.start_halo_exchange w ∉ l) : ExchangeCompleted l := by
  intro A B w hl
  exfalso
  apply h w
  rw [hl]
  simp

theorem exchangeCompleted_flatMap (n : Nat) (f : Nat → List (Event K))
    (h : ∀ i, ExchangeCompleted (f i)) : ExchangeCompleted ((List.range n).flatMap f) := by
  induction n with
  | zero => exact exchangeCompleted_of_no_start _ (by simp)
  | succ n ih =>
    rw [List.range_succ, List.flatMap_append]
    apply exchangeCompleted_append _ _ ih
    simpa using h n

theorem exchangeCompleted_started (which : Nat) :
    ExchangeCompleted ([Event.start_halo_exchange which, Event.run_kernel which,
      Event.wait_for_completion which] : List (Event K)) := by
  intro A B w h
  cases A with
  | nil =>
    simp only [List.nil_append, List.cons.injEq, Event.start_halo_exchange.injEq] at h
    obtain ⟨hw, hB⟩ := h
    subst hw
    exact ⟨[], hB.symm⟩
  | cons a A' =>
    exfalso
    simp only [List.cons_append, List.cons.injEq] at h
    have hmem : Event.start_halo_exchange w ∈
        ([Event.run_kernel which, Event.wait_for_completion which] : List (Event K)) := by
      rw [h.2]
      simp
    simp at hmem

theorem exchangeCompleted_substep_calls (iterations i : Int) (which : Nat) :
    ExchangeCompleted (substep_calls iterations i which : List (Event K)) := by
  unfold substep_calls
  by_cases h : i = iterations - 1
  · apply exchangeCompleted_of_no_start
    intro w
    simp [h]
  · simp only [h, ne_eq, not_false_eq_true, if_true, List.append_assoc]
    apply exchangeCompleted_append
    · exact exchangeCompleted_of_no_start _ (by simp)
    · exact exchangeCompleted_started which

theorem exchangeCompleted_iteration_substeps (single_component : Bool) (delta_t : K)
    (iterations i : Int) :
    ExchangeCompleted (iteration_substeps single_component delta_t iterations i) := by
  unfold iteration_substeps
  apply exchangeCompleted_append _ _ (exchangeCompleted_substep_calls iterations i 0)
  cases single_component
  · simp only [Bool.false_eq_true, if_false]
    apply exchangeCompleted_append _ _ (exchangeCompleted_substep_calls iterations i 1)
    exact exchangeCompleted_of_no_start _ (by simp)
  · exact exchangeCompleted_of_no_start _ (by simp)

theorem not_start_of_not_substep (l : List (Event K))
    (h : ∀ e ∈ l, Event.isSubstep e = false) (w : Nat) : Event.start_halo_exchange w ∉ l := by
  intro hmem
  have := h _ hmem
  simp [Event.isSubstep] at this

/-- The calls of one `evolve`, in the shape of `evolve_calls`, complete every
halo exchange at once. -/
theorem exchangeCompleted_evolve (c0 r0 : List (Event K)) (n : Nat)
    (P : Nat → List (Event K)) (single_component : Bool) (delta_t : K) (iterations : Int)
    (hc0 : ∀ w, Event.start_halo_exchange w ∉ c0) (hr0 : ∀ w, Event.start_halo_exchange w ∉ r0)
    (hP : ∀ i, ∀ e ∈ P i, Event.isSubstep e = false) :
    ExchangeCompleted (c0 ++ r0 ++
      (List.range n).flatMap (fun i =>
        P i ++ iteration_substeps single_component delta_t iterations i) ++
      [Event.get_sample]) := by
  apply exchangeCompleted_append
  · apply exchangeCompleted_append
    · apply exchangeCompleted_append
      · exact exchangeCompleted_of_no_start _ hc0
      · exact exchangeCompleted_of_no_start _ hr0
    · apply exchangeCompleted_flatMap
      intro i
      apply exchangeCompleted_append
      · exact exchangeCompleted_of_no_start _ (not_start_of_not_substep _ (hP i))
      · exact exchangeCompleted_iteration_substeps _ _ _ _
  · exact exchangeCompleted_of_no_start _ (by simp)

/-! ## C12: the total of the Rabi steps -/

/-- For `N ≥ 1` iterations of a two-component system the values of `var`
passed to `rabi_coupling` sum to `N`. -/
theorem evolve_rabi_total [CharZero K] (env : Environment K) (L : Libm K) (s : Solver1D K)
    (iterations : Int) (b : Bool) (hcpu : s.kernel_type = "cpu")
    (hs : s.single_component = false) (hN : 1 ≤ iterations) :
    ∃ r : Solver1D K × List (Event K),
      evolve env L s iterations b = .ok r ∧ (rabi_vars r.2).sum = (iterations : K) := by
  obtain ⟨r, he, hv⟩ := evolve_rabi_vars env L s iterations b hcpu
  refine ⟨r, he, ?_⟩
  rw [hv, hs]
  obtain ⟨n, hn⟩ : ∃ n : Nat, iterations = ((n + 1 : Nat) : Int) :=
    ⟨(iterations - 1).toNat, by omega⟩
  have hcast : (iterations : K) = ((n + 1 : Nat) : K) := by
    rw [hn]
    exact Int.cast_natCast _
  rw [hcast, ← rabi_vars_sum n, hn]
  simp

/-- C12 at the failing input: `evolve(0, false)` on a two-component solver
with the back end `"cpu"` returns, and it has passed the single value
`var = 1/2` to `rabi_coupling`, so the values sum to `1/2` and not to `0`. -/
theorem rabi_total_zero_iterations :
    ∃ r : Solver1D ℚ × List (Event ℚ),
      evolve Examples.stillEnvironment Examples.unitLibm
        (Examples.flatSolver 1 1 1 0) 0 false = .ok r ∧
      rabi_vars r.2 = [1 / 2] ∧ (rabi_vars r.2).sum = 1 / 2 ∧
      (rabi_vars r.2).sum ≠ ((0 : Int) : ℚ) := by
  obtain ⟨r, he, hv⟩ := evolve_rabi_vars Examples.stillEnvironment Examples.unitLibm
    (Examples.flatSolver (1 : ℚ) 1 1 0) 0 false rfl
  have hv' : rabi_vars r.2 = [1 / 2] := by
    rw [hv]
    rfl
  refine ⟨r, he, hv', ?_, ?_⟩
  · rw [hv']
    simp
  · rw [hv']
    norm_num

/-! ## C13: the schedule of the Rabi coupling -/

/-- C13: with the back end `"cpu"`, one call `evolve(N, imag)` with `N ≥ 1` on a
two-component system issues `rabi_coupling(0.5, Δt)` before the first
iteration and, at the end of each iteration `i`, `rabi_coupling(var, Δt)`
followed at once by `normalization()`, with `var = 1` for `i ≤ N − 2` and
`var = 0.5` for `i = N − 1`; the other calls of an iteration (`P i`, the
sub-steps of the two wave functions) are neither; on a one-component system
neither `rabi_coupling` nor `normalization` is ever called. -/
theorem rabi_coupling_schedule (env : Environment K) (L : Libm K) (s : Solver1D K)
    (iterations : Int) (b : Bool) (hcpu : s.kernel_type = "cpu") (_hN : 1 ≤ iterations) :
    (s.single_component = false →
      ∃ (s' : Solver1D K) (P : Nat → List (Event K)),
        evolve env L s iterations b =
          .ok (s', (if evolve_needs_init s b = true then [Event.init_kernel] else []) ++
            [Event.rabi_coupling (1 / 2) s.delta_t] ++
            (List.range iterations.toNat).flatMap (fun i =>
              P i ++
                [Event.rabi_coupling (if (i : Int) = iterations - 1 then 1 / 2 else 1) s.delta_t,
                  Event.normalization]) ++
            [Event.get_sample]) ∧
        ∀ i, ∀ e ∈ P i, (∀ v d, e ≠ Event.rabi_coupling v d) ∧ e ≠ Event.normalization) ∧
    (s.single_component = true →
      ∃ r : Solver1D K × List (Event K),
        evolve env L s iterations b = .ok r ∧
        ∀ e ∈ r.2, (∀ v d, e ≠ Event.rabi_coupling v d) ∧ e ≠ Event.normalization) := by
  obtain ⟨s', P, he, hP, -⟩ := evolve_calls env L s iterations b hcpu
  have hpot : ∀ i, ∀ e ∈ P i, (∀ v d, e ≠ Event.rabi_coupling v d) ∧ e ≠ Event.normalization := by
    intro i e hmem
    have h := hP i e hmem
    constructor
    · intro v d heq
      rw [heq] at h
      simp [Event.isSubstep] at h
    · intro heq
      rw [heq] at h
      simp [Event.isSubstep] at h
  have hsub : ∀ (i : Int) (w : Nat), ∀ e ∈ (substep_calls iterations i w : List (Event K)),
      (∀ v d, e ≠ Event.rabi_coupling v d) ∧ e ≠ Event.normalization := by
    intro i w e hmem
    have hcases : e = Event.run_kernel_on_halo w ∨ e = Event.start_halo_exchange w ∨
        e = Event.run_kernel w ∨ e = Event.wait_for_completion w := by
      unfold substep_calls at hmem
      by_cases h : i = iterations - 1
      · simp [h] at hmem
        tauto
      · simp [h] at hmem
        tauto
    rcases hcases with h1 | h1 | h1 | h1 <;> subst h1 <;> simp
  constructor
  · intro hs
    refine ⟨s', fun i => P i ++ substep_calls iterations i 0 ++ substep_calls iterations i 1,
      ?_, ?_⟩
    · rw [he, hs]
      simp [iteration_substeps, List.append_assoc]
    · intro i e hmem
      simp only [List.mem_append] at hmem
      rcases hmem with (hmem | hmem) | hmem
      · exact hpot i e hmem
      · exact hsub i 0 e hmem
      · exact hsub i 1 e hmem
  · intro hs
    refine ⟨_, he, ?_⟩
    intro e hmem
    rw [hs] at hmem
    rcases List.mem_append.1 hmem with h1 | h1
    · rcases List.mem_append.1 h1 with h2 | h2
      · rcases List.mem_append.1 h2 with h3 | h3
        · by_cases hn : evolve_needs_init s b = true
          · rw [if_pos hn, List.mem_singleton] at h3
            subst h3
            simp
          · rw [if_neg hn] at h3
            simp at h3
        · simp at h3
      · obtain ⟨i, -, h4⟩ := List.mem_flatMap.1 h2
        rcases List.mem_append.1 h4 with h5 | h5
        · exact hpot i e h5
        · simp only [iteration_substeps, if_true, List.append_nil] at h5
          exact hsub i 0 e h5
    · rw [List.mem_singleton] at h1
      subst h1
      simp

/-- C13 on the two-component solver with `Δt = 1`, for `N = 2`. -/
theorem rabi_coupling_schedule_witness :
    ∃ (s' : Solver1D ℚ) (P : Nat → List (Event ℚ)),
      evolve Examples.stillEnvironment Examples.unitLibm (Examples.flatSolver 1 1 1 0) 2 false =
        .ok (s', (if evolve_needs_init (Examples.flatSolver (1 : ℚ) 1 1 0) false = true
            then [Event.init_kernel] else []) ++
          [Event.rabi_coupling (1 / 2) (Examples.flatSolver (1 : ℚ) 1 1 0).delta_t] ++
          (List.range (2 : Int).toNat).flatMap (fun i =>
            P i ++
              [Event.rabi_coupling (if (i : Int) = 2 - 1 then 1 / 2 else 1)
                  (Examples.flatSolver (1 : ℚ) 1 1 0).delta_t,
                Event.normalization]) ++
          [Event.get_sample]) ∧
      ∀ i, ∀ e ∈ P i, (∀ v d, e ≠ Event.rabi_coupling v d) ∧ e ≠ Event.normalization :=
  (rabi_coupling_schedule Examples.stillEnvironment Examples.unitLibm
    (Examples.flatSolver (1 : ℚ) 1 1 0) 2 false rfl (by decide)).1 rfl

/-! ## C17: the order of the calls of an iteration -/

/-- C17: with the back end `"cpu"`, the calls of `evolve(N, imag)` are
`init_kernel` when the solver is (re)initialised, the opening `rabi_coupling`
of a two-component system, then for each iteration `i` the calls `P i` that
concern the potentials followed, per component, by `run_kernel_on_halo`,
`start_halo_exchange` (unless `i = N − 1`), `run_kernel`,
`wait_for_completion`, in that order (and `rabi_coupling`, `normalization` on a
two-component system), and last `get_sample`; hence every
`start_halo_exchange` is followed at once by the `run_kernel` and the
`wait_for_completion` of its component. -/
theorem iteration_call_order (env : Environment K) (L : Libm K) (s : Solver1D K)
    (iterations : Int) (b : Bool) (hcpu : s.kernel_type = "cpu") :
    ∃ (r : Solver1D K × List (Event K)) (P : Nat → List (Event K)),
      evolve env L s iterations b = .ok r ∧
      r.2 = (if evolve_needs_init s b = true then [Event.init_kernel] else []) ++
        (if s.single_component then [] else [Event.rabi_coupling (1 / 2) s.delta_t]) ++
        (List.range iterations.toNat).flatMap (fun i =>
          P i ++ iteration_substeps s.single_component s.delta_t iterations i) ++
        [Event.get_sample] ∧
      (∀ i, ∀ e ∈ P i, Event.isSubstep e = false) ∧
      ExchangeCompleted r.2 := by
  obtain ⟨s', P, he, hP, -⟩ := evolve_calls env L s iterations b hcpu
  refine ⟨_, P, he, rfl, hP, ?_⟩
  apply exchangeCompleted_evolve _ _ _ P _ _ _ _ _ hP
  · intro w
    split_ifs <;> simp
  · intro w
    split_ifs <;> simp

/-- C17 on the two-component solver with `Δt = 1`, for `N = 3`. -/
theorem iteration_call_order_witness :
    ∃ r : Solver1D ℚ × List (Event ℚ),
      evolve Examples.stillEnvironment Examples.unitLibm (Examples.flatSolver 1 1 1 0) 3 false =
        .ok r ∧ ExchangeCompleted r.2 := by
  obtain ⟨r, P, he, -, -, hc⟩ := iteration_call_order Examples.stillEnvironment
    Examples.unitLibm (Examples.flatSolver (1 : ℚ) 1 1 0) 3 false rfl
  exact ⟨r, he, hc⟩

/-! ## The solver that `evolve` leaves -/

/-- With the back end `"cpu"`, `evolve` returns; the solver it leaves has the
constants and the kernel of the (re)initialisation, the time advanced by one
`delta_t` per iteration, and stale caches. -/
theorem evolve_solver (env : Environment K) (L : Libm K) (s : Solver1D K) (iterations : Int)
    (b : Bool) (hcpu : s.kernel_type = "cpu") :
    ∃ (r : Solver1D K × List (Event K)) (s0 : Solver1D K),
      evolve env L s iterations b = .ok r ∧
      evolve_initialise L s b =
        .ok (s0, if evolve_needs_init s b = true then [Event.init_kernel] else []) ∧
      (evolve_needs_init s b = false → s0 = s) ∧
      (evolve_needs_init s b = true →
        s0 = { evolve_recompute L s b with
          kernel := some ⟨!s.single_component, (evolve_recompute L s b).h_a,
            (evolve_recompute L s b).h_b, s.delta_t, b⟩,
          has_parameters_changed := false }) ∧
      r.1.current_evolution_time =
        s.current_evolution_time + (iterations.toNat : K) * s.delta_t ∧
      r.1.kernel = s0.kernel ∧ r.1.h_a = s0.h_a ∧ r.1.h_b = s0.h_b ∧
      r.1.imag_time = b ∧ r.1.has_parameters_changed = false ∧ r.1.kernel ≠ none ∧
      r.1.kernel_type = "cpu" ∧ r.1.single_component = s.single_component ∧
      r.1.delta_t = s.delta_t ∧
      r.1.energy_expected_values_updated = false ∧
      r.1.state.expected_values_updated = false ∧
      (s.single_component = false → r.1.state_b.expected_values_updated = false) := by
  obtain ⟨s0, h0, hn0, hn1, -, -, -, hdt, hkt, hsc, him, htm, -, hk, hpc⟩ :=
    evolve_initialise_cpu L s b hcpu
  have he := evolve_of_initialise env L s iterations b s0 _ h0
  refine ⟨_, s0, he, h0, hn0, hn1, ?_⟩
  have hk' : (iterations.toNat : Int) ≤ iterations ∨ iterations.toNat = 0 := by omega
  have hloop : LoopFrame s0 (evolve_loop env L s0 iterations
        (if evolve_needs_init s b = true then [Event.init_kernel] else [])
        iterations).solver ∧
      (evolve_loop env L s0 iterations
        (if evolve_needs_init s b = true then [Event.init_kernel] else [])
        iterations).solver.current_evolution_time =
        s0.current_evolution_time + (iterations.toNat : K) * s0.delta_t := by
    rw [evolve_loop_toNat]
    rcases hk' with hk' | hk'
    · obtain ⟨hf, ht, -, -⟩ := evolve_loop_spec env L s0 iterations
        (if evolve_needs_init s b = true then [Event.init_kernel] else []) _ hk'
      exact ⟨hf, ht⟩
    · rw [hk', Nat.cast_zero, evolve_loop_zero]
      exact ⟨LoopFrame.refl s0, by simp⟩
  obtain ⟨⟨-, -, -, fdt, fkt, fk, fsc, fim, fha, fhb, -, fpc⟩, htime⟩ := hloop
  obtain ⟨g1, g2, g3, g4, g5, g6, g7, g8, g9, g10, g11, g12⟩ := evolve_get_sample_spec env
    (evolve_loop env L s0 iterations
      (if evolve_needs_init s b = true then [Event.init_kernel] else []) iterations).solver
  simp only [evolve_main, EvolveLoop.call]
  refine ⟨?_, ?_, ?_, ?_, ?_, ?_, ?_, ?_, ?_, ?_, g1, g2, ?_⟩
  · rw [g4, htime, htm, hdt]
  · rw [g5, fk]
  · rw [g6, fha]
  · rw [g7, fhb]
  · rw [g8, fim, him]
  · rw [g9, fpc, hpc]
  · rw [g5, fk]
    exact hk
  · rw [g10, fkt, hkt, hcpu]
  · rw [g11, fsc, hsc]
  · rw [g12, fdt, hdt]
  · intro hs
    apply g3
    rw [fsc, hsc, hs]

/-! ## C18: the accumulated evolution time -/

/-- C18: with the back end `"cpu"`, `evolve(N, imag)` returns and leaves the
evolution time at its value before the call plus `N · Δt` when `N ≥ 0`, and
unchanged when `N ≤ 0`; both constructors set it to `0`. -/
theorem evolution_time_accumulates (env : Environment K) (L : Libm K) (s : Solver1D K)
    (iterations : Int) (b : Bool) (hcpu : s.kernel_type = "cpu") :
    (∃ r : Solver1D K × List (Event K),
      evolve env L s iterations b = .ok r ∧
      (0 ≤ iterations →
        r.1.current_evolution_time =
          s.current_evolution_time + (iterations : K) * s.delta_t) ∧
      (iterations ≤ 0 → r.1.current_evolution_time = s.current_evolution_time)) ∧
    (∀ (mem : Solver1D K) (grid : Lattice1D K) (state : State1D K)
        (hamiltonian : Hamiltonian1D K) (delta_t : K) (kernel_type : String),
      (Solver1D.construct mem grid state hamiltonian delta_t
        kernel_type).current_evolution_time = 0) ∧
    (∀ (mem : Solver1D K) (grid : Lattice1D K) (state1 state2 : State1D K)
        (hamiltonian : Hamiltonian2Component1D K) (delta_t : K) (kernel_type : String),
      (Solver1D.construct2 mem grid state1 state2 hamiltonian delta_t
        kernel_type).current_evolution_time = 0) := by
  obtain ⟨r, s0, he, -, -, -, ht, -⟩ := evolve_solver env L s iterations b hcpu
  refine ⟨⟨r, he, ?_, ?_⟩, fun _ _ _ _ _ _ => rfl, fun _ _ _ _ _ _ _ => rfl⟩
  · intro hN
    rw [ht]
    have hc : ((iterations.toNat : Nat) : K) = (iterations : K) := by
      rw [← Int.cast_natCast, Int.toNat_of_nonneg hN]
    rw [hc]
  · intro hN
    rw [ht]
    have h0 : iterations.toNat = 0 := by omega
    rw [h0]
    simp

/-- C18 on the one-component solver with `Δt = 1/2`, for `N = 4`: the time
goes from `0` to `2`. -/
theorem evolution_time_accumulates_witness :
    ∃ r : Solver1D ℚ × List (Event ℚ),
      evolve Examples.stillEnvironment Examples.unitLibm (Examples.singleSolver (1 / 2)) 4
        false = .ok r ∧
      r.1.current_evolution_time = 2 := by
  obtain ⟨⟨r, he, ht, -⟩, -⟩ := evolution_time_accumulates Examples.stillEnvironment
    Examples.unitLibm (Examples.singleSolver (1 / 2 : ℚ)) 4 false rfl
  refine ⟨r, he, ?_⟩
  rw [ht (by decide)]
  simp [Examples.singleSolver, Examples.solver]
  norm_num

/-! ## C14: when `evolve` (re)initialises -/

theorem init_kernel_not_mem_iteration_substeps (single_component : Bool) (delta_t : K)
    (iterations i : Int) :
    Event.init_kernel ∉ iteration_substeps single_component delta_t iterations i := by
  unfold iteration_substeps substep_calls
  cases single_component <;> by_cases h : i = iterations - 1 <;> simp [h]

/-- The call `init_kernel` is among the calls of `evolve` exactly when the test
of line 141 holds. -/
theorem init_kernel_mem_evolve (env : Environment K) (L : Libm K) (s : Solver1D K)
    (iterations : Int) (b : Bool) (hcpu : s.kernel_type = "cpu") :
    ∃ r : Solver1D K × List (Event K),
      evolve env L s iterations b = .ok r ∧
      (Event.init_kernel ∈ r.2 ↔ evolve_needs_init s b = true) := by
  obtain ⟨s', P, he, hP, -⟩ := evolve_calls env L s iterations b hcpu
  refine ⟨_, he, ?_⟩
  constructor
  · intro hmem
    by_contra hn
    rw [if_neg hn] at hmem
    rcases List.mem_append.1 hmem with h1 | h1
    · rcases List.mem_append.1 h1 with h2 | h2
      · rcases List.mem_append.1 h2 with h3 | h3
        · simp at h3
        · split_ifs at h3 <;> simp at h3
      · obtain ⟨i, -, h4⟩ := List.mem_flatMap.1 h2
        rcases List.mem_append.1 h4 with h5 | h5
        · have := hP i _ h5
          simp [Event.isSubstep] at this
        · exact init_kernel_not_mem_iteration_substeps _ _ _ _ h5
    · simp at h1
  · intro hn
    rw [if_pos hn]
    simp

theorem evolve_needs_init_iff (s : Solver1D K) (b : Bool) :
    evolve_needs_init s b = true ↔
      (b ≠ s.imag_time ∨ s.kernel = none ∨ s.has_parameters_changed = true) := by
  unfold evolve_needs_init
  cases hk : s.kernel <;> simp

/-- C14: with the back end `"cpu"`, `evolve` calls `init_kernel` if and only if
the requested flag differs from the stored one, or there is no kernel, or
`has_parameters_changed` is set (which `update_parameters` does); in that case
the constants `h_a`, `h_b` and the exponentiated potentials that enter the main
loop are the recomputed ones and the kernel is built from them, otherwise the
solver enters the main loop unchanged; `evolve` leaves
`has_parameters_changed` false, a following `evolve` with the same flag keeps
the kernel and the constants, and one after `update_parameters` calls
`init_kernel` again. -/
theorem reinitialisation_condition (env : Environment K) (L : Libm K) (s : Solver1D K)
    (iterations : Int) (b : Bool) (hcpu : s.kernel_type = "cpu") :
    ∃ (r : Solver1D K × List (Event K)) (s0 : Solver1D K),
      evolve env L s iterations b = .ok r ∧
      evolve_initialise L s b =
        .ok (s0, if evolve_needs_init s b = true then [Event.init_kernel] else []) ∧
      (evolve_needs_init s b = true ↔
        (b ≠ s.imag_time ∨ s.kernel = none ∨ s.has_parameters_changed = true)) ∧
      (Event.init_kernel ∈ r.2 ↔ evolve_needs_init s b = true) ∧
      (evolve_needs_init s b = true →
        s0 = { evolve_recompute L s b with
          kernel := some ⟨!s.single_component, (evolve_recompute L s b).h_a,
            (evolve_recompute L s b).h_b, s.delta_t, b⟩,
          has_parameters_changed := false }) ∧
      (evolve_needs_init s b = false → s0 = s) ∧
      r.1.h_a = s0.h_a ∧ r.1.h_b = s0.h_b ∧ r.1.kernel = s0.kernel ∧
      r.1.has_parameters_changed = false ∧
      (∀ (env' : Environment K) (iterations' : Int),
        ∃ r' : Solver1D K × List (Event K),
          evolve env' L r.1 iterations' b = .ok r' ∧ Event.init_kernel ∉ r'.2 ∧
          r'.1.kernel = r.1.kernel ∧ r'.1.h_a = r.1.h_a ∧ r'.1.h_b = r.1.h_b) ∧
      (∀ (env' : Environment K) (iterations' : Int),
        ∃ r' : Solver1D K × List (Event K),
          evolve env' L (update_parameters r.1) iterations' b = .ok r' ∧
          Event.init_kernel ∈ r'.2) := by
  obtain ⟨r, s0, he, h0, hn0, hn1, -, hk, hha, hhb, him, hpc, hkn, hkt, -⟩ :=
    evolve_solver env L s iterations b hcpu
  obtain ⟨r2, he2, hmem⟩ := init_kernel_mem_evolve env L s iterations b hcpu
  rw [he] at he2
  have hr : r = r2 := by
    injection he2
  subst hr
  refine ⟨r, s0, he, h0, evolve_needs_init_iff s b, hmem, hn1, hn0, hha, hhb, hk, hpc,
    ?_, ?_⟩
  · intro env' iterations'
    have hneeds : evolve_needs_init r.1 b = false := by
      rw [← Bool.not_eq_true, evolve_needs_init_iff]
      rintro (h | h | h)
      · exact h him.symm
      · exact hkn h
      · rw [hpc] at h
        simp at h
    obtain ⟨r', s0', he', -, hn0', -, -, hk', hha', hhb', -⟩ :=
      evolve_solver env' L r.1 iterations' b hkt
    obtain ⟨r3, he3, hmem'⟩ := init_kernel_mem_evolve env' L r.1 iterations' b hkt
    rw [he'] at he3
    have hr' : r' = r3 := by
      injection he3
    subst hr'
    have hs0 := hn0' hneeds
    refine ⟨r', he', ?_, ?_, ?_, ?_⟩
    · rw [hmem', hneeds]
      simp
    · rw [hk', hs0]
    · rw [hha', hs0]
    · rw [hhb', hs0]
  · intro env' iterations'
    obtain ⟨r3, he3, hmem'⟩ :=
      init_kernel_mem_evolve env' L (update_parameters r.1) iterations' b hkt
    refine ⟨r3, he3, ?_⟩
    rw [hmem', evolve_needs_init_iff]
    exact Or.inr (Or.inr rfl)

/-- C14 on the one-component solver on which `evolve` has not run: the first
call initialises the kernel. -/
theorem reinitialisation_condition_witness :
    ∃ r : Solver1D ℚ × List (Event ℚ),
      evolve Examples.stillEnvironment Examples.unitLibm (Examples.singleSolver 1) 2 false =
        .ok r ∧
      Event.init_kernel ∈ r.2 ∧ r.1.has_parameters_changed = false := by
  obtain ⟨r, s0, he, -, -, hmem, -, -, -, -, -, hpc, -⟩ :=
    reinitialisation_condition Examples.stillEnvironment Examples.unitLibm
      (Examples.singleSolver (1 : ℚ)) 2 false rfl
  exact ⟨r, he, hmem.2 rfl, hpc⟩

/-! ## C19: the caches of the observables -/

theorem refresh_spec (s : Solver1D K) :
    (s.energy_expected_values_updated = false →
      refresh s = calculate_energy_expected_values s) ∧
    (s.energy_expected_values_updated = true → refresh s = s) ∧
    (refresh s).energy_expected_values_updated = true ∧
    refresh (refresh s) = refresh s := by
  have hflag := (calculate_frame s).2.2.2.2.2
  cases h : s.energy_expected_values_updated
  · simp [refresh, h, hflag]
  · simp [refresh, h]

/-- A getter that returns a member of the refreshed solver recomputes exactly
when the cache is stale, and a second call returns the same pair. -/
theorem getter_cache (sel : Solver1D K → K) (g : Solver1D K → K × Solver1D K)
    (hg : ∀ u, g u = (sel (refresh u), refresh u)) (t : Solver1D K) :
    (t.energy_expected_values_updated = false →
      (g t).2 = calculate_energy_expected_values t) ∧
    (t.energy_expected_values_updated = true → (g t).2 = t) ∧
    (g t).2.energy_expected_values_updated = true ∧
    g (g t).2 = g t := by
  obtain ⟨h1, h2, h3, h4⟩ := refresh_spec t
  rw [hg t]
  refine ⟨h1, h2, h3, ?_⟩
  rw [hg (refresh t), h4]

/-- C19: with the back end `"cpu"`, `evolve` returns and leaves
`energy_expected_values_updated` false and the flag `expected_values_updated`
of the evolved states false, and the constructors leave
`energy_expected_values_updated` false; every getter recomputes the
expectation values when `energy_expected_values_updated` is false, leaves the
solver as it is when the flag is true, and leaves the flag true; so a second
call of the same getter returns the same value and changes nothing. -/
theorem observable_caches (env : Environment K) (L : Libm K) (s : Solver1D K)
    (iterations : Int) (b : Bool) (which : Nat) (hcpu : s.kernel_type = "cpu") :
    (∃ r : Solver1D K × List (Event K),
      evolve env L s iterations b = .ok r ∧
      r.1.energy_expected_values_updated = false ∧
      r.1.state.expected_values_updated = false ∧
      (s.single_component = false → r.1.state_b.expected_values_updated = false)) ∧
    (∀ (mem : Solver1D K) (grid : Lattice1D K) (state state2 : State1D K)
        (h1 : Hamiltonian1D K) (h2 : Hamiltonian2Component1D K) (delta_t : K)
        (kernel_type : String),
      (Solver1D.construct mem grid state h1 delta_t
        kernel_type).energy_expected_values_updated = false ∧
      (Solver1D.construct2 mem grid state state2 h2 delta_t
        kernel_type).energy_expected_values_updated = false) ∧
    (∀ (t : Solver1D K), ∀ g ∈ ([get_total_energy, fun u => get_squared_norm u which,
        fun u => get_kinetic_energy u which, fun u => get_potential_energy u which,
        fun u => get_intra_species_energy u which, get_inter_species_energy,
        get_rabi_energy] : List (Solver1D K → K × Solver1D K)),
      (t.energy_expected_values_updated = false →
        (g t).2 = calculate_energy_expected_values t) ∧
      (t.energy_expected_values_updated = true → (g t).2 = t) ∧
      (g t).2.energy_expected_values_updated = true ∧
      g (g t).2 = g t) := by
  obtain ⟨r, s0, he, -, -, -, -, -, -, -, -, -, -, -, -, -, hf, hst, hsb⟩ :=
    evolve_solver env L s iterations b hcpu
  refine ⟨⟨r, he, hf, hst, hsb⟩, fun _ _ _ _ _ _ _ _ => ⟨rfl, rfl⟩, ?_⟩
  intro t g hg
  simp only [List.mem_cons, List.mem_singleton, List.mem_nil_iff, or_false] at hg
  rcases hg with hg | hg | hg | hg | hg | hg | hg
  · subst hg
    exact getter_cache (fun v => v.total_energy) _ (fun u => rfl) t
  · subst hg
    refine getter_cache (fun v =>
      if which = 3 then (if v.single_component then v.norm2 0 else v.norm2 0 + v.norm2 1)
      else if which = 1 then v.norm2 0
      else if which = 2 then (if v.single_component then 0 else v.norm2 1)
      else 0) (fun u => get_squared_norm u which) (fun u => ?_) t
    unfold get_squared_norm
    simp only
    split_ifs <;> rfl
  · subst hg
    refine getter_cache (fun v =>
      if which = 3 then v.tot_kinetic_energy
      else if which = 1 then v.kinetic_energy 0
      else if which = 2 then (if v.single_component then 0 else v.kinetic_energy 1)
      else 0) (fun u => get_kinetic_energy u which) (fun u => ?_) t
    unfold get_kinetic_energy
    simp only
    split_ifs <;> rfl
  · subst hg
    refine getter_cache (fun v =>
      if which = 3 then v.tot_potential_energy
      else if which = 1 then v.potential_energy 0
      else if which = 2 then (if v.single_component then 0 else v.potential_energy 1)
      else 0) (fun u => get_potential_energy u which) (fun u => ?_) t
    unfold get_potential_energy
    simp only
    split_ifs <;> rfl
  · subst hg
    refine getter_cache (fun v =>
      if which = 3 then v.tot_intra_species_energy
      else if which = 1 then v.intra_species_energy 0
      else if which = 2 then (if v.single_component then 0 else v.intra_species_energy 1)
      else 0) (fun u => get_intra_species_energy u which) (fun u => ?_) t
    unfold get_intra_species_energy
    simp only
    split_ifs <;> rfl
  · subst hg
    refine getter_cache (fun v => if v.single_component then 0 else v.inter_species_energy)
      _ (fun u => ?_) t
    unfold get_inter_species_energy
    cases hsc : (refresh u).single_component <;> simp [hsc]
  · subst hg
    refine getter_cache (fun v => if v.single_component then 0 else v.rabi_energy)
      _ (fun u => ?_) t
    unfold get_rabi_energy
    cases hsc : (refresh u).single_component <;> simp [hsc]

/-- C19 on the one-component solver with `Δt = 1`: `evolve` leaves the cache
stale, and the second call of `get_total_energy` returns what the first one
returned. -/
theorem observable_caches_witness :
    ∃ r : Solver1D ℚ × List (Event ℚ),
      evolve Examples.stillEnvironment Examples.unitLibm (Examples.singleSolver 1) 2 false =
        .ok r ∧
      r.1.energy_expected_values_updated = false ∧
      get_total_energy (get_total_energy r.1).2 = get_total_energy r.1 := by
  obtain ⟨⟨r, he, hf, -⟩, -, hg⟩ := observable_caches Examples.stillEnvironment
    Examples.unitLibm (Examples.singleSolver (1 : ℚ)) 2 false 1 rfl
  exact ⟨r, he, hf, (hg r.1 get_total_energy (by simp)).2.2.2⟩

/-! ## C20: selectors out of range -/

theorem refresh_single_component (s : Solver1D K) :
    (refresh s).single_component = s.single_component := by
  unfold refresh
  split_ifs
  · exact (calculate_frame s).2.2.2.2.1
  · rfl

/-- C20: for a selector outside `{1, 2, 3}` the four getters with a selector
return `0`; on a one-component system they return `0` for the selector `2`,
and `get_inter_species_energy()` and `get_rabi_energy()` return `0`. Every
getter is a total function: none of these calls aborts. -/
theorem getter_selector_out_of_range (s : Solver1D K) (which : Nat) (h1 : which ≠ 1)
    (h2 : which ≠ 2) (h3 : which ≠ 3) :
    ((get_squared_norm s which).1 = 0 ∧ (get_kinetic_energy s which).1 = 0 ∧
      (get_potential_energy s which).1 = 0 ∧ (get_intra_species_energy s which).1 = 0) ∧
    (s.single_component = true →
      (get_squared_norm s 2).1 = 0 ∧ (get_kinetic_energy s 2).1 = 0 ∧
      (get_potential_energy s 2).1 = 0 ∧ (get_intra_species_energy s 2).1 = 0 ∧
      (get_inter_species_energy s).1 = 0 ∧ (get_rabi_energy s).1 = 0) := by
  constructor
  · simp [get_squared_norm, get_kinetic_energy, get_potential_energy,
      get_intra_species_energy, h1, h2, h3]
  · intro hs
    have hr := (refresh_single_component s).trans hs
    simp [get_squared_norm, get_kinetic_energy, get_potential_energy,
      get_intra_species_energy, get_inter_species_energy, get_rabi_energy, hr]

/-- C20 on the one-component solver with `Δt = 1`, for the selector `7`. -/
theorem getter_selector_out_of_range_witness :
    (get_squared_norm (Examples.singleSolver (1 : ℚ)) 7).1 = 0 ∧
      (get_kinetic_energy (Examples.singleSolver (1 : ℚ)) 2).1 = 0 ∧
      (get_rabi_energy (Examples.singleSolver (1 : ℚ))).1 = 0 :=
  have h := getter_selector_out_of_range (Examples.singleSolver (1 : ℚ)) 7 (by decide)
    (by decide) (by decide)
  ⟨h.1.1, (h.2 rfl).2.1, (h.2 rfl).2.2.2.2.2⟩


/-! ## The Rabi energy as the code computes it -/

theorem body_sum_rabi_energy (s : Solver1D K) (hs : s.single_component = false) (j : Int)
    (acc : EnergySums K) :
    (energy_loop_body s j acc).sum_rabi_energy =
      acc.sum_rabi_energy +
        Cplx.normSq (s.state.psi j) * Cplx.normSq (s.state_b.psi j) *
          (2 * ((⟨s.hamiltonian.omega_r, s.hamiltonian.omega_i⟩ : Cplx K) *
            Cplx.conj (s.state.psi j) * s.state_b.psi j).re) := by
  unfold energy_loop_body
  cases kinetic_guard s.grid j <;> simp [Cplx.normSq, Cplx.real, hs] <;> ring

theorem energy_sums_rabi (s : Solver1D K) (hs : s.single_component = false) :
    (energy_sums s).sum_rabi_energy =
      ∑ j ∈ inner_box s.grid,
        Cplx.normSq (s.state.psi j) * Cplx.normSq (s.state_b.psi j) *
          (2 * ((⟨s.hamiltonian.omega_r, s.hamiltonian.omega_i⟩ : Cplx K) *
            Cplx.conj (s.state.psi j) * s.state_b.psi j).re) := by
  unfold energy_sums inner_box
  rw [forLoop_sum EnergySums.sum_rabi_energy _ _ (body_sum_rabi_energy s hs), zero_add]

theorem calculate_rabi (s : Solver1D K) (hs : s.single_component = false) :
    (calculate_energy_expected_values s).rabi_energy =
      1 / 2 * (energy_sums s).sum_rabi_energy /
        ((energy_sums s).sum_norm2_0 * (energy_sums s).sum_norm2_1) := by
  unfold calculate_energy_expected_values
  simp [hs, setAt_apply]

/-- The value that `get_rabi_energy` returns on a two-component system. -/
theorem get_rabi_energy_value (s : Solver1D K) (h : CacheValid s)
    (hs : s.single_component = false) :
    (get_rabi_energy s).1 =
      1 / 2 * (∑ j ∈ inner_box s.grid,
          Cplx.normSq (s.state.psi j) * Cplx.normSq (s.state_b.psi j) *
            (2 * ((⟨s.hamiltonian.omega_r, s.hamiltonian.omega_i⟩ : Cplx K) *
              Cplx.conj (s.state.psi j) * s.state_b.psi j).re)) /
        ((∑ j ∈ inner_box s.grid, Cplx.normSq (s.state.psi j)) *
          (∑ j ∈ inner_box s.grid, Cplx.normSq (s.state_b.psi j))) := by
  obtain ⟨s0, hr, hsum, hg, hc⟩ := refresh_of_valid s h
  obtain ⟨-, -, -, -, hc0, -⟩ := calculate_frame s0
  have hs0 : s0.single_component = false := hc.trans hs
  have hcs : (calculate_energy_expected_values s0).single_component = false := hc0.trans hs0
  have e : (get_rabi_energy s).1 = (calculate_energy_expected_values s0).rabi_energy := by
    simp [get_rabi_energy, hr, hcs]
  rw [e, calculate_rabi s0 hs0, hsum, (energy_sums_first s).1, (energy_sums_second s hs).1,
    energy_sums_rabi s hs]

/-- What the code returns on a two-component system whose components both have
squared norm `1` (`dx ∑ |ψ_a|² = dx ∑ |ψ_b|² = 1`): `get_rabi_energy()` is
`0.5 · 2 · Re ∑ |ψ_a,j|² |ψ_b,j|² ω conj(ψ_a,j) ψ_b,j · dx²` over the inner
sub-box, because the loop weights `ω conj(ψ_a) ψ_b` by `|ψ_a|² |ψ_b|²` and the
sum is divided by `(∑ |ψ_a|²)(∑ |ψ_b|²)`. The factor `dx²` in place of `dx`
makes the value depend on the grid. -/
theorem rabi_energy_getter (s : Solver1D K) (h : CacheValid s)
    (hs : s.single_component = false)
    (ha : s.grid.delta_x * ∑ j ∈ inner_box s.grid, Cplx.normSq (s.state.psi j) = 1)
    (hb : s.grid.delta_x * ∑ j ∈ inner_box s.grid, Cplx.normSq (s.state_b.psi j) = 1) :
    (get_rabi_energy s).1 =
      1 / 2 * (2 * (∑ j ∈ inner_box s.grid,
          Cplx.ofReal (Cplx.normSq (s.state.psi j) * Cplx.normSq (s.state_b.psi j)) *
            ((⟨s.hamiltonian.omega_r, s.hamiltonian.omega_i⟩ : Cplx K) *
              Cplx.conj (s.state.psi j) * s.state_b.psi j)).re) *
        s.grid.delta_x ^ 2 := by
  rw [get_rabi_energy_value s h hs]
  have hNa : ∑ j ∈ inner_box s.grid, Cplx.normSq (s.state.psi j) = s.grid.delta_x⁻¹ :=
    eq_inv_of_mul_eq_one_right ha
  have hNb : ∑ j ∈ inner_box s.grid, Cplx.normSq (s.state_b.psi j) = s.grid.delta_x⁻¹ :=
    eq_inv_of_mul_eq_one_right hb
  have hterm : ∀ j : Int,
      Cplx.normSq (s.state.psi j) * Cplx.normSq (s.state_b.psi j) *
          (2 * ((⟨s.hamiltonian.omega_r, s.hamiltonian.omega_i⟩ : Cplx K) *
            Cplx.conj (s.state.psi j) * s.state_b.psi j).re) =
        2 * (Cplx.ofReal (Cplx.normSq (s.state.psi j) * Cplx.normSq (s.state_b.psi j)) *
          ((⟨s.hamiltonian.omega_r, s.hamiltonian.omega_i⟩ : Cplx K) *
            Cplx.conj (s.state.psi j) * s.state_b.psi j)).re := by
    intro j
    simp only [Cplx.mul_re, Cplx.ofReal_re, Cplx.ofReal_im]
    ring
  simp only [hterm]
  rw [hNa, hNb, ← Finset.mul_sum, Cplx.re_sum, div_eq_mul_inv, mul_inv, inv_inv, sq]

/-- The value returned on six cells holding `2` in both components, with
`dx = 1/24` and `ω = 1`: `384 / 576 = 2/3`. -/
theorem rabi_energy_getter_witness :
    (get_rabi_energy (Examples.rabiSolver (2 : ℚ) (1 / 24) 1)).1 = 2 / 3 := by
  have hn : (Examples.rabiSolver (2 : ℚ) (1 / 24) 1).grid.delta_x *
      ∑ j ∈ inner_box (Examples.rabiSolver (2 : ℚ) (1 / 24) 1).grid,
        Cplx.normSq ((Examples.rabiSolver (2 : ℚ) (1 / 24) 1).state.psi j) = 1 := by
    simp [Examples.rabiSolver, Examples.solver, Examples.grid6, Examples.constState,
      inner_box, State1D.psi, Cplx.normSq]
    norm_num
  rw [rabi_energy_getter (Examples.rabiSolver (2 : ℚ) (1 / 24) 1) (Or.inl rfl) rfl hn hn,
    Cplx.re_sum]
  simp [Examples.rabiSolver, Examples.solver, Examples.grid6, Examples.constState, inner_box,
    Examples.rabiHamiltonian, State1D.psi, Cplx.normSq]
  norm_num

/-- On six cells holding `2` in both components, with `dx = 1/24` and `ω = 1`,
both squared norms are `1` and the code does not return
`0.5 · 2 · Re ∑ ω conj(ψ_a) ψ_b dx`. -/
theorem rabi_energy_counterexample :
    (Examples.rabiSolver (2 : ℚ) (1 / 24) 1).grid.delta_x *
        ∑ j ∈ inner_box (Examples.rabiSolver (2 : ℚ) (1 / 24) 1).grid,
          Cplx.normSq ((Examples.rabiSolver (2 : ℚ) (1 / 24) 1).state.psi j) = 1 ∧
      (Examples.rabiSolver (2 : ℚ) (1 / 24) 1).grid.delta_x *
        ∑ j ∈ inner_box (Examples.rabiSolver (2 : ℚ) (1 / 24) 1).grid,
          Cplx.normSq ((Examples.rabiSolver (2 : ℚ) (1 / 24) 1).state_b.psi j) = 1 ∧
      (get_rabi_energy (Examples.rabiSolver (2 : ℚ) (1 / 24) 1)).1 ≠
        1 / 2 * (2 * (∑ j ∈ inner_box (Examples.rabiSolver (2 : ℚ) (1 / 24) 1).grid,
          ((⟨(Examples.rabiSolver (2 : ℚ) (1 / 24) 1).hamiltonian.omega_r,
              (Examples.rabiSolver (2 : ℚ) (1 / 24) 1).hamiltonian.omega_i⟩ : Cplx ℚ) *
            Cplx.conj ((Examples.rabiSolver (2 : ℚ) (1 / 24) 1).state.psi j) *
            (Examples.rabiSolver (2 : ℚ) (1 / 24) 1).state_b.psi j) *
          Cplx.ofReal (Examples.rabiSolver (2 : ℚ) (1 / 24) 1).grid.delta_x).re) := by
  have hn : (Examples.rabiSolver (2 : ℚ) (1 / 24) 1).grid.delta_x *
      ∑ j ∈ inner_box (Examples.rabiSolver (2 : ℚ) (1 / 24) 1).grid,
        Cplx.normSq ((Examples.rabiSolver (2 : ℚ) (1 / 24) 1).state.psi j) = 1 := by
    simp [Examples.rabiSolver, Examples.solver, Examples.grid6, Examples.constState,
      inner_box, State1D.psi, Cplx.normSq]
    norm_num
  refine ⟨hn, hn, ?_⟩
  rw [get_rabi_energy_value (Examples.rabiSolver (2 : ℚ) (1 / 24) 1) (Or.inl rfl) rfl,
    Cplx.re_sum]
  simp [Examples.rabiSolver, Examples.solver, Examples.grid6, Examples.constState, inner_box,
    Examples.rabiHamiltonian, State1D.psi, Cplx.normSq]
  norm_num


/-! ## C15: the potentials in the main loop -/

theorem evolve_update_potential_solver (env : Environment K) (L : Libm K) (i : Int)
    (s : Solver1D K) :
    (evolve_update_potential env L i ⟨s, 1, []⟩).solver =
      if 0 < i then
        if (env.update s.current_evolution_time s.hamiltonian.potential).1 = true then
          initialize_exp_potential L
            { s with hamiltonian := { s.hamiltonian with
                potential := (env.update s.current_evolution_time s.hamiltonian.potential).2 } }
            s.delta_t 0
        else
          { s with hamiltonian := { s.hamiltonian with
              potential := (env.update s.current_evolution_time s.hamiltonian.potential).2 } }
      else s := by
  unfold evolve_update_potential
  by_cases hi : 0 < i
  · cases hr : (env.update s.current_evolution_time s.hamiltonian.potential).1 <;>
      simp [hi, hr, EvolveLoop.call]
  · simp [hi]

theorem evolve_update_potential_b_solver (env : Environment K) (L : Libm K) (i : Int)
    (s : Solver1D K) :
    (evolve_update_potential_b env L i ⟨s, 1, []⟩).solver =
      if s.single_component = false ∧ 0 < i then
        if (env.update_b s.current_evolution_time s.hamiltonian.potential_b).1 = true then
          initialize_exp_potential L
            { s with hamiltonian := { s.hamiltonian with
                potential_b :=
                  (env.update_b s.current_evolution_time s.hamiltonian.potential_b).2 } }
            s.delta_t 1
        else
          { s with hamiltonian := { s.hamiltonian with
              potential_b :=
                (env.update_b s.current_evolution_time s.hamiltonian.potential_b).2 } }
      else s := by
  unfold evolve_update_potential_b
  by_cases hi : 0 < i
  · cases hs : s.single_component
    · cases hr : (env.update_b s.current_evolution_time s.hamiltonian.potential_b).1 <;>
        simp [hi, hr, hs, EvolveLoop.call]
    · simp [hi, hs]
  · simp [hi]

/-- The exponentiated potential of the first component after the lines
179-182 of the iteration `i`. -/
theorem evolve_update_potential_pots (env : Environment K) (L : Libm K) (i : Int)
    (s : Solver1D K) :
    (0 < i → (env.update s.current_evolution_time s.hamiltonian.potential).1 = true →
      ∀ x : Int, 0 ≤ x → x < s.grid.dim_x →
        (evolve_update_potential env L i ⟨s, 1, []⟩).solver.external_pot_real 0 x =
          (exp_potential_tmp L s.imag_time s.delta_t
            ((env.update s.current_evolution_time
              s.hamiltonian.potential).2.get_value x)).re ∧
        (evolve_update_potential env L i ⟨s, 1, []⟩).solver.external_pot_imag 0 x =
          (exp_potential_tmp L s.imag_time s.delta_t
            ((env.update s.current_evolution_time
              s.hamiltonian.potential).2.get_value x)).im) ∧
    ((i ≤ 0 ∨ (env.update s.current_evolution_time s.hamiltonian.potential).1 = false) →
      (evolve_update_potential env L i ⟨s, 1, []⟩).solver.external_pot_real =
        s.external_pot_real ∧
      (evolve_update_potential env L i ⟨s, 1, []⟩).solver.external_pot_imag =
        s.external_pot_imag) ∧
    (evolve_update_potential env L i ⟨s, 1, []⟩).solver.external_pot_real 1 =
      s.external_pot_real 1 ∧
    (evolve_update_potential env L i ⟨s, 1, []⟩).solver.external_pot_imag 1 =
      s.external_pot_imag 1 := by
  rw [evolve_update_potential_solver]
  refine ⟨?_, ?_, ?_, ?_⟩
  · intro hi hr x h0 h1
    rw [if_pos hi, if_pos hr, initialize_exp_potential_real_apply,
      initialize_exp_potential_imag_apply, if_pos ⟨rfl, h0, h1⟩, if_pos ⟨rfl, h0, h1⟩]
    simp [exp_potential_ptmp]
  · rintro (hi | hr)
    · rw [if_neg (not_lt.2 hi)]
      exact ⟨rfl, rfl⟩
    · by_cases hi : 0 < i
      · rw [if_pos hi, hr]
        exact ⟨rfl, rfl⟩
      · rw [if_neg hi]
        exact ⟨rfl, rfl⟩
  · split_ifs
    · funext x
      rw [initialize_exp_potential_real_apply]
      simp
    · rfl
    · rfl
  · split_ifs
    · funext x
      rw [initialize_exp_potential_imag_apply]
      simp
    · rfl
    · rfl

/-- The exponentiated potential of the second component after the lines
183-188 of the iteration `i`. -/
theorem evolve_update_potential_b_pots (env : Environment K) (L : Libm K) (i : Int)
    (s : Solver1D K) :
    (0 < i → s.single_component = false →
      (env.update_b s.current_evolution_time s.hamiltonian.potential_b).1 = true →
      ∀ x : Int, 0 ≤ x → x < s.grid.dim_x →
        (evolve_update_potential_b env L i ⟨s, 1, []⟩).solver.external_pot_real 1 x =
          (exp_potential_tmp L s.imag_time s.delta_t
            ((env.update_b s.current_evolution_time
              s.hamiltonian.potential_b).2.get_value x)).re ∧
        (evolve_update_potential_b env L i ⟨s, 1, []⟩).solver.external_pot_imag 1 x =
          (exp_potential_tmp L s.imag_time s.delta_t
            ((env.update_b s.current_evolution_time
              s.hamiltonian.potential_b).2.get_value x)).im) ∧
    ((i ≤ 0 ∨ s.single_component = true ∨
        (env.update_b s.current_evolution_time s.hamiltonian.potential_b).1 = false) →
      (evolve_update_potential_b env L i ⟨s, 1, []⟩).solver.external_pot_real =
        s.external_pot_real ∧
      (evolve_update_potential_b env L i ⟨s, 1, []⟩).solver.external_pot_imag =
        s.external_pot_imag) ∧
    (evolve_update_potential_b env L i ⟨s, 1, []⟩).solver.external_pot_real 0 =
      s.external_pot_real 0 ∧
    (evolve_update_potential_b env L i ⟨s, 1, []⟩).solver.external_pot_imag 0 =
      s.external_pot_imag 0 := by
  rw [evolve_update_potential_b_solver]
  refine ⟨?_, ?_, ?_, ?_⟩
  · intro hi hs hr x h0 h1
    rw [if_pos ⟨hs, hi⟩, if_pos hr, initialize_exp_potential_real_apply,
      initialize_exp_potential_imag_apply, if_pos ⟨rfl, h0, h1⟩, if_pos ⟨rfl, h0, h1⟩]
    simp [exp_potential_ptmp]
  · rintro (hi | hs | hr)
    · rw [if_neg (fun h => not_lt.2 hi h.2)]
      exact ⟨rfl, rfl⟩
    · rw [if_neg (fun h => by rw [hs] at h; simp at h)]
      exact ⟨rfl, rfl⟩
    · split_ifs with h1 h2
      · rw [hr] at h2
        simp at h2
      · exact ⟨rfl, rfl⟩
      · exact ⟨rfl, rfl⟩
  · split_ifs
    · funext x
      rw [initialize_exp_potential_real_apply]
      simp
    · rfl
    · rfl
  · split_ifs
    · funext x
      rw [initialize_exp_potential_imag_apply]
      simp
    · rfl
    · rfl


theorem potential_calls_congr (which : Nat) (t : K) (changed : Bool) (s u : Solver1D K)
    (hr : u.external_pot_real which = s.external_pot_real which)
    (hi : u.external_pot_imag which = s.external_pot_imag which) :
    potential_calls which t changed u = potential_calls which t changed s := by
  unfold potential_calls
  rw [hr, hi]

/-- One iteration, seen from the solver `s` it starts from: the calls that
concern the potentials, and the exponentiated potentials it leaves. -/
theorem iteration_solver_pots (env : Environment K) (L : Libm K) (iterations i : Int)
    (s : Solver1D K) :
    potential_events env L i s =
        (if 0 < i then
          potential_calls 0 s.current_evolution_time
            (env.update s.current_evolution_time s.hamiltonian.potential).1
            (iteration_solver env L iterations i s)
        else []) ++
        (if s.single_component = false ∧ 0 < i then
          potential_calls 1 s.current_evolution_time
            (env.update_b s.current_evolution_time s.hamiltonian.potential_b).1
            (iteration_solver env L iterations i s)
        else []) ∧
    (0 < i → (env.update s.current_evolution_time s.hamiltonian.potential).1 = true →
      ∀ x : Int, 0 ≤ x → x < s.grid.dim_x →
        (iteration_solver env L iterations i s).external_pot_real 0 x =
          (exp_potential_tmp L s.imag_time s.delta_t
            ((env.update s.current_evolution_time
              s.hamiltonian.potential).2.get_value x)).re ∧
        (iteration_solver env L iterations i s).external_pot_imag 0 x =
          (exp_potential_tmp L s.imag_time s.delta_t
            ((env.update s.current_evolution_time
              s.hamiltonian.potential).2.get_value x)).im) ∧
    ((i ≤ 0 ∨ (env.update s.current_evolution_time s.hamiltonian.potential).1 = false) →
      (iteration_solver env L iterations i s).external_pot_real 0 = s.external_pot_real 0 ∧
      (iteration_solver env L iterations i s).external_pot_imag 0 = s.external_pot_imag 0) ∧
    (0 < i → s.single_component = false →
      (env.update_b s.current_evolution_time s.hamiltonian.potential_b).1 = true →
      ∀ x : Int, 0 ≤ x → x < s.grid.dim_x →
        (iteration_solver env L iterations i s).external_pot_real 1 x =
          (exp_potential_tmp L s.imag_time s.delta_t
            ((env.update_b s.current_evolution_time
              s.hamiltonian.potential_b).2.get_value x)).re ∧
        (iteration_solver env L iterations i s).external_pot_imag 1 x =
          (exp_potential_tmp L s.imag_time s.delta_t
            ((env.update_b s.current_evolution_time
              s.hamiltonian.potential_b).2.get_value x)).im) ∧
    ((i ≤ 0 ∨ s.single_component = true ∨
        (env.update_b s.current_evolution_time s.hamiltonian.potential_b).1 = false) →
      (iteration_solver env L iterations i s).external_pot_real 1 = s.external_pot_real 1 ∧
      (iteration_solver env L iterations i s).external_pot_imag 1 = s.external_pot_imag 1) := by
  obtain ⟨-, fa, ta, pa, -⟩ := evolve_update_potential_spec env L i ⟨s, 1, []⟩
  obtain ⟨a1, a2, a3, a4⟩ := evolve_update_potential_pots env L i s
  obtain ⟨b1, b2, b3, b4⟩ := evolve_update_potential_b_pots env L i
    (evolve_update_potential env L i ⟨s, 1, []⟩).solver
  have hsb : (evolve_update_potential_b env L i
      (evolve_update_potential env L i ⟨s, 1, []⟩)).solver =
      (evolve_update_potential_b env L i
        ⟨(evolve_update_potential env L i ⟨s, 1, []⟩).solver, 1, []⟩).solver := by
    rw [evolve_update_potential_b_thread]
  have hr : (iteration_solver env L iterations i s).external_pot_real =
      (evolve_update_potential_b env L i
        ⟨(evolve_update_potential env L i ⟨s, 1, []⟩).solver, 1, []⟩).solver.external_pot_real := by
    unfold iteration_solver
    rw [evolve_iteration_eq, hsb]
  have hi : (iteration_solver env L iterations i s).external_pot_imag =
      (evolve_update_potential_b env L i
        ⟨(evolve_update_potential env L i ⟨s, 1, []⟩).solver, 1, []⟩).solver.external_pot_imag := by
    unfold iteration_solver
    rw [evolve_iteration_eq, hsb]
  have hsc := fa.2.2.2.2.2.2.1
  have hdt := fa.2.2.2.1
  have hgrid := fa.1
  have him := fa.2.2.2.2.2.2.2.1
  simp only [] at ta pa hsc hdt hgrid him
  rw [ta, pa, hsc, hgrid, him, hdt] at b1
  rw [ta, pa, hsc] at b2
  refine ⟨?_, ?_, ?_, ?_, ?_⟩
  · rw [potential_events_eq]
    congr 1
    · split_ifs
      · apply potential_calls_congr
        · rw [hr, b3]
        · rw [hi, b4]
      · rfl
    · split_ifs
      · apply potential_calls_congr
        · rw [hr, hsb]
        · rw [hi, hsb]
      · rfl
  · intro h0 hra x hx0 hx1
    rw [hr, hi, b3, b4]
    exact a1 h0 hra x hx0 hx1
  · intro h
    rw [hr, hi, b3, b4, (a2 h).1, (a2 h).2]
    exact ⟨rfl, rfl⟩
  · intro h0 hs hrb x hx0 hx1
    rw [hr, hi]
    exact b1 h0 hs hrb x hx0 hx1
  · intro h
    rw [hr, hi, (b2 h).1, (b2 h).2, a3, a4]
    exact ⟨rfl, rfl⟩


/-- C15: with the back end `"cpu"`, within one call `evolve(N, imag)` the calls
are those of the (re)initialisation and of the opening Rabi coupling, then for
each iteration `i` the calls `potential_events` that concern the potentials,
before the kernel sub-steps of that iteration, and `get_sample`. With `S i` the
solver when the iteration `i` begins: its time is `t_start + i Δt`; the
iteration `0` asks no potential and leaves the exponentiated potentials as they
are; an iteration `0 < i < N` calls `update(t_start + i Δt)` of the potential
of each component once; where that returns true the arrays of the component
are recomputed from the potential after the call, as `exp` of its values over
the time step, and handed to `update_potential`; where it returns false there
is no `update_potential` and the arrays are unchanged. -/
theorem potential_update_schedule (env : Environment K) (L : Libm K) (s : Solver1D K)
    (iterations : Int) (b : Bool) (hcpu : s.kernel_type = "cpu") :
    ∃ (r : Solver1D K × List (Event K)) (S : Nat → Solver1D K),
      evolve env L s iterations b = .ok r ∧
      r.2 = (if evolve_needs_init s b = true then [Event.init_kernel] else []) ++
        (if s.single_component then [] else [Event.rabi_coupling (1 / 2) s.delta_t]) ++
        (List.range iterations.toNat).flatMap (fun i =>
          potential_events env L i (S i) ++
            iteration_substeps s.single_component s.delta_t iterations i) ++
        [Event.get_sample] ∧
      ∀ i : Nat, (i : Int) < iterations →
        (S i).current_evolution_time = s.current_evolution_time + (i : K) * s.delta_t ∧
        (i = 0 →
          potential_events env L i (S i) = [] ∧
          ∀ w : Nat, w < 2 →
            (S (i + 1)).external_pot_real w = (S i).external_pot_real w ∧
            (S (i + 1)).external_pot_imag w = (S i).external_pot_imag w) ∧
        (0 < i →
          potential_events env L i (S i) =
            potential_calls 0 (S i).current_evolution_time
              (env.update (S i).current_evolution_time (S i).hamiltonian.potential).1
              (S (i + 1)) ++
            (if s.single_component then []
             else potential_calls 1 (S i).current_evolution_time
              (env.update_b (S i).current_evolution_time (S i).hamiltonian.potential_b).1
              (S (i + 1))) ∧
          ((env.update (S i).current_evolution_time (S i).hamiltonian.potential).1 = true →
            ∀ x : Int, 0 ≤ x → x < s.grid.dim_x →
              (S (i + 1)).external_pot_real 0 x =
                (exp_potential_tmp L b s.delta_t
                  ((env.update (S i).current_evolution_time
                    (S i).hamiltonian.potential).2.get_value x)).re ∧
              (S (i + 1)).external_pot_imag 0 x =
                (exp_potential_tmp L b s.delta_t
                  ((env.update (S i).current_evolution_time
                    (S i).hamiltonian.potential).2.get_value x)).im) ∧
          ((env.update (S i).current_evolution_time (S i).hamiltonian.potential).1 = false →
            (S (i + 1)).external_pot_real 0 = (S i).external_pot_real 0 ∧
            (S (i + 1)).external_pot_imag 0 = (S i).external_pot_imag 0) ∧
          (s.single_component = false →
            ((env.update_b (S i).current_evolution_time
                (S i).hamiltonian.potential_b).1 = true →
              ∀ x : Int, 0 ≤ x → x < s.grid.dim_x →
                (S (i + 1)).external_pot_real 1 x =
                  (exp_potential_tmp L b s.delta_t
                    ((env.update_b (S i).current_evolution_time
                      (S i).hamiltonian.potential_b).2.get_value x)).re ∧
                (S (i + 1)).external_pot_imag 1 x =
                  (exp_potential_tmp L b s.delta_t
                    ((env.update_b (S i).current_evolution_time
                      (S i).hamiltonian.potential_b).2.get_value x)).im) ∧
            ((env.update_b (S i).current_evolution_time
                (S i).hamiltonian.potential_b).1 = false →
              (S (i + 1)).external_pot_real 1 = (S i).external_pot_real 1 ∧
              (S (i + 1)).external_pot_imag 1 = (S i).external_pot_imag 1))) := by
  obtain ⟨s0, h0, -, -, hg, -, -, hdt, -, hsc, him, htm, -⟩ := evolve_initialise_cpu L s b hcpu
  have he := evolve_of_initialise env L s iterations b s0 _ h0
  have hc := evolve_main_calls env L s0 iterations
    (if evolve_needs_init s b = true then [Event.init_kernel] else [])
  rw [hsc, hdt] at hc
  refine ⟨_, fun i => (evolve_loop env L s0 iterations
    (if evolve_needs_init s b = true then [Event.init_kernel] else []) i).solver, he, hc, ?_⟩
  intro i hi
  obtain ⟨hf, ht, hv, -⟩ := evolve_loop_spec env L s0 iterations
    (if evolve_needs_init s b = true then [Event.init_kernel] else []) i (by omega)
  have hvar := hv hi
  have hnext : (evolve_loop env L s0 iterations
      (if evolve_needs_init s b = true then [Event.init_kernel] else [])
      ((i + 1 : Nat) : Int)).solver =
      iteration_solver env L iterations i (evolve_loop env L s0 iterations
        (if evolve_needs_init s b = true then [Event.init_kernel] else []) i).solver := by
    rw [evolve_loop_succ]
    exact (evolve_iteration_thread env L iterations i _ hvar).1
  obtain ⟨p0, p1, p2, p3, p4⟩ := iteration_solver_pots env L iterations i
    (evolve_loop env L s0 iterations
      (if evolve_needs_init s b = true then [Event.init_kernel] else []) i).solver
  have fsc := hf.2.2.2.2.2.2.1
  have fdt := hf.2.2.2.1
  have fgrid := hf.1
  have fim := hf.2.2.2.2.2.2.2.1
  simp only [] at fsc fdt fgrid fim
  rw [fsc, hsc] at p0 p3 p4
  rw [fgrid, hg, fim, him, fdt, hdt] at p1 p3
  simp only [hnext]
  refine ⟨?_, ?_, ?_⟩
  · rw [ht, htm, hdt]
  · intro hi0
    subst hi0
    refine ⟨potential_events_nonpos env L _ _ (by simp), ?_⟩
    intro w hw
    have hpa := p2 (Or.inl (by simp))
    have hpb := p4 (Or.inl (by simp))
    have hw2 : w = 0 ∨ w = 1 := by omega
    rcases hw2 with h | h
    · rw [h]
      exact hpa
    · rw [h]
      exact hpb
  · intro hi0
    have hipos : (0 : Int) < (i : Int) := by omega
    refine ⟨?_, ?_, ?_, ?_⟩
    · rw [p0, if_pos hipos]
      cases hs : s.single_component
      · simp [hipos]
      · simp
    · exact p1 hipos
    · intro hr
      exact p2 (Or.inr hr)
    · intro hs
      exact ⟨p3 hipos hs, fun hr => p4 (Or.inr (Or.inr hr))⟩


/-- C15 on the two-component solver with `Δt = 1` and potentials that change at
every call, for `N = 2`: the iteration `0` asks no potential, the iteration `1`
begins at `t_start + Δt`. -/
theorem potential_update_schedule_witness :
    ∃ (r : Solver1D ℚ × List (Event ℚ)) (S : Nat → Solver1D ℚ),
      evolve (Examples.movingEnvironment 3) Examples.unitLibm
        (Examples.flatSolver 1 1 1 0) 2 false = .ok r ∧
      potential_events (Examples.movingEnvironment 3) Examples.unitLibm ((0 : Nat) : Int)
        (S 0) = [] ∧
      (S 1).current_evolution_time =
        (Examples.flatSolver (1 : ℚ) 1 1 0).current_evolution_time +
          ((1 : Nat) : ℚ) * (Examples.flatSolver (1 : ℚ) 1 1 0).delta_t := by
  obtain ⟨r, S, he, -, hS⟩ := potential_update_schedule (Examples.movingEnvironment 3)
    Examples.unitLibm (Examples.flatSolver (1 : ℚ) 1 1 0) 2 false rfl
  exact ⟨r, S, he, ((hS 0 (by decide)).2.1 rfl).1, (hS 1 (by decide)).1⟩

/-! ## C16: the halo exchange between two `run_kernel_on_halo` -/

theorem halo_run_append (w : Nat) (ph : HaloPhase) (X Y : List (Event K)) :
    halo_run w ph (X ++ Y) = (halo_run w ph X).bind (fun p => halo_run w p Y) := by
  induction X generalizing ph with
  | nil => rfl
  | cons e X ih =>
    simp only [List.cons_append, halo_run]
    cases h : halo_step w ph e with
    | none => rfl
    | some p => exact ih p

/-- A call that is none of the three halo calls of the component `w` leaves the
observer where it is. -/
theorem halo_step_other (w : Nat) (ph : HaloPhase) (e : Event K)
    (h1 : e ≠ Event.run_kernel_on_halo w) (h2 : e ≠ Event.start_halo_exchange w)
    (h3 : e ≠ Event.wait_for_completion w) : halo_step w ph e = some ph := by
  cases e with
  | run_kernel_on_halo v =>
    have : ¬ v = w := fun h => h1 (by rw [h])
    simp [halo_step, this]
  | start_halo_exchange v =>
    have : ¬ v = w := fun h => h2 (by rw [h])
    simp [halo_step, this]
  | wait_for_completion v =>
    have : ¬ v = w := fun h => h3 (by rw [h])
    simp [halo_step, this]
  | _ => rfl

theorem halo_step_started (w : Nat) (e : Event K)
    (h1 : e ≠ Event.run_kernel_on_halo w) (h3 : e ≠ Event.wait_for_completion w) :
    halo_step w HaloPhase.started e = some HaloPhase.started := by
  by_cases h2 : e = Event.start_halo_exchange w
  · rw [h2]
    simp [halo_step]
  · exact halo_step_other w _ e h1 h2 h3

theorem halo_step_halo (w : Nat) (e : Event K)
    (h1 : e ≠ Event.run_kernel_on_halo w) (h2 : e ≠ Event.start_halo_exchange w) :
    halo_step w HaloPhase.halo e = some HaloPhase.halo := by
  by_cases h3 : e = Event.wait_for_completion w
  · rw [h3]
    simp [halo_step]
  · exact halo_step_other w _ e h1 h2 h3

/-- Once the exchange has been started, the observer lets the next
`run_kernel_on_halo` pass only after a `wait_for_completion`. -/
theorem halo_run_started (w : Nat) (B C : List (Event K))
    (hB : Event.run_kernel_on_halo w ∉ B)
    (h : halo_run w HaloPhase.started (B ++ Event.run_kernel_on_halo w :: C) ≠ none) :
    ∃ B2 B3 : List (Event K), B = B2 ++ Event.wait_for_completion w :: B3 := by
  induction B with
  | nil =>
    exfalso
    apply h
    simp [halo_run, halo_step]
  | cons e B ih =>
    by_cases h3 : e = Event.wait_for_completion w
    · exact ⟨[], B, by rw [h3]; rfl⟩
    · have h1 : e ≠ Event.run_kernel_on_halo w := fun he => hB (by rw [he]; simp)
      have hB' : Event.run_kernel_on_halo w ∉ B := fun hm => hB (List.mem_cons_of_mem _ hm)
      rw [List.cons_append, halo_run, halo_step_started w e h1 h3] at h
      obtain ⟨B2, B3, hEq⟩ := ih hB' h
      exact ⟨e :: B2, B3, by rw [hEq]; rfl⟩

/-- After a `run_kernel_on_halo` the observer lets the next one pass only
after a `start_halo_exchange` followed by a `wait_for_completion`. -/
theorem halo_run_halo (w : Nat) (B C : List (Event K))
    (hB : Event.run_kernel_on_halo w ∉ B)
    (h : halo_run w HaloPhase.halo (B ++ Event.run_kernel_on_halo w :: C) ≠ none) :
    ∃ B1 B2 B3 : List (Event K),
      B = B1 ++ Event.start_halo_exchange w :: B2 ++ Event.wait_for_completion w :: B3 := by
  induction B with
  | nil =>
    exfalso
    apply h
    simp [halo_run, halo_step]
  | cons e B ih =>
    have h1 : e ≠ Event.run_kernel_on_halo w := fun he => hB (by rw [he]; simp)
    have hB' : Event.run_kernel_on_halo w ∉ B := fun hm => hB (List.mem_cons_of_mem _ hm)
    by_cases h2 : e = Event.start_halo_exchange w
    · rw [List.cons_append, halo_run, h2] at h
      have hs : halo_step w HaloPhase.halo (Event.start_halo_exchange w : Event K) =
          some HaloPhase.started := by simp [halo_step]
      rw [hs] at h
      obtain ⟨B2, B3, hEq⟩ := halo_run_started w B C hB' h
      exact ⟨[], B2, B3, by rw [h2, hEq]; rfl⟩
    · rw [List.cons_append, halo_run, halo_step_halo w e h1 h2] at h
      obtain ⟨B1, B2, B3, hEq⟩ := ih hB' h
      exact ⟨e :: B1, B2, B3, by rw [hEq]; rfl⟩

/-- The observer is sound: a sequence of calls it accepts has a
`start_halo_exchange` followed by a `wait_for_completion` between any two
consecutive `run_kernel_on_halo` of the component. -/
theorem haloExchanged_of_halo_run (w : Nat) (ph : HaloPhase) (calls : List (Event K))
    (h : halo_run w ph calls ≠ none) : HaloExchanged w calls := by
  intro A B C hEq hB
  rw [hEq, List.append_assoc, halo_run_append] at h
  cases hA : halo_run w ph A with
  | none =>
    rw [hA] at h
    exact absurd rfl h
  | some p =>
    rw [hA] at h
    simp only [Option.bind, List.cons_append, halo_run] at h
    cases hp : halo_step w p (Event.run_kernel_on_halo w : Event K) with
    | none =>
      rw [hp] at h
      exact absurd rfl h
    | some q =>
      rw [hp] at h
      have hq : q = HaloPhase.halo := by
        cases p <;> simp [halo_step] at hp <;> exact hp.symm
      rw [hq] at h
      exact halo_run_halo w B C hB h

/-- Calls that are none of the three halo calls of the component `w` leave the
observer where it is. -/
theorem halo_run_neutral (w : Nat) (ph : HaloPhase) (X : List (Event K))
    (h : ∀ e ∈ X, e ≠ Event.run_kernel_on_halo w ∧ e ≠ Event.start_halo_exchange w ∧
      e ≠ Event.wait_for_completion w) : halo_run w ph X = some ph := by
  induction X with
  | nil => rfl
  | cons e X ih =>
    obtain ⟨h1, h2, h3⟩ := h e (by simp)
    rw [halo_run, halo_step_other w ph e h1 h2 h3]
    exact ih (fun e he => h e (List.mem_cons_of_mem _ he))

theorem halo_run_not_substep (w : Nat) (ph : HaloPhase) (X : List (Event K))
    (h : ∀ e ∈ X, Event.isSubstep e = false) : halo_run w ph X = some ph := by
  apply halo_run_neutral
  intro e he
  have := h e he
  refine ⟨?_, ?_, ?_⟩ <;> intro hc <;> rw [hc] at this <;> simp [Event.isSubstep] at this

/-- The sub-step of the component `w`, read by its observer from a state where
no exchange is pending: the exchange is completed unless the iteration is the
last one. -/
theorem halo_run_substep_calls_same (iterations i : Int) (w : Nat) (p : HaloPhase)
    (hp : p = HaloPhase.fresh ∨ p = HaloPhase.completed) :
    halo_run w p (substep_calls iterations i w : List (Event K)) =
      some (if i ≠ iterations - 1 then HaloPhase.completed else HaloPhase.halo) := by
  by_cases hi : i = iterations - 1
  · rcases hp with h | h <;> simp [substep_calls, hi, halo_run, halo_step, h]
  · rcases hp with h | h <;> simp [substep_calls, hi, halo_run, halo_step, h]

/-- The sub-step of another component leaves the observer of `w` where it
is. -/
theorem halo_run_substep_calls_other (iterations i : Int) (w which : Nat) (p : HaloPhase)
    (hw : which ≠ w) :
    halo_run w p (substep_calls iterations i which : List (Event K)) = some p := by
  apply halo_run_neutral
  intro e he
  have hcases : e = Event.run_kernel_on_halo which ∨ e = Event.start_halo_exchange which ∨
      e = Event.run_kernel which ∨ e = Event.wait_for_completion which := by
    unfold substep_calls at he
    split_ifs at he <;> simp at he <;> tauto
  rcases hcases with h | h | h | h <;> rw [h] <;> simp [hw]

/-- One iteration, read by the observer of `w` from a state where no exchange
is pending: the observer accepts it, and no exchange is pending afterwards
unless the iteration is the last one. -/
theorem halo_run_iteration_substeps (single_component : Bool) (delta_t : K)
    (iterations i : Int) (w : Nat) (p : HaloPhase)
    (hp : p = HaloPhase.fresh ∨ p = HaloPhase.completed) :
    ∃ q : HaloPhase,
      halo_run w p (iteration_substeps single_component delta_t iterations i) = some q ∧
      (i ≠ iterations - 1 → q = HaloPhase.fresh ∨ q = HaloPhase.completed) := by
  have htail : ∀ q : HaloPhase, halo_run w q
      ([Event.rabi_coupling (if i = iterations - 1 then 1 / 2 else 1) delta_t,
        Event.normalization] : List (Event K)) = some q := by
    intro q
    apply halo_run_neutral
    intro e he
    simp at he
    rcases he with h | h <;> rw [h] <;> simp
  unfold iteration_substeps
  rw [halo_run_append]
  by_cases h0 : w = 0
  · subst h0
    rw [halo_run_substep_calls_same iterations i 0 p hp]
    refine ⟨if i ≠ iterations - 1 then HaloPhase.completed else HaloPhase.halo, ?_, ?_⟩
    · cases single_component
      · simp only [Option.bind, Bool.false_eq_true, if_false]
        rw [halo_run_append, halo_run_substep_calls_other iterations i 0 1 _ (by decide)]
        exact htail _
      · rfl
    · intro hi
      right
      rw [if_pos hi]
  · rw [halo_run_substep_calls_other iterations i w 0 p (fun h => h0 h.symm)]
    simp only [Option.bind]
    cases single_component
    · simp only [Bool.false_eq_true, if_false]
      rw [halo_run_append]
      by_cases h1 : w = 1
      · subst h1
        rw [halo_run_substep_calls_same iterations i 1 p hp]
        refine ⟨if i ≠ iterations - 1 then HaloPhase.completed else HaloPhase.halo,
          htail _, ?_⟩
        intro hi
        right
        rw [if_pos hi]
      · rw [halo_run_substep_calls_other iterations i w 1 p (fun h => h1 h.symm)]
        exact ⟨p, htail p, fun _ => hp⟩
    · exact ⟨p, rfl, fun _ => hp⟩

/-- The iterations `0 … k − 1` of a call with `iterations.toNat` iterations, read
by the observer of `w`: accepted, with no exchange pending while iterations
remain. -/
theorem halo_run_iterations (single_component : Bool) (delta_t : K) (iterations : Int)
    (P : Nat → List (Event K)) (hP : ∀ i, ∀ e ∈ P i, Event.isSubstep e = false)
    (w : Nat) (p : HaloPhase) (hp : p = HaloPhase.fresh ∨ p = HaloPhase.completed)
    (k : Nat) (hk : k ≤ iterations.toNat) :
    ∃ q : HaloPhase,
      halo_run w p ((List.range k).flatMap (fun i =>
        P i ++ iteration_substeps single_component delta_t iterations i)) = some q ∧
      (k < iterations.toNat → q = HaloPhase.fresh ∨ q = HaloPhase.completed) := by
  induction k with
  | zero => exact ⟨p, rfl, fun _ => hp⟩
  | succ k ih =>
    obtain ⟨q, hq, hgood⟩ := ih (by omega)
    have hqg := hgood (by omega)
    obtain ⟨q', hq', hgood'⟩ :=
      halo_run_iteration_substeps single_component delta_t iterations (k : Int) w q hqg
    refine ⟨q', ?_, ?_⟩
    · rw [List.range_succ, List.flatMap_append, halo_run_append, hq]
      simp only [Option.bind, List.flatMap_cons, List.flatMap_nil, List.append_nil]
      rw [halo_run_append, halo_run_not_substep w q (P k) (hP k)]
      exact hq'
    · intro hlt
      exact hgood' (by omega)

/-- The calls of one `evolve`, in the shape of `evolve_calls`, are accepted by
the observer of every component. -/
theorem halo_run_evolve (c0 r0 : List (Event K)) (P : Nat → List (Event K))
    (single_component : Bool) (delta_t : K) (iterations : Int)
    (hc0 : ∀ e ∈ c0, e = Event.init_kernel)
    (hr0 : ∀ e ∈ r0, ∃ v d, e = Event.rabi_coupling v d)
    (hP : ∀ i, ∀ e ∈ P i, Event.isSubstep e = false) (w : Nat) :
    halo_run w HaloPhase.fresh (c0 ++ r0 ++
      (List.range iterations.toNat).flatMap (fun i =>
        P i ++ iteration_substeps single_component delta_t iterations i) ++
      [Event.get_sample]) ≠ none := by
  have h1 : halo_run w HaloPhase.fresh c0 = some HaloPhase.fresh := by
    apply halo_run_neutral
    intro e he
    rw [hc0 e he]
    simp
  have h2 : halo_run w HaloPhase.fresh r0 = some HaloPhase.fresh := by
    apply halo_run_neutral
    intro e he
    obtain ⟨v, d, hv⟩ := hr0 e he
    rw [hv]
    simp
  obtain ⟨q, hq, -⟩ := halo_run_iterations single_component delta_t iterations P hP w
    HaloPhase.fresh (Or.inl rfl) iterations.toNat (le_refl _)
  have h3 : halo_run w q ([Event.get_sample] : List (Event K)) = some q := by
    apply halo_run_neutral
    intro e he
    simp at he
    rw [he]
    simp
  rw [halo_run_append, halo_run_append, halo_run_append, h1]
  simp only [Option.bind]
  rw [h2]
  simp only [Option.bind]
  rw [hq]
  simp only [Option.bind]
  rw [h3]
  simp

/-- C16 (amended): with the back end `"cpu"`, in the sequence of kernel calls
of one call `evolve(N, imag)`, for every component `w`, between any two
consecutive `run_kernel_on_halo` of `w` there is a `start_halo_exchange` of `w`
followed by a `wait_for_completion` of `w`. -/
theorem halo_exchanged_within_call (env : Environment K) (L : Libm K) (s : Solver1D K)
    (iterations : Int) (b : Bool) (hcpu : s.kernel_type = "cpu") :
    ∃ r : Solver1D K × List (Event K),
      evolve env L s iterations b = .ok r ∧ ∀ w : Nat, HaloExchanged w r.2 := by
  obtain ⟨s', P, he, hP, -⟩ := evolve_calls env L s iterations b hcpu
  refine ⟨_, he, fun w => ?_⟩
  apply haloExchanged_of_halo_run w HaloPhase.fresh
  apply halo_run_evolve _ _ P s.single_component s.delta_t iterations _ _ hP w
  · intro e he
    split_ifs at he <;> simp at he
    exact he
  · intro e he
    split_ifs at he <;> simp at he
    exact ⟨_, _, he⟩

/-- C16 (amended) on the two-component solver with `Δt = 1`, for `N = 3`. -/
theorem halo_exchanged_within_call_witness :
    ∃ r : Solver1D ℚ × List (Event ℚ),
      evolve Examples.stillEnvironment Examples.unitLibm (Examples.flatSolver 1 1 1 0) 3 false =
        .ok r ∧ HaloExchanged 0 r.2 ∧ HaloExchanged 1 r.2 := by
  obtain ⟨r, he, h⟩ := halo_exchanged_within_call Examples.stillEnvironment
    Examples.unitLibm (Examples.flatSolver (1 : ℚ) 1 1 0) 3 false rfl
  exact ⟨r, he, h 0, h 1⟩

/-- C16 as stated fails: two consecutive calls `evolve(1, false)` on the
one-component solver with `Δt = 1`, the second of which reuses the kernel of
the first (it does not call `init_kernel`). The last iteration of a call posts
no `start_halo_exchange`, so between the `run_kernel_on_halo` of the first call
and the `run_kernel_on_halo` of the second one there is none. -/
theorem halo_exchange_across_calls_counterexample :
    ∃ r1 r2 : Solver1D ℚ × List (Event ℚ),
      evolve Examples.stillEnvironment Examples.unitLibm (Examples.singleSolver 1) 1 false =
        .ok r1 ∧
      evolve Examples.stillEnvironment Examples.unitLibm r1.1 1 false = .ok r2 ∧
      evolve_needs_init r1.1 false = false ∧ r2.1.kernel = r1.1.kernel ∧
      r1.2 ++ r2.2 =
        [Event.init_kernel, Event.run_kernel_on_halo 0, Event.run_kernel 0,
          Event.wait_for_completion 0, Event.get_sample, Event.run_kernel_on_halo 0,
          Event.run_kernel 0, Event.wait_for_completion 0, Event.get_sample] ∧
      ¬ HaloExchanged 0 (r1.2 ++ r2.2) := by
  obtain ⟨r1, s0, he1, -, -, -, -, -, -, -, him1, hpc1, hk1, hcpu1, hsc1, hdt1, -⟩ :=
    evolve_solver Examples.stillEnvironment Examples.unitLibm
      (Examples.singleSolver (1 : ℚ)) 1 false rfl
  obtain ⟨s1, P1, hc1, -, hP1⟩ := evolve_calls Examples.stillEnvironment Examples.unitLibm
    (Examples.singleSolver (1 : ℚ)) 1 false rfl
  have hn1 : evolve_needs_init r1.1 false = false := by
    cases hn : evolve_needs_init r1.1 false with
    | false => rfl
    | true =>
      rcases (evolve_needs_init_iff r1.1 false).1 hn with h | h | h
      · exact absurd him1.symm h
      · exact absurd h hk1
      · rw [hpc1] at h
        exact absurd h (by decide)
  obtain ⟨r2, s0', he2, -, hs0', -, -, hk2, -⟩ :=
    evolve_solver Examples.stillEnvironment Examples.unitLibm r1.1 1 false hcpu1
  obtain ⟨s2, P2, hc2, -, hP2⟩ := evolve_calls Examples.stillEnvironment Examples.unitLibm
    r1.1 1 false hcpu1
  have hl1 : r1.2 = [Event.init_kernel, Event.run_kernel_on_halo 0, Event.run_kernel 0,
      Event.wait_for_completion 0, Event.get_sample] := by
    rw [he1] at hc1
    have h := congrArg Prod.snd (Except.ok.inj hc1)
    have hr : List.range (Int.toNat 1) = [0] := rfl
    rw [h]
    simp only [hr, List.flatMap_cons, List.flatMap_nil, hP1]
    rfl
  have hl2 : r2.2 = [Event.run_kernel_on_halo 0, Event.run_kernel 0,
      Event.wait_for_completion 0, Event.get_sample] := by
    rw [he2] at hc2
    have h := congrArg Prod.snd (Except.ok.inj hc2)
    have hr : List.range (Int.toNat 1) = [0] := rfl
    rw [h]
    simp only [hr, List.flatMap_cons, List.flatMap_nil, hP2, hn1, hsc1]
    rfl
  have hcat : r1.2 ++ r2.2 =
      [Event.init_kernel, Event.run_kernel_on_halo 0, Event.run_kernel 0,
        Event.wait_for_completion 0, Event.get_sample, Event.run_kernel_on_halo 0,
        Event.run_kernel 0, Event.wait_for_completion 0, Event.get_sample] := by
    rw [hl1, hl2]
    rfl
  refine ⟨r1, r2, he1, he2, hn1, ?_, hcat, ?_⟩
  · rw [hk2, hs0' hn1]
  · intro h
    obtain ⟨B1, B2, B3, hB⟩ := h [Event.init_kernel]
      [Event.run_kernel 0, Event.wait_for_completion 0, Event.get_sample]
      [Event.run_kernel 0, Event.wait_for_completion 0, Event.get_sample]
      (by rw [hcat]; rfl) (by simp)
    have hm : (Event.start_halo_exchange 0 : Event ℚ) ∈
        [Event.run_kernel 0, Event.wait_for_completion 0, Event.get_sample] := by
      rw [hB]
      simp
    simp at hm

/-! ## C21: the back ends of `init_kernel` -/

/-- C21: in the build without CUDA, `init_kernel` returns (with a kernel) if
and only if `kernel_type` is `"cpu"`, and every other name aborts: `"gpu"`
with "Compiled without CUDA"; on a two-component system any name other than
`"cpu"` and `"gpu"` with the message on two-component Hamiltonians; on a
one-component system `"hybrid"` with "Compiled without CUDA" and any name
outside `"cpu"`, `"gpu"`, `"hybrid"` with "Unknown kernel". -/
theorem init_kernel_back_ends (s : Solver1D K) :
    ((∃ s' : Solver1D K, init_kernel s = .ok s') ↔ s.kernel_type = "cpu") ∧
    (∀ s' : Solver1D K, init_kernel s = .ok s' →
      s'.kernel = some ⟨!s.single_component, s.h_a, s.h_b, s.delta_t, s.imag_time⟩) ∧
    (s.kernel_type ≠ "cpu" → ∃ msg : String, init_kernel s = .error msg) ∧
    (s.kernel_type = "gpu" → init_kernel s = .error "Compiled without CUDA") ∧
    (s.single_component = true → s.kernel_type = "hybrid" →
      init_kernel s = .error "Compiled without CUDA") ∧
    (s.single_component = true → s.kernel_type ≠ "cpu" → s.kernel_type ≠ "gpu" →
      s.kernel_type ≠ "hybrid" → init_kernel s = .error "Unknown kernel") ∧
    (s.single_component = false → s.kernel_type ≠ "cpu" → s.kernel_type ≠ "gpu" →
      init_kernel s =
        .error "Two-component Hamiltonians only work with the CPU and GPU kernels!") := by
  unfold init_kernel
  refine ⟨?_, ?_, ?_, ?_, ?_, ?_, ?_⟩
  · constructor
    · rintro ⟨s', h⟩
      by_contra hc
      rw [if_neg hc] at h
      split_ifs at h
    · intro hc
      rw [if_pos hc]
      cases s.single_component <;> simp
  · intro s' h
    by_cases hc : s.kernel_type = "cpu"
    · rw [if_pos hc] at h
      cases hs : s.single_component <;> rw [hs] at h <;> simp at h <;> rw [← h] <;> rfl
    · rw [if_neg hc] at h
      split_ifs at h
  · intro hc
    rw [if_neg hc]
    split_ifs <;> exact ⟨_, rfl⟩
  · intro hg
    have hc : s.kernel_type ≠ "cpu" := by
      rw [hg]
      decide
    rw [if_neg hc, if_pos hg]
  · intro hs hh
    have hc : s.kernel_type ≠ "cpu" := by
      rw [hh]
      decide
    have hg : s.kernel_type ≠ "gpu" := by
      rw [hh]
      decide
    rw [if_neg hc, if_neg hg, hs, if_pos hh]
    rfl
  · intro hs hc hg hh
    rw [if_neg hc, if_neg hg, hs, if_neg hh]
    rfl
  · intro hs hc hg
    rw [if_neg hc, if_neg hg, hs]
    rfl

/-- C21 on concrete solvers: the name `"cpu"` creates a kernel, and a
two-component solver named `"hybrid"` aborts with the message on
two-component Hamiltonians. -/
theorem init_kernel_back_ends_witness :
    (∃ s' : Solver1D ℚ, init_kernel (Examples.singleSolver (1 : ℚ)) = .ok s') ∧
    init_kernel { Examples.flatSolver (1 : ℚ) 1 1 0 with kernel_type := "hybrid" } =
      .error "Two-component Hamiltonians only work with the CPU and GPU kernels!" :=
  ⟨(init_kernel_back_ends (Examples.singleSolver (1 : ℚ))).1.2 rfl,
    (init_kernel_back_ends
      { Examples.flatSolver (1 : ℚ) 1 1 0 with kernel_type := "hybrid" }).2.2.2.2.2.2
      rfl (by decide) (by decide)⟩

/-! ## C22: the output directory of the drivers -/

/-- C22 (amended): in both drivers, when snapshots are requested the
directory used for output is the named directory whenever `mkdir` returns `0`
or `-1`, and the current directory only when `mkdir` returns another value;
when no snapshots are requested it is the current directory. -/
theorem output_directory_choice (mkdir : String → Int) (dim iterations snapshots : Int) :
    (snapshots ≠ 0 →
      (mkdir "Harmonic_osc_RE" = 0 ∨ mkdir "Harmonic_osc_RE" = -1) →
      harmonic_osc_real_dirnames mkdir snapshots = "Harmonic_osc_RE") ∧
    (snapshots ≠ 0 → mkdir "Harmonic_osc_RE" ≠ 0 → mkdir "Harmonic_osc_RE" ≠ -1 →
      harmonic_osc_real_dirnames mkdir snapshots = ".") ∧
    (snapshots = 0 → harmonic_osc_real_dirnames mkdir snapshots = ".") ∧
    (snapshots ≠ 0 →
      (mkdir ("D" ++ toString dim ++ "_I" ++ toString iterations ++ "_S" ++
          toString snapshots ++ "") = 0 ∨
        mkdir ("D" ++ toString dim ++ "_I" ++ toString iterations ++ "_S" ++
          toString snapshots ++ "") = -1) →
      unittest_filenames mkdir dim iterations snapshots =
        "D" ++ toString dim ++ "_I" ++ toString iterations ++ "_S" ++
          toString snapshots ++ "") ∧
    (snapshots ≠ 0 →
      mkdir ("D" ++ toString dim ++ "_I" ++ toString iterations ++ "_S" ++
          toString snapshots ++ "") ≠ 0 →
      mkdir ("D" ++ toString dim ++ "_I" ++ toString iterations ++ "_S" ++
          toString snapshots ++ "") ≠ -1 →
      unittest_filenames mkdir dim iterations snapshots = "./") ∧
    (snapshots = 0 → unittest_filenames mkdir dim iterations snapshots = "./") := by
  refine ⟨?_, ?_, ?_, ?_, ?_, ?_⟩
  · intro hs hst
    simp only [harmonic_osc_real_dirnames]
    rw [if_pos hs, if_neg]
    rintro ⟨h0, h1⟩
    rcases hst with h | h
    · exact h0 h
    · exact h1 h
  · intro hs h0 h1
    simp only [harmonic_osc_real_dirnames]
    rw [if_pos hs, if_pos ⟨h0, h1⟩]
  · intro hs
    simp only [harmonic_osc_real_dirnames]
    rw [if_neg (not_not.2 hs)]
  · intro hs hst
    simp only [unittest_filenames]
    rw [if_pos hs, if_neg]
    rintro ⟨h0, h1⟩
    rcases hst with h | h
    · exact h0 h
    · exact h1 h
  · intro hs h0 h1
    simp only [unittest_filenames]
    rw [if_pos hs, if_pos ⟨h0, h1⟩]
  · intro hs
    simp only [unittest_filenames]
    rw [if_neg (not_not.2 hs)]

/-- C22 (amended) on a run of both drivers with snapshots requested and a
`mkdir` that returns `0`: the output goes to the named directory. -/
theorem output_directory_choice_witness :
    harmonic_osc_real_dirnames Examples.succeedingMkdir 1 = "Harmonic_osc_RE" ∧
    unittest_filenames Examples.succeedingMkdir 640 1000 10 = "D640_I1000_S10" :=
  ⟨(output_directory_choice Examples.succeedingMkdir 640 1000 1).1 (by decide) (Or.inl rfl),
    (output_directory_choice Examples.succeedingMkdir 640 1000 10).2.2.2.1 (by decide)
      (Or.inl rfl)⟩

/-- C22 as stated fails: with snapshots requested and a `mkdir` that returns
`-1`, both drivers keep the name of the directory that could not be created;
the output directory is not the current directory. -/
theorem output_directory_mkdir_fails_counterexample :
    Examples.failingMkdir "Harmonic_osc_RE" = -1 ∧
    harmonic_osc_real_dirnames Examples.failingMkdir 1 = "Harmonic_osc_RE" ∧
    harmonic_osc_real_dirnames Examples.failingMkdir 1 ≠ "." ∧
    Examples.failingMkdir "D640_I1000_S10" = -1 ∧
    unittest_filenames Examples.failingMkdir 640 1000 10 = "D640_I1000_S10" ∧
    unittest_filenames Examples.failingMkdir 640 1000 10 ≠ "./" := by
  have h1 : harmonic_osc_real_dirnames Examples.failingMkdir 1 = "Harmonic_osc_RE" := by
    simp [harmonic_osc_real_dirnames, Examples.failingMkdir]
  have h2 : unittest_filenames Examples.failingMkdir 640 1000 10 = "D640_I1000_S10" := by
    simp only [unittest_filenames, Examples.failingMkdir]
    rw [if_pos (by decide), if_neg (by decide)]
    rfl
  refine ⟨rfl, h1, ?_, rfl, h2, ?_⟩
  · rw [h1]
    decide
  · rw [h2]
    decide

/-! ## C23: no eligible point is skipped -/

/-- C23: on a tile with `start_x ≤ inner_start_x ≤ inner_end_x ≤ end_x`, an
index `j` of the inner sub-box whose stencil cells `j − 2 … j + 2` lie in
`[0, end_x − start_x)` contributes to the kinetic sum. An index of the inner
sub-box is skipped exactly when it is one of the two outermost inner cells of
an edge without halo; so an edge with a halo skips none, and with halos on both
edges every inner cell contributes. -/
theorem kinetic_sum_skips_no_eligible_point (grid : Lattice1D K) (j : Int)
    (h1 : grid.start_x ≤ grid.inner_start_x) (_h2 : grid.inner_start_x ≤ grid.inner_end_x)
    (h3 : grid.inner_end_x ≤ grid.end_x) (hj : j ∈ inner_box grid) :
    (0 ≤ j - 2 → j + 2 < tile_width grid → j ∈ kinetic_points grid) ∧
    (j ∉ kinetic_points grid ↔
      (ini_halo_x grid = 0 ∧
        (j = grid.inner_start_x - grid.start_x ∨ j = grid.inner_start_x - grid.start_x + 1)) ∨
      (end_halo_x grid = 0 ∧
        (j = grid.inner_end_x - grid.start_x - 1 ∨ j = grid.inner_end_x - grid.start_x - 2))) ∧
    (2 ≤ ini_halo_x grid → 2 ≤ end_halo_x grid → j ∈ kinetic_points grid) := by
  have hj' : grid.inner_start_x - grid.start_x ≤ j ∧ j < grid.inner_end_x - grid.start_x := by
    simpa [inner_box] using hj
  rw [mem_kinetic_points]
  unfold ini_halo_x end_halo_x tile_width
  refine ⟨?_, ?_, ?_⟩ <;> split_ifs <;> omega

/-- C23 on a tile with halos of width two and four: the first inner cell
`j = 2` has its stencil `0 … 4` inside the tile of ten cells and contributes. -/
theorem kinetic_sum_skips_no_eligible_point_witness :
    (2 : Int) ∈ inner_box (Examples.haloGrid : Lattice1D ℚ) ∧
      (2 : Int) ∈ kinetic_points (Examples.haloGrid : Lattice1D ℚ) :=
  have hmem : (2 : Int) ∈ inner_box (Examples.haloGrid : Lattice1D ℚ) := by
    simp [inner_box, Examples.haloGrid]
  ⟨hmem, (kinetic_sum_skips_no_eligible_point (Examples.haloGrid : Lattice1D ℚ) 2 (by decide)
    (by decide) (by decide) hmem).1 (by decide) (by decide)⟩

/-! ## C24: the divisors of the expectation values -/

/-- Over an ordered field, the sum of `|ψ_j|²` over the inner sub-box is
non-negative, and it is zero exactly when every inner cell is zero. -/
theorem norm_sum_eq_zero_iff {F : Type} [LinearOrderedField F] (grid : Lattice1D F)
    (st : State1D F) :
    0 ≤ ∑ j ∈ inner_box grid, Cplx.normSq (st.psi j) ∧
    ((∑ j ∈ inner_box grid, Cplx.normSq (st.psi j)) = 0 ↔
      ∀ j ∈ inner_box grid, st.p_real j = 0 ∧ st.p_imag j = 0) := by
  have hnn : ∀ j ∈ inner_box grid, 0 ≤ Cplx.normSq (st.psi j) := by
    intro j _
    rw [normSq_psi]
    positivity
  refine ⟨Finset.sum_nonneg hnn, ?_⟩
  rw [Finset.sum_eq_zero_iff_of_nonneg hnn]
  constructor
  · intro h j hj
    have h0 := h j hj
    rw [normSq_psi] at h0
    have hr : 0 ≤ st.p_real j ^ 2 := sq_nonneg _
    have hi : 0 ≤ st.p_imag j ^ 2 := sq_nonneg _
    have hr0 : st.p_real j ^ 2 = 0 := by linarith
    have hi0 : st.p_imag j ^ 2 = 0 := by linarith
    exact ⟨pow_eq_zero_iff (two_ne_zero) |>.1 hr0, pow_eq_zero_iff (two_ne_zero) |>.1 hi0⟩
  · intro h j hj
    obtain ⟨hr, hi⟩ := h j hj
    rw [normSq_psi, hr, hi]
    simp

/-- C24: in exact arithmetic (an ordered field), the divisor of the first
component, `∑ (p_real[j]² + p_imag[j]²)` over the inner sub-box, is
non-negative and is zero exactly when every inner cell of the component is
zero, and likewise the divisor of the second component on a two-component
system; the energies are the quotients by these divisors (and by their
product for the inter-species and Rabi energies), which are non-zero as soon
as each component has a non-zero inner cell. -/
theorem normalising_divisor_nonzero {F : Type} [LinearOrderedField F] (s : Solver1D F) :
    ((energy_sums s).sum_norm2_0 =
        ∑ j ∈ inner_box s.grid, (s.state.p_real j ^ 2 + s.state.p_imag j ^ 2) ∧
      0 ≤ (energy_sums s).sum_norm2_0 ∧
      ((energy_sums s).sum_norm2_0 = 0 ↔
        ∀ j ∈ inner_box s.grid, s.state.p_real j = 0 ∧ s.state.p_imag j = 0)) ∧
    (s.single_component = false →
      (energy_sums s).sum_norm2_1 =
        ∑ j ∈ inner_box s.grid, (s.state_b.p_real j ^ 2 + s.state_b.p_imag j ^ 2) ∧
      0 ≤ (energy_sums s).sum_norm2_1 ∧
      ((energy_sums s).sum_norm2_1 = 0 ↔
        ∀ j ∈ inner_box s.grid, s.state_b.p_real j = 0 ∧ s.state_b.p_imag j = 0)) ∧
    ((calculate_energy_expected_values s).kinetic_energy 0 =
        (energy_sums s).sum_kinetic_energy_0 / (energy_sums s).sum_norm2_0 ∧
      (calculate_energy_expected_values s).potential_energy 0 =
        (energy_sums s).sum_potential_energy_0 / (energy_sums s).sum_norm2_0 ∧
      (calculate_energy_expected_values s).intra_species_energy 0 =
        (energy_sums s).sum_intra_species_energy_0 / (energy_sums s).sum_norm2_0) ∧
    (s.single_component = false →
      (calculate_energy_expected_values s).kinetic_energy 1 =
        (energy_sums s).sum_kinetic_energy_1 / (energy_sums s).sum_norm2_1 ∧
      (calculate_energy_expected_values s).potential_energy 1 =
        (energy_sums s).sum_potential_energy_1 / (energy_sums s).sum_norm2_1 ∧
      (calculate_energy_expected_values s).intra_species_energy 1 =
        (energy_sums s).sum_intra_species_energy_1 / (energy_sums s).sum_norm2_1 ∧
      (calculate_energy_expected_values s).inter_species_energy =
        (energy_sums s).sum_inter_species_energy /
          ((energy_sums s).sum_norm2_0 * (energy_sums s).sum_norm2_1) ∧
      (calculate_energy_expected_values s).rabi_energy =
        1 / 2 * (energy_sums s).sum_rabi_energy /
          ((energy_sums s).sum_norm2_0 * (energy_sums s).sum_norm2_1)) ∧
    ((∃ j ∈ inner_box s.grid, s.state.p_real j ≠ 0 ∨ s.state.p_imag j ≠ 0) →
      (energy_sums s).sum_norm2_0 ≠ 0) ∧
    (s.single_component = false →
      (∃ j ∈ inner_box s.grid, s.state.p_real j ≠ 0 ∨ s.state.p_imag j ≠ 0) →
      (∃ j ∈ inner_box s.grid, s.state_b.p_real j ≠ 0 ∨ s.state_b.p_imag j ≠ 0) →
      (energy_sums s).sum_norm2_1 ≠ 0 ∧
      (energy_sums s).sum_norm2_0 * (energy_sums s).sum_norm2_1 ≠ 0) := by
  obtain ⟨ha0, ha1⟩ := norm_sum_eq_zero_iff s.grid s.state
  obtain ⟨hb0, hb1⟩ := norm_sum_eq_zero_iff s.grid s.state_b
  have hA := (energy_sums_first s).1
  obtain ⟨-, c1, c2, c3⟩ := calculate_first s
  have hnzA : (∃ j ∈ inner_box s.grid, s.state.p_real j ≠ 0 ∨ s.state.p_imag j ≠ 0) →
      (energy_sums s).sum_norm2_0 ≠ 0 := by
    rintro ⟨j, hj, hne⟩ h0
    rw [hA] at h0
    obtain ⟨hr, hi⟩ := ha1.1 h0 j hj
    rcases hne with h | h
    · exact h hr
    · exact h hi
  refine ⟨⟨?_, ?_, ?_⟩, ?_, ⟨c1, c2, c3⟩, ?_, hnzA, ?_⟩
  · rw [hA]
    exact Finset.sum_congr rfl (fun j _ => normSq_psi _ j)
  · rw [hA]
    exact ha0
  · rw [hA]
    exact ha1
  · intro hs
    have hB := (energy_sums_second s hs).1
    refine ⟨?_, ?_, ?_⟩
    · rw [hB]
      exact Finset.sum_congr rfl (fun j _ => normSq_psi _ j)
    · rw [hB]
      exact hb0
    · rw [hB]
      exact hb1
  · intro hs
    obtain ⟨-, d1, d2, d3, d4⟩ := calculate_second s hs
    exact ⟨d1, d2, d3, d4, calculate_rabi s hs⟩
  · intro hs hea heb
    have hB := (energy_sums_second s hs).1
    have hnzB : (energy_sums s).sum_norm2_1 ≠ 0 := by
      obtain ⟨j, hj, hne⟩ := heb
      intro h0
      rw [hB] at h0
      obtain ⟨hr, hi⟩ := hb1.1 h0 j hj
      rcases hne with h | h
      · exact h hr
      · exact h hi
    exact ⟨hnzB, mul_ne_zero (hnzA hea) hnzB⟩

/-- C24 on the one-component solver whose six cells hold `1`: the divisor of
the first component is not zero. -/
theorem normalising_divisor_nonzero_witness :
    (energy_sums (Examples.singleSolver (1 : ℚ))).sum_norm2_0 ≠ 0 :=
  (normalising_divisor_nonzero (Examples.singleSolver (1 : ℚ))).2.2.2.2.1
    ⟨0, by simp [inner_box, Examples.singleSolver, Examples.solver, Examples.grid6],
      Or.inl (by simp [Examples.singleSolver, Examples.solver, Examples.constState])⟩

/-! ## C25: the kinetic energy of a constant field -/

/-- The value that `get_kinetic_energy(1)` returns: the quotient of the kinetic
sum by the sum of `|ψ|²` of the first component. -/
theorem get_kinetic_energy_first (s : Solver1D K) (h : CacheValid s) :
    (get_kinetic_energy s 1).1 =
      (energy_sums s).sum_kinetic_energy_0 / (energy_sums s).sum_norm2_0 := by
  obtain ⟨s0, hr, hsum, -, -⟩ := refresh_of_valid s h
  obtain ⟨-, hk0, -, -⟩ := calculate_first s0
  have e0 : (get_kinetic_energy s 1).1 =
      (calculate_energy_expected_values s0).kinetic_energy 0 := by
    simp [get_kinetic_energy, hr]
  rw [e0, hk0, hsum]

/-- The kinetic term of a cell whose five stencil cells hold the same value is
zero: the coefficients `−1/12, 4/3, −5/2, 4/3, −1/12` sum to zero. -/
theorem kinetic_term_constant [CharZero K] (grid : Lattice1D K) (st : State1D K)
    (cost c : Cplx K) (j : Int)
    (h0 : st.psi j = c) (h1 : st.psi (j + 1) = c) (h2 : st.psi (j - 1) = c)
    (h3 : st.psi (j + 2) = c) (h4 : st.psi (j - 2) = c) :
    (kinetic_term grid st cost j).re = 0 ∧ (kinetic_term grid st cost j).im = 0 := by
  simp only [kinetic_term, h0, h1, h2, h3, h4, Cplx.mul_re, Cplx.mul_im, Cplx.add_re,
    Cplx.add_im, Cplx.conj_re, Cplx.conj_im, Cplx.ofReal_re, Cplx.ofReal_im]
  generalize 1 / (grid.delta_x * grid.delta_x) = a
  constructor <;> ring

/-- C25 (amended): on a tile with `start_x ≤ inner_start_x ≤ inner_end_x ≤ end_x`
whose halo on either edge is absent or at least two cells wide, for a mass and
a spacing that are not zero, if every cell of the tile (halo included) holds
the same non-zero complex number `c`, then the kinetic-energy sum of the first
component is `0`; when the inner sub-box has a cell, the divisor `∑ |ψ_j|²` is
not zero and `get_kinetic_energy(1)` returns `0`. -/
theorem constant_field_kinetic_energy {F : Type} [LinearOrderedField F] (s : Solver1D F)
    (c : Cplx F) (h : CacheValid s)
    (h1 : s.grid.start_x ≤ s.grid.inner_start_x) (_h2 : s.grid.inner_start_x ≤ s.grid.inner_end_x)
    (h3 : s.grid.inner_end_x ≤ s.grid.end_x)
    (hl : s.grid.inner_start_x - s.grid.start_x = 0 ∨ 2 ≤ s.grid.inner_start_x - s.grid.start_x)
    (hr : s.grid.end_x - s.grid.inner_end_x = 0 ∨ 2 ≤ s.grid.end_x - s.grid.inner_end_x)
    (_hm : s.hamiltonian.mass ≠ 0) (_hdx : s.grid.delta_x ≠ 0)
    (hne : c.re ≠ 0 ∨ c.im ≠ 0)
    (hc : ∀ j : Int, 0 ≤ j → j < tile_width s.grid → s.state.psi j = c) :
    (energy_sums s).sum_kinetic_energy_0 = 0 ∧
    ((inner_box s.grid).Nonempty →
      (energy_sums s).sum_norm2_0 ≠ 0 ∧ (get_kinetic_energy s 1).1 = 0) := by
  have hk : (energy_sums s).sum_kinetic_energy_0 = 0 := by
    rw [(energy_sums_first s).2.2.2]
    apply Finset.sum_eq_zero
    intro j hj
    obtain ⟨⟨hlo, hhi⟩, hg1, hg2⟩ := (mem_kinetic_points s.grid j).1 hj
    have hin : 0 ≤ j - 2 ∧ j + 2 < tile_width s.grid := by
      unfold tile_width
      constructor
      · rcases hl with hl | hl
        · rw [if_pos hl] at hg1
          omega
        · omega
      · rcases hr with hr | hr
        · rw [if_pos hr] at hg2
          omega
        · omega
    exact (kinetic_term_constant s.grid s.state _ c j (hc j (by omega) (by omega))
      (hc _ (by omega) (by omega)) (hc _ (by omega) (by omega)) (hc _ (by omega) (by omega))
      (hc _ (by omega) (by omega))).1
  refine ⟨hk, ?_⟩
  rintro ⟨j, hj⟩
  have hj' : s.grid.inner_start_x - s.grid.start_x ≤ j ∧
      j < s.grid.inner_end_x - s.grid.start_x := by
    simpa [inner_box] using hj
  have hcj := hc j (by omega) (by unfold tile_width; omega)
  have hnz : (energy_sums s).sum_norm2_0 ≠ 0 := by
    intro h0
    rw [(energy_sums_first s).1] at h0
    obtain ⟨hr0, hi0⟩ := (norm_sum_eq_zero_iff s.grid s.state).2.1 h0 j hj
    have hre : c.re = 0 := by
      rw [← hcj]
      exact hr0
    have him : c.im = 0 := by
      rw [← hcj]
      exact hi0
    rcases hne with h | h
    · exact h hre
    · exact h him
  refine ⟨hnz, ?_⟩
  rw [get_kinetic_energy_first s h, hk, zero_div]

/-- C25 (amended) on a tile of ten cells with halos of width two and four
whose cells all hold `3`: the kinetic sum is `0` and `get_kinetic_energy(1)`
returns `0`. -/
theorem constant_field_kinetic_energy_witness :
    (energy_sums (Examples.haloSolver (3 : ℚ))).sum_kinetic_energy_0 = 0 ∧
    (get_kinetic_energy (Examples.haloSolver (3 : ℚ)) 1).1 = 0 := by
  obtain ⟨hk, hg⟩ := constant_field_kinetic_energy (Examples.haloSolver (3 : ℚ)) ⟨3, 0⟩
    (Or.inl rfl) (by decide) (by decide) (by decide) (Or.inr (by decide)) (Or.inr (by decide))
    (by simp [Examples.haloSolver, Examples.solver, Examples.hamiltonian])
    (by simp [Examples.haloSolver, Examples.solver, Examples.haloGrid])
    (Or.inl (by norm_num)) (fun j _ _ => rfl)
  exact ⟨hk, (hg ⟨2, by simp [inner_box, Examples.haloSolver, Examples.solver,
    Examples.haloGrid]⟩).2⟩

/-- C25 as stated fails: on the tile of five cells whose left halo is one cell
wide, with unit mass and spacing and the constant `1` in every cell of the
tile, the inner cell `j = 1` passes the test of lines 306-307 and its stencil
reads the index `−1`, outside the tile; with `13` in the memory there the
kinetic sum is `1/2` and `get_kinetic_energy(1)` returns `1/8`. -/
theorem constant_field_halo_one_counterexample :
    (Examples.haloOneSolver (1 : ℚ) 13).grid.start_x ≤
        (Examples.haloOneSolver (1 : ℚ) 13).grid.inner_start_x ∧
      (Examples.haloOneSolver (1 : ℚ) 13).grid.inner_start_x ≤
        (Examples.haloOneSolver (1 : ℚ) 13).grid.inner_end_x ∧
      (Examples.haloOneSolver (1 : ℚ) 13).grid.inner_end_x ≤
        (Examples.haloOneSolver (1 : ℚ) 13).grid.end_x ∧
      (Examples.haloOneSolver (1 : ℚ) 13).hamiltonian.mass ≠ 0 ∧
      (Examples.haloOneSolver (1 : ℚ) 13).grid.delta_x ≠ 0 ∧
      (∀ j : Int, 0 ≤ j → j < tile_width (Examples.haloOneSolver (1 : ℚ) 13).grid →
        (Examples.haloOneSolver (1 : ℚ) 13).state.psi j = ⟨1, 0⟩) ∧
      (energy_sums (Examples.haloOneSolver (1 : ℚ) 13)).sum_kinetic_energy_0 = 1 / 2 ∧
      (get_kinetic_energy (Examples.haloOneSolver (1 : ℚ) 13) 1).1 = 1 / 8 ∧
      (get_kinetic_energy (Examples.haloOneSolver (1 : ℚ) 13) 1).1 ≠ 0 := by
  have hkp : kinetic_points (Examples.haloOneSolver (1 : ℚ) 13).grid = {1, 2} := by
    ext j
    rw [mem_kinetic_points]
    simp [Examples.haloOneSolver, Examples.solver, Examples.haloOneGrid]
    omega
  have hib : inner_box (Examples.haloOneSolver (1 : ℚ) 13).grid = {1, 2, 3, 4} := by
    ext j
    simp [inner_box, Examples.haloOneSolver, Examples.solver, Examples.haloOneGrid]
    omega
  have hk : (energy_sums (Examples.haloOneSolver (1 : ℚ) 13)).sum_kinetic_energy_0 = 1 / 2 := by
    rw [(energy_sums_first _).2.2.2, hkp]
    simp [kinetic_term, Examples.haloOneSolver, Examples.solver, Examples.haloOneGrid,
      Examples.haloOneState, Examples.hamiltonian, State1D.psi]
    norm_num
  have hn : (energy_sums (Examples.haloOneSolver (1 : ℚ) 13)).sum_norm2_0 = 4 := by
    rw [(energy_sums_first _).1, hib]
    simp [Cplx.normSq, Examples.haloOneSolver, Examples.solver, Examples.haloOneState,
      State1D.psi]
    norm_num
  have hg : (get_kinetic_energy (Examples.haloOneSolver (1 : ℚ) 13) 1).1 = 1 / 8 := by
    rw [get_kinetic_energy_first _ (Or.inl rfl), hk, hn]
    norm_num
  refine ⟨by decide, by decide, by decide, ?_, ?_, ?_, hk, hg, ?_⟩
  · simp [Examples.haloOneSolver, Examples.solver, Examples.hamiltonian]
  · simp [Examples.haloOneSolver, Examples.solver, Examples.haloOneGrid]
  · intro j h0 h5
    have h5' : j < 5 := by
      simpa [tile_width, Examples.haloOneSolver, Examples.solver, Examples.haloOneGrid] using h5
    simp [Examples.haloOneSolver, Examples.solver, Examples.haloOneState, State1D.psi, h0, h5']
  · rw [hg]
    norm_num

/-! ## C26: the cells that `init_state` writes -/

/-- One pass of the body stores at the index `y * dimx + x` and nowhere else. -/
theorem init_state_body_written (L : Libm K) (dimx dimy halo_x halo_y : Int)
    (periods : Nat → Int) (y x : Int) (a : StateArrays K) (i : Int) :
    ((init_state_body L dimx dimy halo_x halo_y periods y x a).p_real i ≠ none ↔
      a.p_real i ≠ none ∨ i = y * dimx + x) ∧
    ((init_state_body L dimx dimy halo_x halo_y periods y x a).p_imag i ≠ none ↔
      a.p_imag i ≠ none ∨ i = y * dimx + x) := by
  simp only [init_state_body, Function.update_apply]
  by_cases h : i = y * dimx + x
  · simp [h]
  · simp [h]

/-- The inner loop of `init_state` for the row `y` stores at the indices
`y * dimx + x` with `1 ≤ x ≤ dimx` and nowhere else. -/
theorem init_state_row_written (L : Libm K) (dimx dimy halo_x halo_y : Int)
    (periods : Nat → Int) (y : Int) (a : StateArrays K) (i : Int) :
    ((forLoop 1 (dimx + 1) (fun (x : Int) (a : StateArrays K) =>
        init_state_body L dimx dimy halo_x halo_y periods y x a) a).p_real i ≠ none ↔
      a.p_real i ≠ none ∨ ∃ x : Int, 1 ≤ x ∧ x ≤ dimx ∧ i = y * dimx + x) ∧
    ((forLoop 1 (dimx + 1) (fun (x : Int) (a : StateArrays K) =>
        init_state_body L dimx dimy halo_x halo_y periods y x a) a).p_imag i ≠ none ↔
      a.p_imag i ≠ none ∨ ∃ x : Int, 1 ≤ x ∧ x ≤ dimx ∧ i = y * dimx + x) := by
  have hinv := forLoop_induct
    (fun (k : Nat) (r : StateArrays K) =>
      (r.p_real i ≠ none ↔
        a.p_real i ≠ none ∨ ∃ x : Int, 1 ≤ x ∧ x < 1 + (k : Int) ∧ i = y * dimx + x) ∧
      (r.p_imag i ≠ none ↔
        a.p_imag i ≠ none ∨ ∃ x : Int, 1 ≤ x ∧ x < 1 + (k : Int) ∧ i = y * dimx + x))
    (fun (x : Int) (a : StateArrays K) =>
      init_state_body L dimx dimy halo_x halo_y periods y x a) 1 (dimx + 1) a
    (by
      constructor
      · constructor
        · intro h
          exact Or.inl h
        · rintro (h | ⟨x, h1, h2, -⟩)
          · exact h
          · exfalso
            omega
      · constructor
        · intro h
          exact Or.inl h
        · rintro (h | ⟨x, h1, h2, -⟩)
          · exact h
          · exfalso
            omega)
    (by
      intro k r _ hr
      obtain ⟨hre, him⟩ := hr
      obtain ⟨bre, bim⟩ := init_state_body_written L dimx dimy halo_x halo_y periods y
        (1 + (k : Int)) r i
      constructor
      · rw [bre, hre]
        constructor
        · rintro ((h | ⟨x, h1, h2, h3⟩) | h)
          · exact Or.inl h
          · exact Or.inr ⟨x, h1, by push_cast; omega, h3⟩
          · exact Or.inr ⟨1 + (k : Int), by omega, by push_cast; omega, h⟩
        · rintro (h | ⟨x, h1, h2, h3⟩)
          · exact Or.inl (Or.inl h)
          · by_cases hx : x = 1 + (k : Int)
            · exact Or.inr (by rw [h3, hx])
            · exact Or.inl (Or.inr ⟨x, h1, by push_cast at h2; omega, h3⟩)
      · rw [bim, him]
        constructor
        · rintro ((h | ⟨x, h1, h2, h3⟩) | h)
          · exact Or.inl h
          · exact Or.inr ⟨x, h1, by push_cast; omega, h3⟩
          · exact Or.inr ⟨1 + (k : Int), by omega, by push_cast; omega, h⟩
        · rintro (h | ⟨x, h1, h2, h3⟩)
          · exact Or.inl (Or.inl h)
          · by_cases hx : x = 1 + (k : Int)
            · exact Or.inr (by rw [h3, hx])
            · exact Or.inl (Or.inr ⟨x, h1, by push_cast at h2; omega, h3⟩))
  simp only at hinv
  obtain ⟨hre, him⟩ := hinv
  constructor
  · rw [hre]
    constructor
    · rintro (h | ⟨x, h1, h2, h3⟩)
      · exact Or.inl h
      · exact Or.inr ⟨x, h1, by omega, h3⟩
    · rintro (h | ⟨x, h1, h2, h3⟩)
      · exact Or.inl h
      · exact Or.inr ⟨x, h1, by omega, h3⟩
  · rw [him]
    constructor
    · rintro (h | ⟨x, h1, h2, h3⟩)
      · exact Or.inl h
      · exact Or.inr ⟨x, h1, by omega, h3⟩
    · rintro (h | ⟨x, h1, h2, h3⟩)
      · exact Or.inl h
      · exact Or.inr ⟨x, h1, by omega, h3⟩

/-- The cells that `init_state` writes: those at the indices `y * dimx + x`
with `1 ≤ y ≤ dimy` and `1 ≤ x ≤ dimx`, and no other. -/
theorem init_state_written (L : Libm K) (a : StateArrays K) (dimx dimy halo_x halo_y : Int)
    (periods : Nat → Int) (i : Int) :
    ((init_state L a dimx dimy halo_x halo_y periods).p_real i ≠ none ↔
      a.p_real i ≠ none ∨
        ∃ y x : Int, 1 ≤ y ∧ y ≤ dimy ∧ 1 ≤ x ∧ x ≤ dimx ∧ i = y * dimx + x) ∧
    ((init_state L a dimx dimy halo_x halo_y periods).p_imag i ≠ none ↔
      a.p_imag i ≠ none ∨
        ∃ y x : Int, 1 ≤ y ∧ y ≤ dimy ∧ 1 ≤ x ∧ x ≤ dimx ∧ i = y * dimx + x) := by
  have hinv := forLoop_induct
    (fun (k : Nat) (r : StateArrays K) =>
      (r.p_real i ≠ none ↔
        a.p_real i ≠ none ∨
          ∃ y x : Int, 1 ≤ y ∧ y < 1 + (k : Int) ∧ 1 ≤ x ∧ x ≤ dimx ∧ i = y * dimx + x) ∧
      (r.p_imag i ≠ none ↔
        a.p_imag i ≠ none ∨
          ∃ y x : Int, 1 ≤ y ∧ y < 1 + (k : Int) ∧ 1 ≤ x ∧ x ≤ dimx ∧ i = y * dimx + x))
    (fun (y : Int) (a : StateArrays K) =>
      forLoop 1 (dimx + 1)
        (fun (x : Int) (a : StateArrays K) =>
          init_state_body L dimx dimy halo_x halo_y periods y x a) a) 1 (dimy + 1) a
    (by
      constructor
      · constructor
        · intro h
          exact Or.inl h
        · rintro (h | ⟨y, x, h1, h2, -⟩)
          · exact h
          · exfalso
            omega
      · constructor
        · intro h
          exact Or.inl h
        · rintro (h | ⟨y, x, h1, h2, -⟩)
          · exact h
          · exfalso
            omega)
    (by
      intro k r _ hr
      obtain ⟨hre, him⟩ := hr
      obtain ⟨bre, bim⟩ := init_state_row_written L dimx dimy halo_x halo_y periods
        (1 + (k : Int)) r i
      constructor
      · rw [bre, hre]
        constructor
        · rintro ((h | ⟨y, x, h1, h2, h3⟩) | ⟨x, h1, h2, h3⟩)
          · exact Or.inl h
          · exact Or.inr ⟨y, x, h1, by push_cast; omega, h3⟩
          · exact Or.inr ⟨1 + (k : Int), x, by omega, by push_cast; omega, h1, h2, h3⟩
        · rintro (h | ⟨y, x, h1, h2, h3, h4, h5⟩)
          · exact Or.inl (Or.inl h)
          · by_cases hy : y = 1 + (k : Int)
            · exact Or.inr ⟨x, h3, h4, by rw [h5, hy]⟩
            · exact Or.inl (Or.inr ⟨y, x, h1, by push_cast at h2; omega, h3, h4, h5⟩)
      · rw [bim, him]
        constructor
        · rintro ((h | ⟨y, x, h1, h2, h3⟩) | ⟨x, h1, h2, h3⟩)
          · exact Or.inl h
          · exact Or.inr ⟨y, x, h1, by push_cast; omega, h3⟩
          · exact Or.inr ⟨1 + (k : Int), x, by omega, by push_cast; omega, h1, h2, h3⟩
        · rintro (h | ⟨y, x, h1, h2, h3, h4, h5⟩)
          · exact Or.inl (Or.inl h)
          · by_cases hy : y = 1 + (k : Int)
            · exact Or.inr ⟨x, h3, h4, by rw [h5, hy]⟩
            · exact Or.inl (Or.inr ⟨y, x, h1, by push_cast at h2; omega, h3, h4, h5⟩))
  simp only at hinv
  obtain ⟨hre, him⟩ := hinv
  unfold init_state
  constructor
  · rw [hre]
    constructor
    · rintro (h | ⟨y, x, h1, h2, h3⟩)
      · exact Or.inl h
      · exact Or.inr ⟨y, x, h1, by omega, h3⟩
    · rintro (h | ⟨y, x, h1, h2, h3⟩)
      · exact Or.inl h
      · exact Or.inr ⟨y, x, h1, by omega, h3⟩
  · rw [him]
    constructor
    · rintro (h | ⟨y, x, h1, h2, h3⟩)
      · exact Or.inl h
      · exact Or.inr ⟨y, x, h1, by omega, h3⟩
    · rintro (h | ⟨y, x, h1, h2, h3⟩)
      · exact Or.inl h
      · exact Or.inr ⟨y, x, h1, by omega, h3⟩

/-- C26 fails on the code: for `dimx ≥ 1` and `dimy ≥ 1`, `init_state` called on
freshly allocated arrays of `dimx · dimy` cells writes the cells
`y · dimx + x` with `1 ≤ y ≤ dimy`, `1 ≤ x ≤ dimx` and no other. The row
`y = dimy` is written at the indices `dimy · dimx + x ≥ dimx · dimy`, outside
the matrix, and the cells at the indices `0 … dimx`, the cell `0` of the matrix
among them, are never written. -/
theorem init_state_out_of_bounds (L : Libm K) (dimx dimy halo_x halo_y : Int)
    (periods : Nat → Int) (hx : 1 ≤ dimx) (hy : 1 ≤ dimy) :
    (∀ i : Int,
      ((init_state L StateArrays.fresh dimx dimy halo_x halo_y periods).p_real i ≠ none ↔
        ∃ y x : Int, 1 ≤ y ∧ y ≤ dimy ∧ 1 ≤ x ∧ x ≤ dimx ∧ i = y * dimx + x) ∧
      ((init_state L StateArrays.fresh dimx dimy halo_x halo_y periods).p_imag i ≠ none ↔
        ∃ y x : Int, 1 ≤ y ∧ y ≤ dimy ∧ 1 ≤ x ∧ x ≤ dimx ∧ i = y * dimx + x)) ∧
    (∀ x : Int, 1 ≤ x → x ≤ dimx →
      (init_state L StateArrays.fresh dimx dimy halo_x halo_y periods).p_real
          (dimy * dimx + x) ≠ none ∧
      (init_state L StateArrays.fresh dimx dimy halo_x halo_y periods).p_imag
          (dimy * dimx + x) ≠ none ∧
      ¬ (dimy * dimx + x < dimx * dimy)) ∧
    0 < dimx * dimy ∧
    (∀ i : Int, 0 ≤ i → i ≤ dimx →
      (init_state L StateArrays.fresh dimx dimy halo_x halo_y periods).p_real i = none ∧
      (init_state L StateArrays.fresh dimx dimy halo_x halo_y periods).p_imag i = none) := by
  have hw : ∀ i : Int,
      ((init_state L StateArrays.fresh dimx dimy halo_x halo_y periods).p_real i ≠ none ↔
        ∃ y x : Int, 1 ≤ y ∧ y ≤ dimy ∧ 1 ≤ x ∧ x ≤ dimx ∧ i = y * dimx + x) ∧
      ((init_state L StateArrays.fresh dimx dimy halo_x halo_y periods).p_imag i ≠ none ↔
        ∃ y x : Int, 1 ≤ y ∧ y ≤ dimy ∧ 1 ≤ x ∧ x ≤ dimx ∧ i = y * dimx + x) := by
    intro i
    obtain ⟨hre, him⟩ := init_state_written L StateArrays.fresh dimx dimy halo_x halo_y periods i
    constructor
    · rw [hre]
      simp [StateArrays.fresh]
    · rw [him]
      simp [StateArrays.fresh]
  refine ⟨hw, ?_, by positivity, ?_⟩
  · intro x h1 h2
    refine ⟨(hw _).1.2 ⟨dimy, x, hy, le_refl _, h1, h2, rfl⟩,
      (hw _).2.2 ⟨dimy, x, hy, le_refl _, h1, h2, rfl⟩, ?_⟩
    rw [mul_comm dimy dimx]
    omega
  · intro i h0 h1
    have hrow : ∀ y x : Int, 1 ≤ y → 1 ≤ x → i ≠ y * dimx + x := by
      intro y x hy1 hx1 he
      have hmul : dimx ≤ y * dimx := by nlinarith
      omega
    refine ⟨?_, ?_⟩
    · by_contra hc
      obtain ⟨y, x, hy1, -, hx1, -, he⟩ := (hw i).1.1 hc
      exact hrow y x hy1 hx1 he
    · by_contra hc
      obtain ⟨y, x, hy1, -, hx1, -, he⟩ := (hw i).2.1 hc
      exact hrow y x hy1 hx1 he

/-- C26 at the failing input: the default run of the unittest driver
(`dim = 640`, `kernel_type = 0`, no input file) calls `init_state` with
`dimx = dimy = 648` on arrays of `648 · 648` cells; it stores at the index
`648 · 648 + 648`, outside the arrays, and leaves the cell `0` unwritten. -/
theorem init_state_out_of_bounds_witness :
    (unittest_initial_state (Examples.unitLibm : Libm ℚ) 640 0).p_real (648 * 648 + 648) ≠
        none ∧
      ¬ ((648 : Int) * 648 + 648 < 648 * 648) ∧
      (unittest_initial_state (Examples.unitLibm : Libm ℚ) 640 0).p_real 0 = none := by
  obtain ⟨-, hout, -, hin⟩ := init_state_out_of_bounds (Examples.unitLibm : Libm ℚ) 648 648 4 4
    (fun _ => 1) (by decide) (by decide)
  have e : unittest_initial_state (Examples.unitLibm : Libm ℚ) 640 0 =
      init_state Examples.unitLibm StateArrays.fresh 648 648 4 4 (fun _ => 1) := by
    simp [unittest_initial_state]
  rw [e]
  exact ⟨(hout 648 (by decide) (by decide)).1, by decide, (hin 0 (by decide) (by decide)).1⟩

/-! ## C10 and C11: the two-component energies under grid refinement -/

/-- The value that `get_inter_species_energy()` returns on a two-component
system, for every state. -/
theorem get_inter_species_energy_value (s : Solver1D K) (h : CacheValid s)
    (hs : s.single_component = false) :
    (get_inter_species_energy s).1 =
      (∑ j ∈ inner_box s.grid,
          s.hamiltonian.coupling_ab *
            (Cplx.normSq (s.state.psi j) ^ 2 * Cplx.normSq (s.state_b.psi j) ^ 2)) /
        ((∑ j ∈ inner_box s.grid, Cplx.normSq (s.state.psi j)) *
          (∑ j ∈ inner_box s.grid, Cplx.normSq (s.state_b.psi j))) := by
  obtain ⟨s0, hr, hsum, -, hc⟩ := refresh_of_valid s h
  obtain ⟨-, -, -, -, hc0, -⟩ := calculate_frame s0
  have hs0 : s0.single_component = false := hc.trans hs
  have hcs : (calculate_energy_expected_values s0).single_component = false := hc0.trans hs0
  obtain ⟨-, -, -, -, hinter⟩ := calculate_second s0 hs0
  have e : (get_inter_species_energy s).1 =
      (calculate_energy_expected_values s0).inter_species_energy := by
    simp [get_inter_species_energy, hr, hcs]
  rw [e, hinter, hsum, (energy_sums_first s).1, (energy_sums_second s hs).1,
    (energy_sums_second s hs).2.2.2.2]

/-- The value that `get_intra_species_energy(1)` returns, for every state. -/
theorem get_intra_species_energy_first (s : Solver1D K) (h : CacheValid s) :
    (get_intra_species_energy s 1).1 =
      (∑ j ∈ inner_box s.grid,
          1 / 2 * s.hamiltonian.coupling_a * Cplx.normSq (s.state.psi j) ^ 2) /
        (∑ j ∈ inner_box s.grid, Cplx.normSq (s.state.psi j)) := by
  obtain ⟨s0, hr, hsum, -, -⟩ := refresh_of_valid s h
  obtain ⟨-, -, -, hi0⟩ := calculate_first s0
  have e : (get_intra_species_energy s 1).1 =
      (calculate_energy_expected_values s0).intra_species_energy 0 := by
    simp [get_intra_species_energy, hr]
  rw [e, hi0, hsum, (energy_sums_first s).1, (energy_sums_first s).2.2.1]

/-- C10 at the failing input: both components hold the constant `2` over an
interval of length `1/4`, with `g_ab = 1`, so both squared norms are `1` and
`g_ab ∑ |ψ_a|² |ψ_b|² dx` is `4`. On six cells (`dx = 1/24`)
`get_inter_species_energy()` returns `8/3`, and on twelve cells (`dx = 1/48`),
the same field on a finer grid, it returns `4/3`: the value is not the claimed
one and halves when the grid is refined, while `get_intra_species_energy(1)`,
accumulated in the same loop, returns `2` on both grids. -/
theorem inter_species_energy_grid_dependent :
    ((Examples.coupledSolver (2 : ℚ) (1 / 24) 1).grid.delta_x *
        ∑ j ∈ inner_box (Examples.coupledSolver (2 : ℚ) (1 / 24) 1).grid,
          Cplx.normSq ((Examples.coupledSolver (2 : ℚ) (1 / 24) 1).state.psi j) = 1 ∧
      (Examples.coupledSolver (2 : ℚ) (1 / 24) 1).grid.delta_x *
        ∑ j ∈ inner_box (Examples.coupledSolver (2 : ℚ) (1 / 24) 1).grid,
          Cplx.normSq ((Examples.coupledSolver (2 : ℚ) (1 / 24) 1).state_b.psi j) = 1 ∧
      (Examples.coupledSolver (2 : ℚ) (1 / 24) 1).hamiltonian.coupling_ab *
          (∑ j ∈ inner_box (Examples.coupledSolver (2 : ℚ) (1 / 24) 1).grid,
            Cplx.normSq ((Examples.coupledSolver (2 : ℚ) (1 / 24) 1).state.psi j) *
              Cplx.normSq ((Examples.coupledSolver (2 : ℚ) (1 / 24) 1).state_b.psi j)) *
          (Examples.coupledSolver (2 : ℚ) (1 / 24) 1).grid.delta_x = 4 ∧
      (get_inter_species_energy (Examples.coupledSolver (2 : ℚ) (1 / 24) 1)).1 = 8 / 3 ∧
      (get_intra_species_energy (Examples.coupledSolver (2 : ℚ) (1 / 24) 1) 1).1 = 2) ∧
    ((Examples.coupledSolver12 (2 : ℚ) (1 / 48) 1).grid.delta_x *
        ∑ j ∈ inner_box (Examples.coupledSolver12 (2 : ℚ) (1 / 48) 1).grid,
          Cplx.normSq ((Examples.coupledSolver12 (2 : ℚ) (1 / 48) 1).state.psi j) = 1 ∧
      (Examples.coupledSolver12 (2 : ℚ) (1 / 48) 1).grid.delta_x *
        ∑ j ∈ inner_box (Examples.coupledSolver12 (2 : ℚ) (1 / 48) 1).grid,
          Cplx.normSq ((Examples.coupledSolver12 (2 : ℚ) (1 / 48) 1).state_b.psi j) = 1 ∧
      (Examples.coupledSolver12 (2 : ℚ) (1 / 48) 1).hamiltonian.coupling_ab *
          (∑ j ∈ inner_box (Examples.coupledSolver12 (2 : ℚ) (1 / 48) 1).grid,
            Cplx.normSq ((Examples.coupledSolver12 (2 : ℚ) (1 / 48) 1).state.psi j) *
              Cplx.normSq ((Examples.coupledSolver12 (2 : ℚ) (1 / 48) 1).state_b.psi j)) *
          (Examples.coupledSolver12 (2 : ℚ) (1 / 48) 1).grid.delta_x = 4 ∧
      (get_inter_species_energy (Examples.coupledSolver12 (2 : ℚ) (1 / 48) 1)).1 = 4 / 3 ∧
      (get_intra_species_energy (Examples.coupledSolver12 (2 : ℚ) (1 / 48) 1) 1).1 = 2) := by
  refine ⟨⟨?_, ?_, ?_, ?_, ?_⟩, ?_, ?_, ?_, ?_, ?_⟩
  · simp [Examples.coupledSolver, Examples.solver, Examples.grid6, Examples.constState,
      inner_box, State1D.psi, Cplx.normSq]
    norm_num
  · simp [Examples.coupledSolver, Examples.solver, Examples.grid6, Examples.constState,
      inner_box, State1D.psi, Cplx.normSq]
    norm_num
  · simp [Examples.coupledSolver, Examples.solver, Examples.grid6, Examples.constState,
      inner_box, Examples.hamiltonian, State1D.psi, Cplx.normSq]
    norm_num
  · rw [get_inter_species_energy_value _ (Or.inl rfl) rfl]
    simp [Examples.coupledSolver, Examples.solver, Examples.grid6, Examples.constState,
      inner_box, Examples.hamiltonian, State1D.psi, Cplx.normSq]
    norm_num
  · rw [get_intra_species_energy_first _ (Or.inl rfl)]
    simp [Examples.coupledSolver, Examples.solver, Examples.grid6, Examples.constState,
      inner_box, Examples.hamiltonian, State1D.psi, Cplx.normSq]
    norm_num
  · simp [Examples.coupledSolver12, Examples.solver, Examples.grid12, Examples.constState,
      inner_box, State1D.psi, Cplx.normSq]
    norm_num
  · simp [Examples.coupledSolver12, Examples.solver, Examples.grid12, Examples.constState,
      inner_box, State1D.psi, Cplx.normSq]
    norm_num
  · simp [Examples.coupledSolver12, Examples.solver, Examples.grid12, Examples.constState,
      inner_box, Examples.hamiltonian, State1D.psi, Cplx.normSq]
    norm_num
  · rw [get_inter_species_energy_value _ (Or.inl rfl) rfl]
    simp [Examples.coupledSolver12, Examples.solver, Examples.grid12, Examples.constState,
      inner_box, Examples.hamiltonian, State1D.psi, Cplx.normSq]
    norm_num
  · rw [get_intra_species_energy_first _ (Or.inl rfl)]
    simp [Examples.coupledSolver12, Examples.solver, Examples.grid12, Examples.constState,
      inner_box, Examples.hamiltonian, State1D.psi, Cplx.normSq]
    norm_num

/-- C11 at the failing input: both components hold the constant `2` over an
interval of length `1/4`, with `ω = 1`, so both squared norms are `1` and
`0.5 · 2 · Re ∑ ω conj(ψ_a) ψ_b dx` is `1`. On six cells (`dx = 1/24`)
`get_rabi_energy()` returns `2/3`, and on twelve cells (`dx = 1/48`), the same
field on a finer grid, it returns `1/3`: the value is not the claimed one and
halves when the grid is refined, while the squared norms, accumulated in the
same loop, are `1` on both grids. -/
theorem rabi_energy_grid_dependent :
    ((Examples.rabiSolver (2 : ℚ) (1 / 24) 1).grid.delta_x *
        ∑ j ∈ inner_box (Examples.rabiSolver (2 : ℚ) (1 / 24) 1).grid,
          Cplx.normSq ((Examples.rabiSolver (2 : ℚ) (1 / 24) 1).state.psi j) = 1 ∧
      (Examples.rabiSolver (2 : ℚ) (1 / 24) 1).grid.delta_x *
        ∑ j ∈ inner_box (Examples.rabiSolver (2 : ℚ) (1 / 24) 1).grid,
          Cplx.normSq ((Examples.rabiSolver (2 : ℚ) (1 / 24) 1).state_b.psi j) = 1 ∧
      1 / 2 * (2 * (∑ j ∈ inner_box (Examples.rabiSolver (2 : ℚ) (1 / 24) 1).grid,
          ((⟨(Examples.rabiSolver (2 : ℚ) (1 / 24) 1).hamiltonian.omega_r,
              (Examples.rabiSolver (2 : ℚ) (1 / 24) 1).hamiltonian.omega_i⟩ : Cplx ℚ) *
            Cplx.conj ((Examples.rabiSolver (2 : ℚ) (1 / 24) 1).state.psi j) *
            (Examples.rabiSolver (2 : ℚ) (1 / 24) 1).state_b.psi j) *
          Cplx.ofReal (Examples.rabiSolver (2 : ℚ) (1 / 24) 1).grid.delta_x).re) = 1 ∧
      (get_rabi_energy (Examples.rabiSolver (2 : ℚ) (1 / 24) 1)).1 = 2 / 3) ∧
    ((Examples.rabiSolver12 (2 : ℚ) (1 / 48) 1).grid.delta_x *
        ∑ j ∈ inner_box (Examples.rabiSolver12 (2 : ℚ) (1 / 48) 1).grid,
          Cplx.normSq ((Examples.rabiSolver12 (2 : ℚ) (1 / 48) 1).state.psi j) = 1 ∧
      (Examples.rabiSolver12 (2 : ℚ) (1 / 48) 1).grid.delta_x *
        ∑ j ∈ inner_box (Examples.rabiSolver12 (2 : ℚ) (1 / 48) 1).grid,
          Cplx.normSq ((Examples.rabiSolver12 (2 : ℚ) (1 / 48) 1).state_b.psi j) = 1 ∧
      1 / 2 * (2 * (∑ j ∈ inner_box (Examples.rabiSolver12 (2 : ℚ) (1 / 48) 1).grid,
          ((⟨(Examples.rabiSolver12 (2 : ℚ) (1 / 48) 1).hamiltonian.omega_r,
              (Examples.rabiSolver12 (2 : ℚ) (1 / 48) 1).hamiltonian.omega_i⟩ : Cplx ℚ) *
            Cplx.conj ((Examples.rabiSolver12 (2 : ℚ) (1 / 48) 1).state.psi j) *
            (Examples.rabiSolver12 (2 : ℚ) (1 / 48) 1).state_b.psi j) *
          Cplx.ofReal (Examples.rabiSolver12 (2 : ℚ) (1 / 48) 1).grid.delta_x).re) = 1 ∧
      (get_rabi_energy (Examples.rabiSolver12 (2 : ℚ) (1 / 48) 1)).1 = 1 / 3) := by
  refine ⟨⟨?_, ?_, ?_, ?_⟩, ?_, ?_, ?_, ?_⟩
  · simp [Examples.rabiSolver, Examples.solver, Examples.grid6, Examples.constState,
      inner_box, State1D.psi, Cplx.normSq]
    norm_num
  · simp [Examples.rabiSolver, Examples.solver, Examples.grid6, Examples.constState,
      inner_box, State1D.psi, Cplx.normSq]
    norm_num
  · rw [Cplx.re_sum]
    simp [Examples.rabiSolver, Examples.solver, Examples.grid6, Examples.constState,
      inner_box, Examples.rabiHamiltonian, State1D.psi]
    norm_num
  · rw [get_rabi_energy_value _ (Or.inl rfl) rfl]
    simp [Examples.rabiSolver, Examples.solver, Examples.grid6, Examples.constState,
      inner_box, Examples.rabiHamiltonian, State1D.psi, Cplx.normSq]
    norm_num
  · simp [Examples.rabiSolver12, Examples.solver, Examples.grid12, Examples.constState,
      inner_box, State1D.psi, Cplx.normSq]
    norm_num
  · simp [Examples.rabiSolver12, Examples.solver, Examples.grid12, Examples.constState,
      inner_box, State1D.psi, Cplx.normSq]
    norm_num
  · rw [Cplx.re_sum]
    simp [Examples.rabiSolver12, Examples.solver, Examples.grid12, Examples.constState,
      inner_box, Examples.rabiHamiltonian, State1D.psi]
    norm_num
  · rw [get_rabi_energy_value _ (Or.inl rfl) rfl]
    simp [Examples.rabiSolver12, Examples.solver, Examples.grid12, Examples.constState,
      inner_box, Examples.rabiHamiltonian, State1D.psi, Cplx.normSq]
    norm_num

end TrotterSuzuki
